import Mathlib

/-!
QSenseHat: the LED matrix display engine (`SHLedMatrix`)

A shallow embedding of `src/SHLedMatrix.h` and `src/SHLedMatrix.cpp`.

Conventions of the embedding

* C `int` / `long` values are `Int`; `quint8` / `quint16` values are `Nat`
  (a narrowing cast is written out as `% 256` / `% 65536`).
* Memory reachable through a `quint16*` is a function from cell offset to cell
  value (`Mem`), the pointer itself being offset `0`.  The mapped framebuffer
  is cells `0 .. 63` of `fbPtr_`; cells from `64` on are whatever memory
  follows the mapping, so that an access past the end of a buffer shows up as
  an access to those cells.
* Every method becomes a function from the object state (and its arguments) to
  the returned value and the new state.  The mutex is not modelled: the model
  is sequential.
* Calls into Qt (font metrics, painting, timers) are represented by their
  results, passed as arguments, or by the fields they set.
-/

namespace QSenseHat

/-! ## Constants of `SHLedMatrix.h` -/

@[simp] def DisplayXSize : Int := 8
@[simp] def DisplayYSize : Int := 8
@[simp] def DisplayBitsPerPixel : Int := 16
@[simp] def DisplayBytesPerPixel : Int := DisplayBitsPerPixel / 8
@[simp] def DisplayLineLenBytes : Int := DisplayXSize * DisplayBytesPerPixel
@[simp] def DisplayMemSizeBytes : Int := DisplayXSize * DisplayYSize * DisplayBytesPerPixel

/-- The macro `BlockSize` of `SHLedMatrix.cpp`. -/
@[simp] def BlockSize : Int := 4

/-- Amount of rotation (`enum BufRotate`). -/
inductive BufRotate where
  | ROT_90
  | ROT_180
  | ROT_270
  deriving DecidableEq

/-- Reverse rows or columns (`enum RevDir`). -/
inductive RevDir where
  | REV_ROW
  | REV_COL
  deriving DecidableEq

/-! ## 16 bit colours (`class Color16b`) -/

namespace Color16b

def MaxRed : Nat := 31
def RedMask : Nat := 0x001F
def RedShift : Nat := 11
def MaxGreen : Nat := 63
def GreenMask : Nat := 0x003F
def GreenShift : Nat := 5
def MaxBlue : Nat := 31
def BlueMask : Nat := 0x001F
def BlueShift : Nat := 0

/-- The static `getColorValue( quint8 red, quint8 green, quint8 blue )`; the
outer `% 65536` is the cast to `quint16`. -/
def getColorValue (red green blue : Nat) : Nat :=
  ((((red &&& RedMask) <<< RedShift) |||
    ((green &&& GreenMask) <<< GreenShift)) |||
    (blue &&& BlueMask)) % 65536

/-- The accessor `redVal()`: the cast to `quint8` binds tighter than the mask. -/
def redVal (col : Nat) : Nat := (((col >>> RedShift) % 256) &&& RedMask) % 256

/-- The accessor `greenVal()`. -/
def greenVal (col : Nat) : Nat := (((col >>> GreenShift) % 256) &&& GreenMask) % 256

/-- The accessor `blueVal()`, which the source writes with `RedShift`. -/
def blueVal (col : Nat) : Nat := (((col >>> RedShift) % 256) &&& BlueMask) % 256

def aqua : Nat := getColorValue 0 63 31
def black : Nat := getColorValue 0 0 0
def blue : Nat := getColorValue 0 0 31
def fuschia : Nat := getColorValue 31 0 31
def gray : Nat := getColorValue 16 32 16
def green : Nat := getColorValue 0 32 0
def lime : Nat := getColorValue 0 63 0
def maroon : Nat := getColorValue 16 0 0
def navy : Nat := getColorValue 0 0 16
def purple : Nat := getColorValue 16 0 16
def red : Nat := getColorValue 31 0 0
def silver : Nat := getColorValue 24 48 24
def teal : Nat := getColorValue 0 32 16
def olive : Nat := getColorValue 16 32 0
def white : Nat := getColorValue 31 63 31
def yellow : Nat := getColorValue 31 63 0

end Color16b

/-! ## Memory -/

/-- Cells of 16 bits reachable from a `quint16*`, by cell offset. -/
abbrev Mem := Nat → Nat

/-- The store `*(p + a) = v`.  An offset below the pointer hits no modelled cell. -/
def poke (m : Mem) (a : Int) (v : Nat) : Mem :=
  fun k => if (k : Int) = a then v else m k

/-- The load `*(p + a)`. -/
def peek (m : Mem) (a : Int) : Nat := m a.toNat

/-- `qSwap( mat[i], mat[j] )`. -/
def qSwap (m : Mem) (i j : Int) : Mem :=
  fun k => if (k : Int) = i then peek m j else if (k : Int) = j then peek m i else m k

/-- Width in bits of `size_t` on the 32 bit ARM userland the Sense HAT library
is built for.  It only matters where a negative `int` is turned into a byte
count. -/
def SizeTBits : Nat := 32

/-- Conversion of an `int` expression to `size_t`. -/
def toSizeT (v : Int) : Nat := (v % (2 : Int) ^ SizeTBits).toNat

/-- `memcpy( dest + dOff, src + sOff, nBytes )` on non-overlapping 16 bit
buffers: `nBytes / 2` cells are copied. -/
def memcpy (dest : Mem) (dOff : Int) (src : Mem) (sOff : Int) (nBytes : Nat) : Mem :=
  fun k =>
    if dOff ≤ (k : Int) ∧ (k : Int) < dOff + ((nBytes / 2 : Nat) : Int) then
      peek src ((k : Int) - dOff + sOff)
    else dest k

/-- `memset( p, c, nBytes )` seen through 16 bit cells: each of the first
`nBytes / 2` cells gets the byte `c` in both halves. -/
def memset (m : Mem) (c : Nat) (nBytes : Nat) : Mem :=
  fun k => if k < nBytes / 2 then (c % 256) * 257 else m k

/-- The loop `for ( v = lo; v < hi; v++ ) body`, threading the state. -/
def forRange {σ : Type} (lo hi : Int) (body : Int → σ → σ) (init : σ) : σ :=
  (List.range (hi - lo).toNat).foldl (fun st (k : Nat) => body (lo + (k : Int)) st) init

/-! ## Qt values the engine holds -/

/-- The values of `QImage::Format` the engine can meet. -/
inductive QImageFormat where
  | Format_Invalid
  | Format_RGB32
  | Format_ARGB32
  | Format_RGB16
  deriving DecidableEq

/-- A `QImage`: its size, its format, and its scan lines as 16 bit cells. -/
structure QImage where
  width : Int
  height : Int
  format : QImageFormat
  scanLine : Int → Mem

/-- `new QImage( w, h, format )` followed by painting `pixels` into it.  Qt
gives the null image for a size that is not positive, and painting on a null
image draws nothing. -/
def newQImage (w h : Int) (format : QImageFormat) (pixels : Int → Mem) : QImage :=
  if w ≤ 0 ∨ h ≤ 0 then
    { width := 0, height := 0, format := QImageFormat.Format_Invalid, scanLine := fun _ _ => 0 }
  else
    { width := w, height := h, format := format, scanLine := pixels }

/-! ## The engine state (`class SHLedMatrix`) -/

/-- The member variables of `SHLedMatrix`.  `txtFont_` is its family and point
size, `txtTimer_` is whether the timer runs and its interval, and
`errorSignals` is the sequence of `error( QString )` signals emitted so far.
The pointer `txtImg_` is `none` when null and `some img` when not, `img` being
the image behind it; `txtImgFromNew` tells whether its value is a pointer that
`new QImage` returned, which `scrollText` assigns, or still the value the
member, which the constructor does not initialise, happened to have. -/
structure SHLedMatrix where
  fbFd_ : Int
  ready_ : Bool
  lastError_ : String
  txtFontFamily : String
  txtFontPointSize : Int
  txtImg_ : Option QImage
  txtLen_ : Int
  curTxtOffset_ : Int
  isScrollingText_ : Bool
  txtTimerActive : Bool
  txtTimerInterval : Int
  fbPtr_ : Mem
  validFbPtr_ : Bool
  errorSignals : List String
  txtImgFromNew : Bool

/-- The method `ready()`. -/
def ready (s : SHLedMatrix) : Bool := s.ready_

/-- The method `xResolution()`. -/
def xResolution (_s : SHLedMatrix) : Int := DisplayXSize

/-- The method `yResolution()`. -/
def yResolution (_s : SHLedMatrix) : Int := DisplayYSize

/-- The method `lastError()`. -/
def lastError (s : SHLedMatrix) : String := s.lastError_

/-- `SHLedMatrix::locationFromCoordinates`. -/
def locationFromCoordinates (x y : Int) : Int :=
  y * DisplayXSize + x

/-- The message chosen by the coordinate checks of `setPixel`, `drawHLine`
and `drawVLine`. -/
def coordinateError (xValid yValid : Bool) : String :=
  if !xValid && yValid then "Invalid X coordinate"
  else if xValid && !yValid then "Invalid Y coordinate"
  else "Invalid X and Y coordinates"

/-- `SHLedMatrix::clear`. -/
def clear (s : SHLedMatrix) : Bool × SHLedMatrix :=
  if !s.ready_ then
    (false, { s with lastError_ := "Device not ready" })
  else
    (true, { s with fbPtr_ := memset s.fbPtr_ 0 DisplayMemSizeBytes.toNat })

/-- `SHLedMatrix::setPixel`. -/
def setPixel (s : SHLedMatrix) (x y : Int) (color : Nat) : Bool × SHLedMatrix :=
  if !s.ready_ then
    (false, { s with lastError_ := "Device not initialized!!!" })
  else
    let xValid : Bool := decide (x ≥ 0 ∧ x < DisplayXSize)
    let yValid : Bool := decide (y ≥ 0 ∧ y < DisplayYSize)
    if !xValid || !yValid then
      (false, { s with lastError_ := coordinateError xValid yValid })
    else
      let location := locationFromCoordinates x y
      (true, { s with fbPtr_ := poke s.fbPtr_ location color })

/-- `SHLedMatrix::drawHLine`. -/
def drawHLine (s : SHLedMatrix) (x1 x2 y : Int) (color : Nat) : Bool × SHLedMatrix :=
  if !s.ready_ then
    (false, { s with lastError_ := "Device not initialized!!!" })
  else
    let xValid : Bool := decide (x1 ≥ 0 ∧ x1 < DisplayXSize ∧ x2 ≥ 0 ∧ x2 < DisplayXSize)
    let yValid : Bool := decide (y ≥ 0 ∧ y < DisplayYSize)
    if !xValid || !yValid then
      (false, { s with lastError_ := coordinateError xValid yValid })
    else
      let p : Int × Int := if x2 < x1 then (x2, x1) else (x1, x2)
      let location := locationFromCoordinates p.1 y
      let lineLenPix := p.2 - p.1 + 1
      let fb := forRange 0 lineLenPix (fun i fb => poke fb (location + i) color) s.fbPtr_
      (true, { s with fbPtr_ := fb })

/-- `SHLedMatrix::drawVLine`. -/
def drawVLine (s : SHLedMatrix) (x y1 y2 : Int) (color : Nat) : Bool × SHLedMatrix :=
  if !s.ready_ then
    (false, { s with lastError_ := "Device not initialized!!!" })
  else
    let xValid : Bool := decide (x ≥ 0 ∧ x < DisplayXSize)
    let yValid : Bool := decide (y1 ≥ 0 ∧ y1 < DisplayYSize ∧ y2 ≥ 0 ∧ y2 < DisplayYSize)
    if !xValid || !yValid then
      (false, { s with lastError_ := coordinateError xValid yValid })
    else
      let p : Int × Int := if y2 < y1 then (y2, y1) else (y1, y2)
      let location := locationFromCoordinates x p.1
      let lineLenPix := p.2 - p.1 + 1
      let fb := forRange 0 lineLenPix
        (fun i fb => poke fb (location + i * DisplayXSize) color) s.fbPtr_
      (true, { s with fbPtr_ := fb })

/-- `SHLedMatrix::fill( quint16 )`. -/
def fill (s : SHLedMatrix) (fillColor : Nat) : Bool × SHLedMatrix :=
  let NumPixels : Int := DisplayXSize * DisplayYSize
  if !s.ready_ then
    (false, { s with lastError_ := "Device not initialized!!!" })
  else
    (true, { s with fbPtr_ := forRange 0 NumPixels (fun i fb => poke fb i fillColor) s.fbPtr_ })

/-- `SHLedMatrix::setMatrix`. -/
def setMatrix (s : SHLedMatrix) (buffer : Mem) : Bool × SHLedMatrix :=
  if !s.ready_ then
    (false, { s with lastError_ := "Device not initialized!!!" })
  else
    (true, { s with fbPtr_ := memcpy s.fbPtr_ 0 buffer 0 DisplayMemSizeBytes.toNat })

/-- The variables the copy loop of `setBlock` updates: the framebuffer memory
and the two moving pointers, as offsets from `srcBuf` and from `fbPtr_`. -/
structure BlockCursor where
  fb : Mem
  srcBuf : Int
  destBuf : Int

/-- One turn of the copy loop of `setBlock`: copy a line, then adjust both
pointers. -/
def setBlockLine (src : Mem) (xSize : Int) (c : BlockCursor) : BlockCursor :=
  { fb := memcpy c.fb c.destBuf src c.srcBuf (toSizeT (xSize * 2)),
    srcBuf := c.srcBuf + DisplayXSize,
    destBuf := c.destBuf + DisplayYSize }

/-- `SHLedMatrix::setBlock`. -/
def setBlock (s : SHLedMatrix) (srcBuf : Mem) (xSize ySize destX destY : Int) :
    Bool × SHLedMatrix :=
  let endX := destX + xSize - 1
  let endY := destY + ySize - 1
  if !s.ready_ then
    (false, { s with lastError_ := "Device not initialized!!!" })
  else if destX < 0 ∨ endX < 0 ∨ destX ≥ DisplayXSize ∨ endX ≥ DisplayXSize ∨
      destY < 0 ∨ endY < 0 ∨ destY ≥ DisplayYSize ∨ endY ≥ DisplayYSize then
    (false, { s with lastError_ := "Invalid parameter" })
  else
    let start : BlockCursor :=
      { fb := s.fbPtr_, srcBuf := 0, destBuf := locationFromCoordinates destX destY }
    let last := forRange 0 ySize (fun _ c => setBlockLine srcBuf xSize c) start
    (true, { s with fbPtr_ := last.fb })

/-- `SHLedMatrix::transpose`. -/
def transpose (matrix : Mem) (mSize : Int) : Mem :=
  forRange 0 (mSize - 1) (fun i m =>
    forRange 1 (mSize - i) (fun j m2 =>
      let idx1 := (i * mSize + i) + j
      let idx2 := (i * mSize + i) + j * mSize
      qSwap m2 idx1 idx2) m) matrix

/-- `SHLedMatrix::reverse`.  For a negative `mSize` the C quotient `mSize / 2`
and the one used here may differ, but neither is positive and no loop runs. -/
def reverse (mat : Mem) (mSize : Int) (revDir : RevDir) : Mem :=
  let num := mSize / 2
  if revDir = RevDir.REV_COL then
    forRange 0 num (fun x m =>
      forRange 0 mSize (fun y m2 =>
        let idx1 := y * mSize + x
        let idx2 := y * mSize + (mSize - x - 1)
        qSwap m2 idx1 idx2) m) mat
  else
    forRange 0 num (fun y m =>
      forRange 0 mSize (fun x m2 =>
        let idx1 := y * mSize + x
        let idx2 := (mSize - y - 1) * mSize + x
        qSwap m2 idx1 idx2) m) mat

/-- The in-place `SHLedMatrix::rotateBuffer( src, blockSize, rot )`. -/
def rotateBuffer (src : Mem) (blockSize : Int) (rot : BufRotate) : Mem :=
  match rot with
  | BufRotate.ROT_90 => reverse (transpose src blockSize) blockSize RevDir.REV_COL
  | BufRotate.ROT_180 =>
      reverse (reverse src blockSize RevDir.REV_ROW) blockSize RevDir.REV_COL
  | BufRotate.ROT_270 => reverse (transpose src blockSize) blockSize RevDir.REV_ROW

/-- The out-of-place `SHLedMatrix::rotateBuffer( src, dest, blockSize, rot )`;
the result is the new content of `dest` (`src` is only read). -/
def rotateBufferDest (src dest : Mem) (blockSize : Int) (rot : BufRotate) : Mem :=
  rotateBuffer (memcpy dest 0 src 0 (toSizeT (blockSize * blockSize * 2))) blockSize rot

/-- The out-of-place `rotateBuffer` called with two pointers into one memory,
`src = mem + srcOff` and `dest = mem + destOff`, the two buffers not
overlapping (as `memcpy` requires); the result is the memory after the call. -/
def rotateBufferAt (mem : Mem) (srcOff destOff : Nat) (blockSize : Int) (rot : BufRotate) :
    Mem :=
  let out := rotateBufferDest (fun k => mem (srcOff + k)) (fun k => mem (destOff + k))
    blockSize rot
  fun a => if destOff ≤ a then out (a - destOff) else mem a

/-- `SHLedMatrix::kaleidoscope`.  `alt` is the memory at the local array
`alt[BlockSize][BlockSize]` when the method is entered: its first 16 cells are
the array, not yet initialised, and the cells after them are the stack memory
that follows the array. -/
def kaleidoscope (s : SHLedMatrix) (buf4x4 : Mem) (alt : Mem) : Bool × SHLedMatrix :=
  if !s.ready_ then
    (false, { s with lastError_ := "Device not initialized!!!" })
  else
    let s1 := (setBlock s buf4x4 BlockSize BlockSize 0 0).2
    let alt1 := rotateBufferDest buf4x4 alt BlockSize BufRotate.ROT_90
    let s2 := (setBlock s1 alt1 BlockSize BlockSize BlockSize 0).2
    let alt2 := rotateBufferDest buf4x4 alt1 BlockSize BufRotate.ROT_180
    let s3 := (setBlock s2 alt2 BlockSize BlockSize BlockSize BlockSize).2
    let alt3 := rotateBufferDest buf4x4 alt2 BlockSize BufRotate.ROT_270
    let s4 := (setBlock s3 alt3 BlockSize BlockSize 0 BlockSize).2
    (true, s4)

/-- `SHLedMatrix::setImage`; `xOffset` and `yOffset` are `quint16`. -/
def setImage (s : SHLedMatrix) (image : QImage) (xOffset yOffset : Nat) :
    Bool × SHLedMatrix :=
  if !s.ready_ then
    (false, { s with lastError_ := "Device not initialized!!!" })
  else if image.width < DisplayXSize + (xOffset : Int) ∨
      image.height < DisplayYSize + (yOffset : Int) ∨
      image.format ≠ QImageFormat.Format_RGB16 then
    (false, { s with lastError_ := "Invalid image" })
  else
    let fb := forRange (yOffset : Int) (DisplayYSize + (yOffset : Int)) (fun row fb =>
      memcpy fb (row * DisplayXSize) (image.scanLine row) (xOffset : Int)
        DisplayLineLenBytes.toNat) s.fbPtr_
    (true, { s with fbPtr_ := fb })

/-- Conversion of an `int` argument to a `quint16` parameter. -/
def toQuint16 (v : Int) : Nat := (v % 65536).toNat

/-- `SHLedMatrix::scrollText( QString, quint8 )`.  `txtWidth` is the value of
`fm.width( txt )` and `strip` the pixels `QPainter` leaves in the text image
(black background, text drawn in blue).  The result is `none` when the call
traps: on the `delete` of a `txtImg_` that is neither null nor a pointer `new`
returned, or on the integer division by zero. -/
def scrollText (s : SHLedMatrix) (txtWidth : Int) (strip : Int → Mem) (pixelsPerSec : Nat) :
    Option (Bool × SHLedMatrix) :=
  if !s.ready_ then
    some (false, { s with lastError_ := "Device not initialized!!!" })
  else if s.isScrollingText_ then
    some (false, { s with lastError_ := "Already scrolling text" })
  else if s.txtImg_.isSome && !s.txtImgFromNew then none
  else
    let img := newQImage (txtWidth + 1) DisplayYSize QImageFormat.Format_RGB16 strip
    let s1 : SHLedMatrix :=
      { s with txtLen_ := txtWidth, txtImg_ := some img, txtImgFromNew := true,
               curTxtOffset_ := 0, isScrollingText_ := true }
    let s2 := (setImage s1 img (toQuint16 s1.curTxtOffset_) 0).2
    if pixelsPerSec = 0 then none
    else
      let timerPeriodMsec : Int := 1000 / (pixelsPerSec : Int)
      some (true, { s2 with txtTimerActive := true, txtTimerInterval := timerPeriodMsec })

/-- The slot `SHLedMatrix::handleScrollText`, run on each timer tick.  The
result is `none` when the tick dereferences a `txtImg_` that is null or is not
a pointer `new` returned. -/
def handleScrollText (s : SHLedMatrix) : Option SHLedMatrix :=
  if !s.isScrollingText_ then
    some { s with txtTimerActive := false }
  else
    let s1 : SHLedMatrix := { s with curTxtOffset_ := s.curTxtOffset_ + 1 }
    match s1.txtImg_ with
    | none => none
    | some img =>
      if !s1.txtImgFromNew then none
      else
        let s2 := (setImage s1 img (toQuint16 s1.curTxtOffset_) 0).2
        if s2.curTxtOffset_ ≥ s2.txtLen_ - DisplayXSize then
          some { s2 with isScrollingText_ := false, txtTimerActive := false }
        else some s2

/-- `SHLedMatrix::setTextFamily`. -/
def setTextFamily (s : SHLedMatrix) (family : String) : SHLedMatrix :=
  { s with txtFontFamily := family }

/-- `SHLedMatrix::setTextPointSize`. -/
def setTextPointSize (s : SHLedMatrix) (pSize : Int) : SHLedMatrix :=
  { s with txtFontPointSize := pSize }

/-- `n` successive timer ticks: the slot `handleScrollText` run `n` times, a
trap ending the run. -/
def runTicks : Nat → SHLedMatrix → Option SHLedMatrix
  | 0, s => some s
  | n + 1, s => (runTicks n s).bind handleScrollText

/-! ## Device discovery and setup -/

/-- The constant `INVALID_FB`. -/
def INVALID_FB : Int := -1

/-- The constant `FB_NAME`. -/
def FB_NAME : String := "RPi-Sense FB"

/-- One entry of `/dev/fb*` as the scan of `findFbDevice` meets it: the value
`open` returns for it, and the content of `fixInfo.id` after the
`FBIOGET_FSCREENINFO` call made on it. -/
structure FbCandidate where
  fd : Int
  id : String

/-- `SHLedMatrix::findFbDevice`, over the entries `/dev/fb*` in the order the
directory listing gives them.  The first entry that opens and carries the
name `FB_NAME` is returned; when none does the `error` signal is emitted and
`INVALID_FB` returned. -/
def findFbDevice (s : SHLedMatrix) : List FbCandidate → Int × SHLedMatrix
  | [] =>
    (INVALID_FB,
      { s with errorSignals :=
                s.errorSignals ++ ["Display: Could not find framebuffer device!!!"] })
  | f :: rest =>
    if f.fd < 0 then findFbDevice s rest
    else if f.id = FB_NAME then (f.fd, s)
    else findFbDevice s rest

/-- The fields of `struct fb_var_screeninfo` that `setupFbDevice` reads. -/
structure FbVarScreeninfo where
  xres : Nat
  yres : Nat
  bits_per_pixel : Nat
  xoffset : Nat
  yoffset : Nat

/-- What the system answers during `setupFbDevice`: the values returned by the
two `ioctl` calls, the variable screen information, and the result of `mmap`
(`none` for `MAP_FAILED`, otherwise the memory behind the new mapping). -/
structure FbSetup where
  fixResult : Int
  varResult : Int
  vInfo : FbVarScreeninfo
  mapped : Option Mem

/-- `SHLedMatrix::setupFbDevice`. -/
def setupFbDevice (s : SHLedMatrix) (sys : FbSetup) : SHLedMatrix :=
  if sys.fixResult = -1 then
    { s with lastError_ := "Error reading fixed information from framebuffer",
             errorSignals := s.errorSignals ++
               ["Display: Error reading fixed information from framebuffer"] }
  else if sys.varResult = -1 then
    { s with lastError_ := "Error reading variable information from framebuffer",
             errorSignals := s.errorSignals ++
               ["Display: Error reading variable information from framebuffer"] }
  else
    let expected0 : Bool := true
    let expected1 : Bool :=
      if (sys.vInfo.xres : Int) ≠ DisplayXSize ∨ (sys.vInfo.yres : Int) ≠ DisplayYSize then false
      else expected0
    let expected2 : Bool :=
      if (sys.vInfo.bits_per_pixel : Int) ≠ DisplayBitsPerPixel then false else expected1
    let expected3 : Bool :=
      if sys.vInfo.xoffset ≠ 0 ∨ sys.vInfo.yoffset ≠ 0 then false else expected2
    if !expected3 then
      { s with lastError_ := "Framebuffer parameters are different than expected",
               errorSignals := s.errorSignals ++
                 ["Display: Framebuffer parameters are different than expected"] }
    else
      match sys.mapped with
      | some m => (clear { s with fbPtr_ := m, validFbPtr_ := true, ready_ := true }).2
      | none =>
        { s with errorSignals :=
                  s.errorSignals ++ ["Display: Error getting framebuffer memory map"] }

/-- The member initialisation at the head of the constructor.  `txtImg0` is
the value the member `txtImg_`, which the constructor does not initialise,
happens to have; it is not a pointer `new` returned. -/
def initialMembers (txtImg0 : Option QImage) : SHLedMatrix :=
  { ready_ := false, fbFd_ := INVALID_FB, lastError_ := "LED Matrix not initialized yet...",
    validFbPtr_ := false, fbPtr_ := fun _ => 0, isScrollingText_ := false,
    curTxtOffset_ := 0, txtLen_ := 0, txtFontFamily := "Helvetica", txtFontPointSize := 8,
    txtTimerActive := false, txtTimerInterval := 0, txtImg_ := txtImg0,
    txtImgFromNew := false, errorSignals := [] }

/-- The constructor `SHLedMatrix::SHLedMatrix`: member initialisation, device
scan, and the setup when a device was found.  `files` and `sys` are what the
system answers to the scan and to the setup. -/
def newSHLedMatrix (txtImg0 : Option QImage) (files : List FbCandidate) (sys : FbSetup) :
    SHLedMatrix :=
  let found := findFbDevice (initialMembers txtImg0) files
  let s1 : SHLedMatrix := { found.2 with fbFd_ := found.1 }
  if s1.fbFd_ ≠ INVALID_FB then setupFbDevice s1 sys else s1

/-! ## Sample values -/

/-- An engine whose device setup succeeded: ready, framebuffer cleared, idle. -/
def readyEngine : SHLedMatrix :=
  { fbFd_ := 3, ready_ := true, lastError_ := "LED Matrix not initialized yet...",
    txtFontFamily := "Helvetica", txtFontPointSize := 8, txtImg_ := none, txtLen_ := 0,
    curTxtOffset_ := 0, isScrollingText_ := false, txtTimerActive := false,
    txtTimerInterval := 0, fbPtr_ := fun _ => 0, validFbPtr_ := true, errorSignals := [],
    txtImgFromNew := false }

/-- An engine for which no framebuffer device was found. -/
def freshEngine : SHLedMatrix :=
  { readyEngine with fbFd_ := -1, ready_ := false, validFbPtr_ := false,
                     errorSignals := ["Display: Could not find framebuffer device!!!"] }

/-- A ready engine whose framebuffer cell `k` holds `k + 100`. -/
def paintedEngine : SHLedMatrix :=
  { readyEngine with fbPtr_ := fun k => k + 100 }

/-- Memory holding the value `k + 1` in cell `k`. -/
def countingBuffer : Mem := fun k => k + 1

/-- A ready engine in the middle of a scroll: a strip of 21 columns is shown
at offset 3 and the timer runs every 66 ms. -/
def scrollingEngine : SHLedMatrix :=
  { readyEngine with
      txtImg_ := some (newQImage 21 8 QImageFormat.Format_RGB16 (fun _ => countingBuffer)),
      txtImgFromNew := true,
      txtLen_ := 20, curTxtOffset_ := 3, isScrollingText_ := true, txtTimerActive := true,
      txtTimerInterval := 66 }

/-- An RGB565 image of 10 columns and 9 rows whose pixel in column `c` of row
`r` holds `1000 + 16 * r + c`. -/
def sampleImage : QImage :=
  { width := 10, height := 9, format := QImageFormat.Format_RGB16,
    scanLine := fun r c => 1000 + 16 * r.toNat + c }

/-- The pixels of a rendered text strip: column `c` of row `r` holds
`1000 + 16 * r + c`. -/
def sampleStrip : Int → Mem := fun r c => 1000 + 16 * r.toNat + c

/-- The Sense HAT framebuffer as the device scan meets it. -/
def senseHatFb : FbCandidate := { fd := 3, id := "RPi-Sense FB" }

/-- The answers of a Sense HAT framebuffer to the setup: both queries succeed,
the geometry is 8 x 8 at 16 bits with no offsets, and the mapping succeeds on
memory whose cell `k` holds `k + 100`. -/
def senseHatSetup : FbSetup :=
  { fixResult := 0, varResult := 0,
    vInfo := { xres := 8, yres := 8, bits_per_pixel := 16, xoffset := 0, yoffset := 0 },
    mapped := some (fun k => k + 100) }

/-- `DrawsOnly s t`: the state `t` differs from `s` at most in the framebuffer
memory and in `lastError`. -/
def DrawsOnly (s t : SHLedMatrix) : Prop :=
  t = { s with fbPtr_ := t.fbPtr_, lastError_ := t.lastError_ }

/-- The messages the drawing operations record in `lastError` when they fail. -/
def failureMessages : List String :=
  ["Device not ready", "Device not initialized!!!", "Invalid X coordinate",
   "Invalid Y coordinate", "Invalid X and Y coordinates", "Invalid parameter",
   "Invalid image", "Already scrolling text"]

/-- `Scrolling txtWidth strip n s`: the ready engine `s` is scrolling the strip
rendered for a text of measured width `txtWidth`, at offset `n`; the strip is
the image `scrollText` allocated. -/
def Scrolling (txtWidth : Int) (strip : Int → Mem) (n : Int) (s : SHLedMatrix) : Prop :=
  s.ready_ = true ∧ s.isScrollingText_ = true ∧ s.txtLen_ = txtWidth ∧ s.curTxtOffset_ = n ∧
  s.txtImg_ = some (newQImage (txtWidth + 1) DisplayYSize QImageFormat.Format_RGB16 strip) ∧
  s.txtImgFromNew = true

/-- `ShowsWindow strip f fb`: the 64 framebuffer cells of `fb` show the 8x8
window of the strip that starts at column `f`. -/
def ShowsWindow (strip : Int → Mem) (f : Nat) (fb : Mem) : Prop :=
  ∀ x y : Nat, x < 8 → y < 8 → fb (y * 8 + x) = strip (y : Int) (f + x)

/-- `RecordsOnly s r`: the call that gave the result `r` on the state `s`
emitted no `error` signal, and if it failed it left one of the failure
messages in `lastError`. -/
def RecordsOnly (s : SHLedMatrix) (r : Bool × SHLedMatrix) : Prop :=
  r.2.errorSignals = s.errorSignals ∧ (r.1 = false → r.2.lastError_ ∈ failureMessages)

/-- The answers of a framebuffer that reports 32 bits per pixel. -/
def wrongDepthSetup : FbSetup :=
  { senseHatSetup with
      vInfo := { xres := 8, yres := 8, bits_per_pixel := 32, xoffset := 0, yoffset := 0 } }

/-- `GeometryExpected v`: the variable screen information is the one of the
Sense HAT display, 8 x 8 cells of 16 bits with no pan offsets. -/
def GeometryExpected (v : FbVarScreeninfo) : Prop :=
  v.xres = 8 ∧ v.yres = 8 ∧ v.bits_per_pixel = 16 ∧ v.xoffset = 0 ∧ v.yoffset = 0

/-- `DeviceListed files`: some entry of the scan opens and carries the name
`FB_NAME`. -/
def DeviceListed (files : List FbCandidate) : Prop :=
  ∃ f : FbCandidate, f ∈ files ∧ 0 ≤ f.fd ∧ f.id = FB_NAME

/-- The state a call of `scrollText` leaves behind (the state it found, when
the call traps). -/
def afterScrollText (s : SHLedMatrix) (txtWidth : Int) (strip : Int → Mem)
    (pixelsPerSec : Nat) : SHLedMatrix :=
  match scrollText s txtWidth strip pixelsPerSec with
  | some r => r.2
  | none => s

/-- Memory holding its own offset in every cell. -/
def indexMem : Mem := fun k => k

/-- `BlockPerm N F`: the buffer operation `F` only moves cells around (cell `k`
of the result is cell `F indexMem k` of the input), keeps the first `N` cells
among themselves and leaves every cell from `N` on in place. -/
def BlockPerm (N : Nat) (F : Mem → Mem) : Prop :=
  (∀ (m : Mem) (k : Nat), F m k = m (F indexMem k)) ∧
  (∀ k : Nat, k < N → F indexMem k < N) ∧
  (∀ k : Nat, N ≤ k → F indexMem k = k)

/-! ## Swaps made by the buffer utilities -/

/-- The index pairs `(idx1, idx2)` that `SHLedMatrix::transpose` hands to
`qSwap`, in the order its two loops make the calls. -/
def transposeSwaps (mSize : Int) : List (Int × Int) :=
  forRange 0 (mSize - 1) (fun i l =>
    forRange 1 (mSize - i) (fun j l2 =>
      let idx1 := (i * mSize + i) + j
      let idx2 := (i * mSize + i) + j * mSize
      l2 ++ [(idx1, idx2)]) l) []

/-- A sequence of `qSwap` calls applied to a buffer. -/
def runSwaps (l : List (Int × Int)) (m : Mem) : Mem :=
  l.foldl (fun st p => qSwap st p.1 p.2) m

/-! ## The joystick (`SHJoystick.cpp`) -/

/-- The constant `INVALID_DEV`. -/
def INVALID_DEV : Int := -1

/-- The constant `JOYSTICK_NAME`. -/
def JOYSTICK_NAME : String := "Raspberry Pi Sense HAT Joystick"

/-- Joystick events (`enum Joystick_Event`). -/
inductive Joystick_Event where
  | JS_ENTER
  | JS_LEFT
  | JS_RIGHT
  | JS_UP
  | JS_DOWN
  deriving DecidableEq

/-- Event type `EV_KEY` of `linux/input.h`. -/
def EV_KEY : Nat := 1

/-- Key code `KEY_ENTER` of `linux/input.h`. -/
def KEY_ENTER : Nat := 28

/-- Key code `KEY_UP` of `linux/input.h`. -/
def KEY_UP : Nat := 103

/-- Key code `KEY_LEFT` of `linux/input.h`. -/
def KEY_LEFT : Nat := 105

/-- Key code `KEY_RIGHT` of `linux/input.h`. -/
def KEY_RIGHT : Nat := 106

/-- Key code `KEY_DOWN` of `linux/input.h`. -/
def KEY_DOWN : Nat := 108

/-- A `struct input_event` without its time stamp: `type` and `code` are
`__u16`, `value` is `__s32`. -/
structure input_event where
  type : Nat
  code : Nat
  value : Int

/-- The local constant `MaxEvents` of `JsThread::handleEvents`. -/
def MaxEvents : Int := 64

/-- The local constant `EventSize`, `sizeof(struct input_event)`: 16 bytes on
the 32 bit ARM userland (8 of time stamp, 2 of type, 2 of code, 4 of value). -/
def EventSize : Int := 16

/-- `JsThread::handleEvents`.  `bytesRead` is the value `read` returned and
`ev` the array it filled; the result is the sequence of `joystickEvent`
signals emitted, in order.  Past the first test `bytesRead` and `EventSize`
are positive, where the C quotient is the one used here. -/
def handleEvents (bytesRead : Int) (ev : Nat → input_event) : List Joystick_Event :=
  if bytesRead < EventSize then []
  else
    let numEvents := bytesRead / EventSize
    forRange 0 numEvents (fun i emitted =>
      if (ev i.toNat).type ≠ EV_KEY then emitted
      else if (ev i.toNat).value ≠ 1 then emitted
      else if (ev i.toNat).code = KEY_ENTER then emitted ++ [Joystick_Event.JS_ENTER]
      else if (ev i.toNat).code = KEY_UP then emitted ++ [Joystick_Event.JS_UP]
      else if (ev i.toNat).code = KEY_DOWN then emitted ++ [Joystick_Event.JS_DOWN]
      else if (ev i.toNat).code = KEY_LEFT then emitted ++ [Joystick_Event.JS_LEFT]
      else if (ev i.toNat).code = KEY_RIGHT then emitted ++ [Joystick_Event.JS_RIGHT]
      else emitted) []

/-- The event a record stands for, in the words of the specification: a key
record (`EV_KEY`) with value 1 and one of the five key codes gives the event
of that key, any other record gives none. -/
def eventOfRecord (e : input_event) : Option Joystick_Event :=
  if e.type = EV_KEY ∧ e.value = 1 then
    if e.code = KEY_ENTER then some Joystick_Event.JS_ENTER
    else if e.code = KEY_UP then some Joystick_Event.JS_UP
    else if e.code = KEY_DOWN then some Joystick_Event.JS_DOWN
    else if e.code = KEY_LEFT then some Joystick_Event.JS_LEFT
    else if e.code = KEY_RIGHT then some Joystick_Event.JS_RIGHT
    else none
  else none

/-- A `JsThread` object as its owner sees it: the descriptor it polls and
whether the worker is running (`QThread::isRunning`). -/
structure JsThread where
  jsFd_ : Int
  isRunning : Bool

/-- The member variables of `SHJoystick`; `jsThread_` is `none` for the null
pointer, and `errorSignals` is the sequence of `error( QString )` signals
emitted so far. -/
structure SHJoystick where
  jsFd_ : Int
  jsThread_ : Option JsThread
  ready_ : Bool
  errorSignals : List String

/-- One entry of `/dev/input/event*` as the scan of `findJsDevice` meets it:
the value `open` returns for it, and the name `EVIOCGNAME` reports. -/
structure JsCandidate where
  fd : Int
  name : String

/-- `SHJoystick::findJsDevice`: the descriptor found, or `INVALID_DEV` with the
`error` signal emitted. -/
def findJsDevice (signals : List String) : List JsCandidate → Int × List String
  | [] => (INVALID_DEV, signals ++ ["Joystick: Could not find joystick device!!!"])
  | f :: rest =>
    if f.fd < 0 then findJsDevice signals rest
    else if f.name = JOYSTICK_NAME then (f.fd, signals)
    else findJsDevice signals rest

/-- The constructor `SHJoystick::SHJoystick`: when the device is found the
worker is created on its descriptor and started. -/
def newSHJoystick (files : List JsCandidate) : SHJoystick :=
  let found := findJsDevice [] files
  if found.1 ≠ INVALID_DEV then
    { jsFd_ := found.1, jsThread_ := some { jsFd_ := found.1, isRunning := true },
      ready_ := true, errorSignals := found.2 }
  else
    { jsFd_ := found.1, jsThread_ := none, ready_ := false, errorSignals := found.2 }

/-- The calls the destructor `SHJoystick::~SHJoystick` makes. -/
inductive TeardownAction where
  | close (fd : Int)
  | requestInterruption
  | wait
  | deleteThread
  deriving DecidableEq

/-- The destructor `SHJoystick::~SHJoystick`, as the sequence of calls it
makes, in order. -/
def destroySHJoystick (j : SHJoystick) : List TeardownAction :=
  let closing : List TeardownAction :=
    if j.jsFd_ ≠ INVALID_DEV then [TeardownAction.close j.jsFd_] else []
  match j.jsThread_ with
  | none => closing
  | some t =>
    let stopping : List TeardownAction :=
      if t.isRunning then
        closing ++ [TeardownAction.requestInterruption, TeardownAction.wait]
      else closing
    stopping ++ [TeardownAction.deleteThread]

/-- Whether a sequence of teardown calls closes a descriptor while the worker
may still be running: the worker, running or not at the start, is known to
have stopped once `wait` has returned. -/
def closesWhileRunning : Bool → List TeardownAction → Bool
  | _, [] => false
  | running, TeardownAction.close _ :: rest => running || closesWhileRunning running rest
  | _, TeardownAction.wait :: rest => closesWhileRunning false rest
  | running, TeardownAction.requestInterruption :: rest => closesWhileRunning running rest
  | running, TeardownAction.deleteThread :: rest => closesWhileRunning running rest

/-- The Sense HAT joystick as the device scan meets it. -/
def senseHatJs : JsCandidate := { fd := 5, name := "Raspberry Pi Sense HAT Joystick" }

/-- Records read from the joystick: a press of "up", its release, a
synchronisation record, a press of "enter", an auto-repeat of "enter", a press
of a key the joystick does not have; the other records are empty. -/
def sampleRecords : Nat → input_event := fun i =>
  if i = 0 then { type := 1, code := 103, value := 1 }
  else if i = 1 then { type := 1, code := 103, value := 0 }
  else if i = 2 then { type := 0, code := 0, value := 0 }
  else if i = 3 then { type := 1, code := 28, value := 1 }
  else if i = 4 then { type := 1, code := 28, value := 2 }
  else if i = 5 then { type := 1, code := 30, value := 1 }
  else { type := 0, code := 0, value := 0 }

/-! ## Loops that store one value -/

/-- A counted loop of stores `*(p + f i) = c` leaves `c` in the cells it
addressed and the old content elsewhere. -/
theorem foldl_poke_apply (lo : Int) (f : Int → Int) (c : Nat) (n : Nat) (m : Mem) (k : Nat) :
    (List.range n).foldl (fun st (j : Nat) => poke st (f (lo + (j : Int))) c) m k =
      if ∃ j : Nat, j < n ∧ (k : Int) = f (lo + (j : Int)) then c else m k := by
  induction n with
  | zero => simp
  | succ n ih =>
    rw [List.range_succ, List.foldl_append]
    simp only [List.foldl_cons, List.foldl_nil, poke]
    by_cases h : (k : Int) = f (lo + (n : Int))
    · have hex : ∃ j : Nat, j < n + 1 ∧ (k : Int) = f (lo + (j : Int)) := ⟨n, by omega, h⟩
      rw [if_pos h, if_pos hex]
    · rw [if_neg h, ih]
      by_cases hex : ∃ j : Nat, j < n ∧ (k : Int) = f (lo + (j : Int))
      · have hex2 : ∃ j : Nat, j < n + 1 ∧ (k : Int) = f (lo + (j : Int)) := by
          obtain ⟨j, hj, hk⟩ := hex
          exact ⟨j, by omega, hk⟩
        rw [if_pos hex, if_pos hex2]
      · have hex2 : ¬ ∃ j : Nat, j < n + 1 ∧ (k : Int) = f (lo + (j : Int)) := by
          rintro ⟨j, hj, hk⟩
          by_cases hjn : j = n
          · subst hjn; exact h hk
          · exact hex ⟨j, by omega, hk⟩
        rw [if_neg hex, if_neg hex2]

/-- The loop `for ( i = lo; i < hi; i++ ) *(p + f i) = c` leaves `c` in every
cell it addresses. -/
theorem forRange_poke_hit (lo hi : Int) (f : Int → Int) (c : Nat) (m : Mem) (k : Nat)
    (h : ∃ i : Int, lo ≤ i ∧ i < hi ∧ (k : Int) = f i) :
    forRange lo hi (fun i fb => poke fb (f i) c) m k = c := by
  unfold forRange
  rw [foldl_poke_apply]
  have hex : ∃ j : Nat, j < (hi - lo).toNat ∧ (k : Int) = f (lo + (j : Int)) := by
    obtain ⟨i, h1, h2, hk⟩ := h
    refine ⟨(i - lo).toNat, by omega, ?_⟩
    have hi2 : lo + (((i - lo).toNat : Nat) : Int) = i := by omega
    rw [hi2]; exact hk
  rw [if_pos hex]

/-- The loop `for ( i = lo; i < hi; i++ ) *(p + f i) = c` leaves alone every
cell it does not address. -/
theorem forRange_poke_miss (lo hi : Int) (f : Int → Int) (c : Nat) (m : Mem) (k : Nat)
    (h : ¬ ∃ i : Int, lo ≤ i ∧ i < hi ∧ (k : Int) = f i) :
    forRange lo hi (fun i fb => poke fb (f i) c) m k = m k := by
  unfold forRange
  rw [foldl_poke_apply]
  have hex : ¬ ∃ j : Nat, j < (hi - lo).toNat ∧ (k : Int) = f (lo + (j : Int)) := by
    rintro ⟨j, hj, hk⟩
    exact h ⟨lo + (j : Int), by omega, by omega, hk⟩
  rw [if_neg hex]

/-! ## Pixels -/

/-- C1: on a ready engine, for `x` and `y` in `[0,8)` and every colour,
`setPixel(x, y, color)` returns true, leaves framebuffer cell `y*8+x` equal to
`color`, and leaves every other cell (the other 63 of the framebuffer
included) unchanged. -/
theorem setPixel_in_range (s : SHLedMatrix) (x y : Int) (color : Nat)
    (hready : s.ready_ = true) (hx : 0 ≤ x ∧ x < 8) (hy : 0 ≤ y ∧ y < 8) :
    (setPixel s x y color).1 = true ∧
    (y * 8 + x).toNat < 64 ∧
    (setPixel s x y color).2.fbPtr_ (y * 8 + x).toNat = color ∧
    ∀ k : Nat, k ≠ (y * 8 + x).toNat →
      (setPixel s x y color).2.fbPtr_ k = s.fbPtr_ k := by
  have hxv : decide (x ≥ 0 ∧ x < DisplayXSize) = true := by simp; omega
  have hyv : decide (y ≥ 0 ∧ y < DisplayYSize) = true := by simp; omega
  have hst : setPixel s x y color =
      (true, { s with fbPtr_ := poke s.fbPtr_ (locationFromCoordinates x y) color }) := by
    simp only [setPixel, hready, hxv, hyv]
    simp
  rw [hst]
  refine ⟨rfl, by omega, ?_, ?_⟩
  · simp only [poke, locationFromCoordinates, DisplayXSize]
    rw [if_pos (by omega)]
  · intro k hk
    simp only [poke, locationFromCoordinates, DisplayXSize]
    rw [if_neg (by omega)]

/-- Witness of C1 at pixel (3, 1) of the sample engine. -/
theorem setPixel_in_range_witness :
    (setPixel paintedEngine 3 1 7).1 = true ∧
    ((1 : Int) * 8 + 3).toNat < 64 ∧
    (setPixel paintedEngine 3 1 7).2.fbPtr_ ((1 : Int) * 8 + 3).toNat = 7 ∧
    ∀ k : Nat, k ≠ ((1 : Int) * 8 + 3).toNat →
      (setPixel paintedEngine 3 1 7).2.fbPtr_ k = paintedEngine.fbPtr_ k :=
  setPixel_in_range paintedEngine 3 1 7 rfl (by decide) (by decide)

/-- C2: on a ready engine, `setPixel(x, y, color)` with `x` outside `[0,8)` or
`y` outside `[0,8)` returns false and leaves the framebuffer (indeed all
memory behind `fbPtr_`) unchanged. -/
theorem setPixel_out_of_range (s : SHLedMatrix) (x y : Int) (color : Nat)
    (hready : s.ready_ = true) (hout : ¬ (0 ≤ x ∧ x < 8) ∨ ¬ (0 ≤ y ∧ y < 8)) :
    (setPixel s x y color).1 = false ∧
    (setPixel s x y color).2.fbPtr_ = s.fbPtr_ := by
  have hbad : (!decide (x ≥ 0 ∧ x < DisplayXSize) || !decide (y ≥ 0 ∧ y < DisplayYSize)) = true := by
    simp only [DisplayXSize, DisplayYSize, Bool.or_eq_true, Bool.not_eq_true', decide_eq_false_iff_not]
    rcases hout with h | h
    · left; intro h2; exact h ⟨h2.1, h2.2⟩
    · right; intro h2; exact h ⟨h2.1, h2.2⟩
  simp only [setPixel, hready, hbad]
  simp

/-- Witness of C2 at the four coordinates just outside the display. -/
theorem setPixel_out_of_range_witness :
    ((setPixel paintedEngine (-1) 0 7).1 = false ∧
      (setPixel paintedEngine (-1) 0 7).2.fbPtr_ = paintedEngine.fbPtr_) ∧
    ((setPixel paintedEngine 8 0 7).1 = false ∧
      (setPixel paintedEngine 8 0 7).2.fbPtr_ = paintedEngine.fbPtr_) ∧
    ((setPixel paintedEngine 0 (-1) 7).1 = false ∧
      (setPixel paintedEngine 0 (-1) 7).2.fbPtr_ = paintedEngine.fbPtr_) ∧
    ((setPixel paintedEngine 0 8 7).1 = false ∧
      (setPixel paintedEngine 0 8 7).2.fbPtr_ = paintedEngine.fbPtr_) :=
  ⟨setPixel_out_of_range paintedEngine (-1) 0 7 rfl (Or.inl (by decide)),
   setPixel_out_of_range paintedEngine 8 0 7 rfl (Or.inl (by decide)),
   setPixel_out_of_range paintedEngine 0 (-1) 7 rfl (Or.inr (by decide)),
   setPixel_out_of_range paintedEngine 0 8 7 rfl (Or.inr (by decide))⟩

/-- C3: for `x`, `y` in `[0,8)`, `locationFromCoordinates(x, y) = y*8 + x`, the
offset lies in `[0,64)`, and two in-range coordinate pairs with the same offset
are equal. -/
theorem locationFromCoordinates_in_range (x y x2 y2 : Int)
    (hx : 0 ≤ x ∧ x < 8) (hy : 0 ≤ y ∧ y < 8)
    (hx2 : 0 ≤ x2 ∧ x2 < 8) (_hy2 : 0 ≤ y2 ∧ y2 < 8) :
    locationFromCoordinates x y = y * 8 + x ∧
    (0 ≤ locationFromCoordinates x y ∧ locationFromCoordinates x y < 64) ∧
    (locationFromCoordinates x y = locationFromCoordinates x2 y2 → x = x2 ∧ y = y2) := by
  unfold locationFromCoordinates DisplayXSize
  refine ⟨rfl, ⟨by omega, by omega⟩, ?_⟩
  intro h
  constructor <;> omega

/-- Witness of C3 at (3, 1) and (5, 7). -/
theorem locationFromCoordinates_in_range_witness :
    locationFromCoordinates 3 1 = 1 * 8 + 3 ∧
    (0 ≤ locationFromCoordinates 3 1 ∧ locationFromCoordinates 3 1 < 64) ∧
    (locationFromCoordinates 3 1 = locationFromCoordinates 5 7 →
      (3 : Int) = 5 ∧ (1 : Int) = 7) :=
  locationFromCoordinates_in_range 3 1 5 7 (by decide) (by decide) (by decide) (by decide)

/-! ## The not-ready guard -/

/-- C4: on an engine with `ready = false`, each of `clear`, `setPixel`,
`drawHLine`, `drawVLine`, `fill`, `setMatrix`, `kaleidoscope`, `setBlock`,
`setImage` and `scrollText` returns false for every argument value, and the
state it leaves is the state it found with only `lastError` overwritten: the
framebuffer memory and the scroll state (offset, strip, width, `isScrolling`,
timer) are the same, whatever the framebuffer holds. -/
theorem not_ready_guard (s : SHLedMatrix) (hready : s.ready_ = false)
    (x y x1 x2 y1 y2 xSize ySize destX destY txtWidth : Int)
    (color xOffset yOffset pixelsPerSec : Nat)
    (buffer buf4x4 alt srcBuf : Mem) (image : QImage) (strip : Int → Mem) :
    clear s = (false, { s with lastError_ := "Device not ready" }) ∧
    setPixel s x y color = (false, { s with lastError_ := "Device not initialized!!!" }) ∧
    drawHLine s x1 x2 y color = (false, { s with lastError_ := "Device not initialized!!!" }) ∧
    drawVLine s x y1 y2 color = (false, { s with lastError_ := "Device not initialized!!!" }) ∧
    fill s color = (false, { s with lastError_ := "Device not initialized!!!" }) ∧
    setMatrix s buffer = (false, { s with lastError_ := "Device not initialized!!!" }) ∧
    kaleidoscope s buf4x4 alt = (false, { s with lastError_ := "Device not initialized!!!" }) ∧
    setBlock s srcBuf xSize ySize destX destY =
      (false, { s with lastError_ := "Device not initialized!!!" }) ∧
    setImage s image xOffset yOffset =
      (false, { s with lastError_ := "Device not initialized!!!" }) ∧
    scrollText s txtWidth strip pixelsPerSec =
      some (false, { s with lastError_ := "Device not initialized!!!" }) := by
  refine ⟨?_, ?_, ?_, ?_, ?_, ?_, ?_, ?_, ?_, ?_⟩
  · simp [clear, hready]
  · simp [setPixel, hready]
  · simp [drawHLine, hready]
  · simp [drawVLine, hready]
  · simp [fill, hready]
  · simp [setMatrix, hready]
  · simp [kaleidoscope, hready]
  · simp [setBlock, hready]
  · simp [setImage, hready]
  · simp [scrollText, hready]

/-- Witness of C4 on the engine for which no device was found. -/
theorem not_ready_guard_witness :
    clear freshEngine = (false, { freshEngine with lastError_ := "Device not ready" }) ∧
    setPixel freshEngine 3 1 7 =
      (false, { freshEngine with lastError_ := "Device not initialized!!!" }) ∧
    drawHLine freshEngine 2 5 1 7 =
      (false, { freshEngine with lastError_ := "Device not initialized!!!" }) ∧
    drawVLine freshEngine 3 0 6 7 =
      (false, { freshEngine with lastError_ := "Device not initialized!!!" }) ∧
    fill freshEngine 7 = (false, { freshEngine with lastError_ := "Device not initialized!!!" }) ∧
    setMatrix freshEngine countingBuffer =
      (false, { freshEngine with lastError_ := "Device not initialized!!!" }) ∧
    kaleidoscope freshEngine countingBuffer countingBuffer =
      (false, { freshEngine with lastError_ := "Device not initialized!!!" }) ∧
    setBlock freshEngine countingBuffer 4 4 0 0 =
      (false, { freshEngine with lastError_ := "Device not initialized!!!" }) ∧
    setImage freshEngine (newQImage 8 8 QImageFormat.Format_RGB16 (fun _ => countingBuffer)) 0 0 =
      (false, { freshEngine with lastError_ := "Device not initialized!!!" }) ∧
    scrollText freshEngine 20 (fun _ => countingBuffer) 15 =
      some (false, { freshEngine with lastError_ := "Device not initialized!!!" }) :=
  not_ready_guard freshEngine rfl 3 1 2 5 0 6 4 4 0 0 20 7 0 0 15
    countingBuffer countingBuffer countingBuffer countingBuffer
    (newQImage 8 8 QImageFormat.Format_RGB16 (fun _ => countingBuffer)) (fun _ => countingBuffer)

/-! ## Fill and clear -/

/-- What `fill` does on a ready engine: it returns true, stores the colour in
cells 0 .. 63 and leaves every later cell alone. -/
theorem fill_cells (s : SHLedMatrix) (c : Nat) (hready : s.ready_ = true) :
    (fill s c).1 = true ∧
    (∀ k : Nat, k < 64 → (fill s c).2.fbPtr_ k = c) ∧
    (∀ k : Nat, 64 ≤ k → (fill s c).2.fbPtr_ k = s.fbPtr_ k) := by
  have hst : fill s c =
      (true, { s with fbPtr_ := forRange 0 64 (fun i fb => poke fb ((fun v => v) i) c) s.fbPtr_ }) := by
    simp [fill, hready]
  rw [hst]
  refine ⟨rfl, ?_, ?_⟩
  · intro k hk
    exact forRange_poke_hit 0 64 (fun v => v) c s.fbPtr_ k ⟨(k : Int), by omega, by omega, rfl⟩
  · intro k hk
    apply forRange_poke_miss 0 64 (fun v => v) c s.fbPtr_ k
    rintro ⟨i, h1, h2, h3⟩
    have h4 : (k : Int) = i := h3
    omega

/-- C5: on a ready engine, `fill(c)` returns true and afterwards each of the 64
framebuffer cells equals `c`, whatever the framebuffer held before; nothing
after the framebuffer is written. -/
theorem fill_all_cells (s : SHLedMatrix) (c : Nat) (hready : s.ready_ = true) :
    (fill s c).1 = true ∧
    (∀ k : Nat, k < 64 → (fill s c).2.fbPtr_ k = c) ∧
    (∀ k : Nat, 64 ≤ k → (fill s c).2.fbPtr_ k = s.fbPtr_ k) :=
  fill_cells s c hready

/-- Witness of C5: filling the sample engine with the value 9. -/
theorem fill_all_cells_witness :
    (fill paintedEngine 9).1 = true ∧
    (∀ k : Nat, k < 64 → (fill paintedEngine 9).2.fbPtr_ k = 9) ∧
    (∀ k : Nat, 64 ≤ k → (fill paintedEngine 9).2.fbPtr_ k = paintedEngine.fbPtr_ k) :=
  fill_all_cells paintedEngine 9 rfl

/-- C6: on a ready engine, `clear()` returns true and leaves each of the 64
framebuffer cells equal to 0, and the state it leaves is the one
`fill( Color16b::black() )` leaves, where `Color16b::black()` is 0. -/
theorem clear_zeroes (s : SHLedMatrix) (hready : s.ready_ = true) :
    (clear s).1 = true ∧
    (∀ k : Nat, k < 64 → (clear s).2.fbPtr_ k = 0) ∧
    Color16b.black = 0 ∧
    clear s = fill s Color16b.black := by
  have hblack : Color16b.black = 0 := by decide
  have hc : clear s = (true, { s with fbPtr_ := memset s.fbPtr_ 0 128 }) := by
    simp [clear, hready]
  have hmem : memset s.fbPtr_ 0 128 = (fill s 0).2.fbPtr_ := by
    funext k
    by_cases hk : k < 64
    · rw [(fill_cells s 0 hready).2.1 k hk]
      simp [memset, hk]
    · rw [(fill_cells s 0 hready).2.2 k (by omega)]
      simp [memset, hk]
  refine ⟨by rw [hc], ?_, hblack, ?_⟩
  · intro k hk
    rw [hc]
    simp [memset, hk]
  · rw [hblack, hc, hmem]
    simp [fill, hready]

/-- Witness of C6 on the sample engine. -/
theorem clear_zeroes_witness :
    (clear paintedEngine).1 = true ∧
    (∀ k : Nat, k < 64 → (clear paintedEngine).2.fbPtr_ k = 0) ∧
    Color16b.black = 0 ∧
    clear paintedEngine = fill paintedEngine Color16b.black :=
  clear_zeroes paintedEngine rfl

/-! ## Lines -/

/-- On valid arguments `drawHLine` runs its store loop from the smaller end
point over the inclusive length of the line. -/
theorem drawHLine_valid_eq (s : SHLedMatrix) (x1 x2 y : Int) (color : Nat)
    (hready : s.ready_ = true) (hx1 : 0 ≤ x1 ∧ x1 < 8) (hx2 : 0 ≤ x2 ∧ x2 < 8)
    (hy : 0 ≤ y ∧ y < 8) :
    drawHLine s x1 x2 y color =
      (true, { s with fbPtr_ := forRange 0 (max x1 x2 - min x1 x2 + 1)
                                  (fun i fb => poke fb ((fun v => y * 8 + min x1 x2 + v) i) color)
                                  s.fbPtr_ }) := by
  have hxv : decide (x1 ≥ 0 ∧ x1 < DisplayXSize ∧ x2 ≥ 0 ∧ x2 < DisplayXSize) = true := by
    simp; omega
  have hyv : decide (y ≥ 0 ∧ y < DisplayYSize) = true := by simp; omega
  simp only [drawHLine, hready, hxv, hyv]
  simp only [locationFromCoordinates, DisplayXSize]
  by_cases h : x2 < x1
  · have hmin : min x1 x2 = x2 := min_eq_right (le_of_lt h)
    have hmax : max x1 x2 = x1 := max_eq_left (le_of_lt h)
    simp [h, hmin, hmax]
  · have hmin : min x1 x2 = x1 := min_eq_left (not_lt.mp h)
    have hmax : max x1 x2 = x2 := max_eq_right (not_lt.mp h)
    simp [h, hmin, hmax]

/-- C7: on a ready engine, for `x1`, `x2`, `y` in `[0,8)` and every colour,
`drawHLine(x1, x2, y, color)` returns true, sets the cells `y*8+x` with
`min(x1,x2) <= x <= max(x1,x2)` to `color`, leaves every other cell unchanged,
and gives the same result as `drawHLine(x2, x1, y, color)`. -/
theorem drawHLine_in_range (s : SHLedMatrix) (x1 x2 y : Int) (color : Nat)
    (hready : s.ready_ = true) (hx1 : 0 ≤ x1 ∧ x1 < 8) (hx2 : 0 ≤ x2 ∧ x2 < 8)
    (hy : 0 ≤ y ∧ y < 8) :
    (drawHLine s x1 x2 y color).1 = true ∧
    (∀ x : Int, min x1 x2 ≤ x → x ≤ max x1 x2 →
      (drawHLine s x1 x2 y color).2.fbPtr_ (y * 8 + x).toNat = color) ∧
    (∀ k : Nat, (¬ ∃ x : Int, min x1 x2 ≤ x ∧ x ≤ max x1 x2 ∧ (k : Int) = y * 8 + x) →
      (drawHLine s x1 x2 y color).2.fbPtr_ k = s.fbPtr_ k) ∧
    drawHLine s x1 x2 y color = drawHLine s x2 x1 y color := by
  have hmin : 0 ≤ min x1 x2 := le_min hx1.1 hx2.1
  refine ⟨?_, ?_, ?_, ?_⟩
  · rw [drawHLine_valid_eq s x1 x2 y color hready hx1 hx2 hy]
  · intro x hlo hhi
    rw [drawHLine_valid_eq s x1 x2 y color hready hx1 hx2 hy]
    have hcell : (((y * 8 + x).toNat : Nat) : Int) = y * 8 + min x1 x2 + (x - min x1 x2) := by
      omega
    exact forRange_poke_hit 0 _ (fun v => y * 8 + min x1 x2 + v) color s.fbPtr_ _
      ⟨x - min x1 x2, by omega, by omega, hcell⟩
  · intro k hk
    rw [drawHLine_valid_eq s x1 x2 y color hready hx1 hx2 hy]
    refine forRange_poke_miss 0 _ (fun v => y * 8 + min x1 x2 + v) color s.fbPtr_ k ?_
    rintro ⟨i, h1, h2, h3⟩
    have h4 : (k : Int) = y * 8 + min x1 x2 + i := h3
    exact hk ⟨min x1 x2 + i, by omega, by omega, by omega⟩
  · rw [drawHLine_valid_eq s x1 x2 y color hready hx1 hx2 hy,
      drawHLine_valid_eq s x2 x1 y color hready hx2 hx1 hy, min_comm x1 x2, max_comm x1 x2]

/-- Witness of C7: the line from 5 back to 2 on row 1 of the sample engine. -/
theorem drawHLine_in_range_witness :
    (drawHLine paintedEngine 5 2 1 7).1 = true ∧
    (∀ x : Int, min 5 2 ≤ x → x ≤ max 5 2 →
      (drawHLine paintedEngine 5 2 1 7).2.fbPtr_ (1 * 8 + x).toNat = 7) ∧
    (∀ k : Nat, (¬ ∃ x : Int, min 5 2 ≤ x ∧ x ≤ max 5 2 ∧ (k : Int) = 1 * 8 + x) →
      (drawHLine paintedEngine 5 2 1 7).2.fbPtr_ k = paintedEngine.fbPtr_ k) ∧
    drawHLine paintedEngine 5 2 1 7 = drawHLine paintedEngine 2 5 1 7 :=
  drawHLine_in_range paintedEngine 5 2 1 7 rfl (by decide) (by decide) (by decide)

/-- On valid arguments `drawVLine` runs its store loop from the smaller end
point over the inclusive length of the line, one display row per step. -/
theorem drawVLine_valid_eq (s : SHLedMatrix) (x y1 y2 : Int) (color : Nat)
    (hready : s.ready_ = true) (hx : 0 ≤ x ∧ x < 8) (hy1 : 0 ≤ y1 ∧ y1 < 8)
    (hy2 : 0 ≤ y2 ∧ y2 < 8) :
    drawVLine s x y1 y2 color =
      (true, { s with fbPtr_ := forRange 0 (max y1 y2 - min y1 y2 + 1)
                                  (fun i fb =>
                                    poke fb ((fun v => min y1 y2 * 8 + x + v * 8) i) color)
                                  s.fbPtr_ }) := by
  have hxv : decide (x ≥ 0 ∧ x < DisplayXSize) = true := by simp; omega
  have hyv : decide (y1 ≥ 0 ∧ y1 < DisplayYSize ∧ y2 ≥ 0 ∧ y2 < DisplayYSize) = true := by
    simp; omega
  simp only [drawVLine, hready, hxv, hyv]
  simp only [locationFromCoordinates, DisplayXSize]
  by_cases h : y2 < y1
  · have hmin : min y1 y2 = y2 := min_eq_right (le_of_lt h)
    have hmax : max y1 y2 = y1 := max_eq_left (le_of_lt h)
    simp [h, hmin, hmax]
  · have hmin : min y1 y2 = y1 := min_eq_left (not_lt.mp h)
    have hmax : max y1 y2 = y2 := max_eq_right (not_lt.mp h)
    simp [h, hmin, hmax]

/-- C8: on a ready engine, for `x`, `y1`, `y2` in `[0,8)` and every colour,
`drawVLine(x, y1, y2, color)` returns true, sets the cells `y*8+x` with
`min(y1,y2) <= y <= max(y1,y2)` to `color`, leaves every other cell unchanged,
and gives the same result when `y1` and `y2` are exchanged. -/
theorem drawVLine_in_range (s : SHLedMatrix) (x y1 y2 : Int) (color : Nat)
    (hready : s.ready_ = true) (hx : 0 ≤ x ∧ x < 8) (hy1 : 0 ≤ y1 ∧ y1 < 8)
    (hy2 : 0 ≤ y2 ∧ y2 < 8) :
    (drawVLine s x y1 y2 color).1 = true ∧
    (∀ y : Int, min y1 y2 ≤ y → y ≤ max y1 y2 →
      (drawVLine s x y1 y2 color).2.fbPtr_ (y * 8 + x).toNat = color) ∧
    (∀ k : Nat, (¬ ∃ y : Int, min y1 y2 ≤ y ∧ y ≤ max y1 y2 ∧ (k : Int) = y * 8 + x) →
      (drawVLine s x y1 y2 color).2.fbPtr_ k = s.fbPtr_ k) ∧
    drawVLine s x y1 y2 color = drawVLine s x y2 y1 color := by
  have hmin : 0 ≤ min y1 y2 := le_min hy1.1 hy2.1
  refine ⟨?_, ?_, ?_, ?_⟩
  · rw [drawVLine_valid_eq s x y1 y2 color hready hx hy1 hy2]
  · intro y hlo hhi
    rw [drawVLine_valid_eq s x y1 y2 color hready hx hy1 hy2]
    have hcell : (((y * 8 + x).toNat : Nat) : Int) =
        min y1 y2 * 8 + x + (y - min y1 y2) * 8 := by
      omega
    exact forRange_poke_hit 0 _ (fun v => min y1 y2 * 8 + x + v * 8) color s.fbPtr_ _
      ⟨y - min y1 y2, by omega, by omega, hcell⟩
  · intro k hk
    rw [drawVLine_valid_eq s x y1 y2 color hready hx hy1 hy2]
    refine forRange_poke_miss 0 _ (fun v => min y1 y2 * 8 + x + v * 8) color s.fbPtr_ k ?_
    rintro ⟨i, h1, h2, h3⟩
    have h4 : (k : Int) = min y1 y2 * 8 + x + i * 8 := h3
    exact hk ⟨min y1 y2 + i, by omega, by omega, by omega⟩
  · rw [drawVLine_valid_eq s x y1 y2 color hready hx hy1 hy2,
      drawVLine_valid_eq s x y2 y1 color hready hx hy2 hy1, min_comm y1 y2, max_comm y1 y2]

/-- Witness of C8: the line from row 6 back to row 0 in column 3. -/
theorem drawVLine_in_range_witness :
    (drawVLine paintedEngine 3 6 0 7).1 = true ∧
    (∀ y : Int, min 6 0 ≤ y → y ≤ max 6 0 →
      (drawVLine paintedEngine 3 6 0 7).2.fbPtr_ (y * 8 + 3).toNat = 7) ∧
    (∀ k : Nat, (¬ ∃ y : Int, min 6 0 ≤ y ∧ y ≤ max 6 0 ∧ (k : Int) = y * 8 + 3) →
      (drawVLine paintedEngine 3 6 0 7).2.fbPtr_ k = paintedEngine.fbPtr_ k) ∧
    drawVLine paintedEngine 3 6 0 7 = drawVLine paintedEngine 3 0 6 7 :=
  drawVLine_in_range paintedEngine 3 6 0 7 rfl (by decide) (by decide) (by decide)

/-- C9: on a ready engine, `drawHLine(x1, x2, y, c)` with any of `x1`, `x2`,
`y` outside `[0,8)`, and `drawVLine(x, y1, y2, c)` with any of `x`, `y1`, `y2`
outside `[0,8)`, return false and leave the framebuffer (indeed all memory
behind `fbPtr_`) unchanged: nothing is clipped or partially drawn. -/
theorem lines_out_of_range (s : SHLedMatrix) (a b c : Int) (color : Nat)
    (hready : s.ready_ = true)
    (hout : ¬ (0 ≤ a ∧ a < 8) ∨ ¬ (0 ≤ b ∧ b < 8) ∨ ¬ (0 ≤ c ∧ c < 8)) :
    ((drawHLine s a b c color).1 = false ∧ (drawHLine s a b c color).2.fbPtr_ = s.fbPtr_) ∧
    ((drawVLine s a b c color).1 = false ∧ (drawVLine s a b c color).2.fbPtr_ = s.fbPtr_) := by
  constructor
  · have hbad : (!decide (a ≥ 0 ∧ a < DisplayXSize ∧ b ≥ 0 ∧ b < DisplayXSize) ||
        !decide (c ≥ 0 ∧ c < DisplayYSize)) = true := by
      simp only [DisplayXSize, DisplayYSize, Bool.or_eq_true, Bool.not_eq_true',
        decide_eq_false_iff_not]
      rcases hout with h | h | h
      · left; intro h2; exact h ⟨h2.1, h2.2.1⟩
      · left; intro h2; exact h ⟨h2.2.2.1, h2.2.2.2⟩
      · right; intro h2; exact h ⟨h2.1, h2.2⟩
    simp only [drawHLine, hready, hbad]
    simp
  · have hbad : (!decide (a ≥ 0 ∧ a < DisplayXSize) ||
        !decide (b ≥ 0 ∧ b < DisplayYSize ∧ c ≥ 0 ∧ c < DisplayYSize)) = true := by
      simp only [DisplayXSize, DisplayYSize, Bool.or_eq_true, Bool.not_eq_true',
        decide_eq_false_iff_not]
      rcases hout with h | h | h
      · left; intro h2; exact h ⟨h2.1, h2.2⟩
      · right; intro h2; exact h ⟨h2.1, h2.2.1⟩
      · right; intro h2; exact h ⟨h2.2.2.1, h2.2.2.2⟩
    simp only [drawVLine, hready, hbad]
    simp

/-- Witness of C9: a line whose second end point is 8, one past the display. -/
theorem lines_out_of_range_witness :
    ((drawHLine paintedEngine 2 8 1 7).1 = false ∧
      (drawHLine paintedEngine 2 8 1 7).2.fbPtr_ = paintedEngine.fbPtr_) ∧
    ((drawVLine paintedEngine 2 8 1 7).1 = false ∧
      (drawVLine paintedEngine 2 8 1 7).2.fbPtr_ = paintedEngine.fbPtr_) :=
  lines_out_of_range paintedEngine 2 8 1 7 rfl (Or.inr (Or.inl (by decide)))


/-! ## Blocks -/

/-- A byte count `v * sizeof(quint16)` with `0 <= v < 2^31` copies `v` cells. -/
theorem toSizeT_cells (v : Int) (h0 : 0 ≤ v) (h1 : v < 2147483648) :
    ((toSizeT (v * 2) / 2 : Nat) : Int) = v := by
  have h : toSizeT (v * 2) = (v * 2).toNat := by
    unfold toSizeT SizeTBits
    congr 1
    norm_num
    omega
  rw [h]
  omega

/-- The copy loop of `setBlock` after `n` turns: both pointers have moved by
`n` display rows, and the framebuffer memory holds, in every cell a turn
addressed, the source cell at the same distance from the start. -/
theorem setBlock_loop (src : Mem) (xSize : Int) (c : BlockCursor) (n : Nat) :
    ((List.range n).foldl (fun st (_ : Nat) => setBlockLine src xSize st) c).srcBuf =
      c.srcBuf + (n : Int) * 8 ∧
    ((List.range n).foldl (fun st (_ : Nat) => setBlockLine src xSize st) c).destBuf =
      c.destBuf + (n : Int) * 8 ∧
    ∀ k : Nat,
      ((List.range n).foldl (fun st (_ : Nat) => setBlockLine src xSize st) c).fb k =
        if ∃ i : Nat, i < n ∧ c.destBuf + (i : Int) * 8 ≤ (k : Int) ∧
            (k : Int) < c.destBuf + (i : Int) * 8 + ((toSizeT (xSize * 2) / 2 : Nat) : Int)
        then peek src ((k : Int) - c.destBuf + c.srcBuf) else c.fb k := by
  induction n with
  | zero => simp
  | succ n ih =>
    rw [List.range_succ, List.foldl_append]
    simp only [List.foldl_cons, List.foldl_nil]
    obtain ⟨h1, h2, h3⟩ := ih
    generalize (List.range n).foldl (fun st (_ : Nat) => setBlockLine src xSize st) c = r
      at h1 h2 h3 ⊢
    refine ⟨?_, ?_, ?_⟩
    · simp only [setBlockLine, h1, DisplayXSize]
      push_cast
      ring
    · simp only [setBlockLine, h2, DisplayYSize]
      push_cast
      ring
    · intro k
      simp only [setBlockLine, memcpy, h1, h2]
      by_cases hrow : c.destBuf + (n : Int) * 8 ≤ (k : Int) ∧
          (k : Int) < c.destBuf + (n : Int) * 8 + ((toSizeT (xSize * 2) / 2 : Nat) : Int)
      · have hex : ∃ i : Nat, i < n + 1 ∧ c.destBuf + (i : Int) * 8 ≤ (k : Int) ∧
            (k : Int) < c.destBuf + (i : Int) * 8 + ((toSizeT (xSize * 2) / 2 : Nat) : Int) :=
          ⟨n, by omega, hrow⟩
        rw [if_pos hrow, if_pos hex]
        congr 1
        ring
      · rw [if_neg hrow, h3 k]
        by_cases hex : ∃ i : Nat, i < n ∧ c.destBuf + (i : Int) * 8 ≤ (k : Int) ∧
            (k : Int) < c.destBuf + (i : Int) * 8 + ((toSizeT (xSize * 2) / 2 : Nat) : Int)
        · have hex2 : ∃ i : Nat, i < n + 1 ∧ c.destBuf + (i : Int) * 8 ≤ (k : Int) ∧
              (k : Int) < c.destBuf + (i : Int) * 8 + ((toSizeT (xSize * 2) / 2 : Nat) : Int) := by
            obtain ⟨i, hi, hk⟩ := hex
            exact ⟨i, by omega, hk⟩
          rw [if_pos hex, if_pos hex2]
        · have hex2 : ¬ ∃ i : Nat, i < n + 1 ∧ c.destBuf + (i : Int) * 8 ≤ (k : Int) ∧
              (k : Int) < c.destBuf + (i : Int) * 8 + ((toSizeT (xSize * 2) / 2 : Nat) : Int) := by
            rintro ⟨i, hi, hk⟩
            by_cases hin : i = n
            · subst hin; exact hrow hk
            · exact hex ⟨i, by omega, hk⟩
          rw [if_neg hex, if_neg hex2]


/-- What `setBlock` does on a ready engine for a rectangle inside the display:
it returns true, destination cell `(destY+i)*8 + (destX+j)` receives the
source cell `i*8 + j` (the source pointer advances by a whole display row,
`DisplayXSize`, after each line), and the cells outside the rectangle keep
their content. -/
theorem setBlock_valid (s : SHLedMatrix) (src : Mem) (xSize ySize destX destY : Int)
    (hready : s.ready_ = true) (hxs : 1 ≤ xSize) (hys : 1 ≤ ySize)
    (hdx : 0 ≤ destX) (hdy : 0 ≤ destY) (hex : destX + xSize ≤ 8) (hey : destY + ySize ≤ 8) :
    (setBlock s src xSize ySize destX destY).1 = true ∧
    (∀ i j : Int, 0 ≤ i → i < ySize → 0 ≤ j → j < xSize →
      (setBlock s src xSize ySize destX destY).2.fbPtr_ ((destY + i) * 8 + (destX + j)).toNat =
        src (i * 8 + j).toNat) ∧
    (∀ k : Nat, (¬ ∃ i j : Int, 0 ≤ i ∧ i < ySize ∧ 0 ≤ j ∧ j < xSize ∧
        (k : Int) = (destY + i) * 8 + (destX + j)) →
      (setBlock s src xSize ySize destX destY).2.fbPtr_ k = s.fbPtr_ k) := by
  have hcond : ¬ (destX < 0 ∨ destX + xSize - 1 < 0 ∨ destX ≥ 8 ∨
      destX + xSize - 1 ≥ 8 ∨ destY < 0 ∨ destY + ySize - 1 < 0 ∨
      destY ≥ 8 ∨ destY + ySize - 1 ≥ 8) := by
    omega
  have hlen : ((toSizeT (xSize * 2) / 2 : Nat) : Int) = xSize :=
    toSizeT_cells xSize (by omega) (by omega)
  have hst : setBlock s src xSize ySize destX destY =
      (true, { s with fbPtr_ := ((List.range ySize.toNat).foldl
                                  (fun st (_ : Nat) => setBlockLine src xSize st)
                                  { fb := s.fbPtr_, srcBuf := 0,
                                    destBuf := destY * 8 + destX }).fb }) := by
    simp only [setBlock, hready, Bool.not_true, Bool.false_eq_true, if_false, forRange,
      locationFromCoordinates, DisplayXSize, DisplayYSize, sub_zero]
    rw [if_neg hcond]
  obtain ⟨-, -, hfb⟩ := setBlock_loop src xSize
    { fb := s.fbPtr_, srcBuf := 0, destBuf := destY * 8 + destX } ySize.toNat
  rw [hst]
  refine ⟨rfl, ?_, ?_⟩
  · intro i j hi0 hi1 hj0 hj1
    show ((List.range ySize.toNat).foldl (fun st (_ : Nat) => setBlockLine src xSize st)
      { fb := s.fbPtr_, srcBuf := 0, destBuf := destY * 8 + destX }).fb
        ((destY + i) * 8 + (destX + j)).toNat = src (i * 8 + j).toNat
    rw [hfb, hlen]
    have hrow : ∃ r : Nat, r < ySize.toNat ∧
        destY * 8 + destX + (r : Int) * 8 ≤ ((((destY + i) * 8 + (destX + j)).toNat : Nat) : Int) ∧
        ((((destY + i) * 8 + (destX + j)).toNat : Nat) : Int) <
          destY * 8 + destX + (r : Int) * 8 + xSize :=
      ⟨i.toNat, by omega, by omega, by omega⟩
    rw [if_pos hrow]
    unfold peek
    have hidx : (((((destY + i) * 8 + (destX + j)).toNat : Nat) : Int) -
        (destY * 8 + destX) + 0).toNat = (i * 8 + j).toNat := by
      omega
    exact congrArg src hidx
  · intro k hk
    show ((List.range ySize.toNat).foldl (fun st (_ : Nat) => setBlockLine src xSize st)
      { fb := s.fbPtr_, srcBuf := 0, destBuf := destY * 8 + destX }).fb k = s.fbPtr_ k
    rw [hfb, hlen]
    have hrow : ¬ ∃ r : Nat, r < ySize.toNat ∧
        destY * 8 + destX + (r : Int) * 8 ≤ (k : Int) ∧
        (k : Int) < destY * 8 + destX + (r : Int) * 8 + xSize := by
      rintro ⟨r, hr, h1, h2⟩
      exact hk ⟨(r : Int), (k : Int) - (destY * 8 + destX + (r : Int) * 8),
        by omega, by omega, by omega, by omega, by omega⟩
    rw [if_neg hrow]

/-- C10, evaluated: a 2x2 block stored row by row (cells 1, 2 / 3, 4 at
`src[0..3]`) is set at (0, 0) of the sample engine.  The call returns true and
the first row arrives (`src[0]`, `src[1]`), but the second destination row,
cells 8 and 9, receives `src[8]` and `src[9]` (the values 9 and 10) instead of
`src[1*2+0]` and `src[1*2+1]` (the values 3 and 4). -/
theorem setBlock_source_stride_failing :
    (setBlock paintedEngine countingBuffer 2 2 0 0).1 = true ∧
    (setBlock paintedEngine countingBuffer 2 2 0 0).2.fbPtr_ 0 = 1 ∧
    (setBlock paintedEngine countingBuffer 2 2 0 0).2.fbPtr_ 1 = 2 ∧
    (setBlock paintedEngine countingBuffer 2 2 0 0).2.fbPtr_ 8 = 9 ∧
    (setBlock paintedEngine countingBuffer 2 2 0 0).2.fbPtr_ 9 = 10 ∧
    countingBuffer (1 * 2 + 0) = 3 ∧ countingBuffer (1 * 2 + 1) = 4 ∧
    countingBuffer 8 = 9 ∧ countingBuffer 9 = 10 := by
  decide

/-- Witness of `setBlock_valid` on the 2x2 block at (3, 1). -/
theorem setBlock_valid_witness :
    (setBlock paintedEngine countingBuffer 2 2 3 1).1 = true ∧
    (∀ i j : Int, 0 ≤ i → i < 2 → 0 ≤ j → j < 2 →
      (setBlock paintedEngine countingBuffer 2 2 3 1).2.fbPtr_ ((1 + i) * 8 + (3 + j)).toNat =
        countingBuffer (i * 8 + j).toNat) ∧
    (∀ k : Nat, (¬ ∃ i j : Int, 0 ≤ i ∧ i < 2 ∧ 0 ≤ j ∧ j < 2 ∧
        (k : Int) = (1 + i) * 8 + (3 + j)) →
      (setBlock paintedEngine countingBuffer 2 2 3 1).2.fbPtr_ k = paintedEngine.fbPtr_ k) :=
  setBlock_valid paintedEngine countingBuffer 2 2 3 1 rfl (by decide) (by decide) (by decide)
    (by decide) (by decide) (by decide)


/-- C11: on a ready engine, `setBlock` whose destination rectangle
`[destX, destX+xSize) x [destY, destY+ySize)` has a point outside
`[0,8) x [0,8)` returns false and writes nothing: the state it leaves is the
one it found with `lastError` set to "Invalid parameter". -/
theorem setBlock_outside_rejected (s : SHLedMatrix) (src : Mem)
    (xSize ySize destX destY : Int) (hready : s.ready_ = true)
    (hout : ∃ px py : Int, destX ≤ px ∧ px < destX + xSize ∧ destY ≤ py ∧ py < destY + ySize ∧
      ¬ (0 ≤ px ∧ px < 8 ∧ 0 ≤ py ∧ py < 8)) :
    (setBlock s src xSize ySize destX destY).1 = false ∧
    (setBlock s src xSize ySize destX destY).2.fbPtr_ = s.fbPtr_ ∧
    setBlock s src xSize ySize destX destY = (false, { s with lastError_ := "Invalid parameter" }) := by
  have hcond : destX < 0 ∨ destX + xSize - 1 < 0 ∨ destX ≥ 8 ∨
      destX + xSize - 1 ≥ 8 ∨ destY < 0 ∨ destY + ySize - 1 < 0 ∨
      destY ≥ 8 ∨ destY + ySize - 1 ≥ 8 := by
    obtain ⟨px, py, h1, h2, h3, h4, h5⟩ := hout
    by_contra hc
    apply h5
    omega
  have hst : setBlock s src xSize ySize destX destY =
      (false, { s with lastError_ := "Invalid parameter" }) := by
    simp only [setBlock, hready, Bool.not_true, Bool.false_eq_true, if_false,
      DisplayXSize, DisplayYSize]
    rw [if_pos hcond]
  rw [hst]
  exact ⟨rfl, rfl, rfl⟩

/-- Witness of C11: a 4x4 block at (5, 0) would cover the column 8. -/
theorem setBlock_outside_rejected_witness :
    (setBlock paintedEngine countingBuffer 4 4 5 0).1 = false ∧
    (setBlock paintedEngine countingBuffer 4 4 5 0).2.fbPtr_ = paintedEngine.fbPtr_ ∧
    setBlock paintedEngine countingBuffer 4 4 5 0 =
      (false, { paintedEngine with lastError_ := "Invalid parameter" }) :=
  setBlock_outside_rejected paintedEngine countingBuffer 4 4 5 0 rfl
    ⟨8, 0, by decide, by decide, by decide, by decide, by decide⟩

/-- C12, evaluated: `kaleidoscope` is given the 4x4 block holding 1 .. 16 row
by row (inside memory whose cell `k` holds `k + 1`), on the ready engine with
a cleared framebuffer, the local array `alt` sitting in zeroed stack memory.
The call returns true and the first display row is right (1 2 3 4, then the
first row 13 9 5 1 of the block rotated by 90 degrees), but the second row of
quadrant (0,0), cells 8 .. 11, holds 9 .. 12, the third row of the block,
where the block has 5 .. 8; and the second row of quadrant (4,0) starts, in
cell 12, with 15 where the rotated block has 14. -/
theorem kaleidoscope_failing :
    (kaleidoscope readyEngine countingBuffer (fun _ => 0)).1 = true ∧
    (kaleidoscope readyEngine countingBuffer (fun _ => 0)).2.fbPtr_ 0 = 1 ∧
    (kaleidoscope readyEngine countingBuffer (fun _ => 0)).2.fbPtr_ 4 = 13 ∧
    (kaleidoscope readyEngine countingBuffer (fun _ => 0)).2.fbPtr_ (1 * 8 + 0) = 9 ∧
    countingBuffer (1 * 4 + 0) = 5 ∧
    countingBuffer (1 * 8 + 0) = 9 ∧
    (kaleidoscope readyEngine countingBuffer (fun _ => 0)).2.fbPtr_ (1 * 8 + 4) = 15 ∧
    rotateBuffer countingBuffer 4 BufRotate.ROT_90 (1 * 4 + 0) = 14 ∧
    rotateBuffer countingBuffer 4 BufRotate.ROT_90 (1 * 8 + 0) = 15 := by
  decide

/-! ## Images -/

/-- The row loop of `setImage` after `n` rows, starting at image row `lo`:
display rows `lo .. lo+n-1` hold the image rows of the same number, taken from
column `xOff` on, and every other cell keeps its content. -/
theorem setImage_rows (image : QImage) (xOff lo n : Nat) (m : Mem) (k : Nat) :
    (List.range n).foldl (fun st (j : Nat) =>
        memcpy st (((lo : Int) + (j : Int)) * 8) (image.scanLine ((lo : Int) + (j : Int)))
          (xOff : Int) 16) m k =
      if lo * 8 ≤ k ∧ k < (lo + n) * 8 then image.scanLine ((k / 8 : Nat) : Int) (k % 8 + xOff)
      else m k := by
  induction n with
  | zero =>
    have hno : ¬ (lo * 8 ≤ k ∧ k < (lo + 0) * 8) := by omega
    rw [if_neg hno]
    rfl
  | succ n ih =>
    rw [List.range_succ, List.foldl_append]
    simp only [List.foldl_cons, List.foldl_nil]
    generalize (List.range n).foldl (fun st (j : Nat) =>
        memcpy st (((lo : Int) + (j : Int)) * 8) (image.scanLine ((lo : Int) + (j : Int)))
          (xOff : Int) 16) m = prev at ih ⊢
    unfold memcpy
    by_cases hrow : ((lo : Int) + (n : Int)) * 8 ≤ (k : Int) ∧
        (k : Int) < ((lo : Int) + (n : Int)) * 8 + (((16 / 2 : Nat) : Nat) : Int)
    · have hin : lo * 8 ≤ k ∧ k < (lo + (n + 1)) * 8 := by omega
      rw [if_pos hrow, if_pos hin]
      unfold peek
      have hline : (lo : Int) + (n : Int) = ((k / 8 : Nat) : Int) := by omega
      have hcol : ((k : Int) - ((lo : Int) + (n : Int)) * 8 + (xOff : Int)).toNat =
          k % 8 + xOff := by omega
      rw [hcol, hline]
    · rw [if_neg hrow, ih]
      by_cases hin : lo * 8 ≤ k ∧ k < (lo + n) * 8
      · have hin2 : lo * 8 ≤ k ∧ k < (lo + (n + 1)) * 8 := by omega
        rw [if_pos hin, if_pos hin2]
      · have hin2 : ¬ (lo * 8 ≤ k ∧ k < (lo + (n + 1)) * 8) := by omega
        rw [if_neg hin, if_neg hin2]

/-- What `setImage` does on a ready engine with an image that passes the
checks: it returns true, display rows `yOff .. yOff+7` (cells `yOff*8` to
`yOff*8+63`) receive the image rows `yOff .. yOff+7` from column `xOff` on, and
every other cell keeps its content. -/
theorem setImage_valid (s : SHLedMatrix) (image : QImage) (xOff yOff : Nat)
    (hready : s.ready_ = true) (hw : 8 + (xOff : Int) ≤ image.width)
    (hh : 8 + (yOff : Int) ≤ image.height) (hf : image.format = QImageFormat.Format_RGB16) :
    (setImage s image xOff yOff).1 = true ∧
    (∀ x y : Nat, x < 8 → y < 8 →
      (setImage s image xOff yOff).2.fbPtr_ ((y + yOff) * 8 + x) =
        image.scanLine ((y + yOff : Nat) : Int) (x + xOff)) ∧
    (∀ k : Nat, (k < yOff * 8 ∨ (yOff + 8) * 8 ≤ k) →
      (setImage s image xOff yOff).2.fbPtr_ k = s.fbPtr_ k) := by
  have hcond : ¬ (image.width < 8 + (xOff : Int) ∨ image.height < 8 + (yOff : Int) ∨
      image.format ≠ QImageFormat.Format_RGB16) := by
    rintro (h | h | h)
    · omega
    · omega
    · exact h hf
  have hcount : ((8 : Int) + (yOff : Int) - (yOff : Int)).toNat = 8 := by omega
  have hst : setImage s image xOff yOff =
      (true, { s with fbPtr_ := (List.range 8).foldl (fun st (j : Nat) =>
                                  memcpy st (((yOff : Int) + (j : Int)) * 8)
                                    (image.scanLine ((yOff : Int) + (j : Int))) (xOff : Int) 16)
                                  s.fbPtr_ }) := by
    simp only [setImage, hready, Bool.not_true, Bool.false_eq_true, if_false,
      DisplayXSize, DisplayYSize]
    rw [if_neg hcond]
    simp only [forRange, hcount]
    rfl
  rw [hst]
  refine ⟨rfl, ?_, ?_⟩
  · intro x y hx hy
    show (List.range 8).foldl (fun st (j : Nat) =>
        memcpy st (((yOff : Int) + (j : Int)) * 8) (image.scanLine ((yOff : Int) + (j : Int)))
          (xOff : Int) 16) s.fbPtr_ ((y + yOff) * 8 + x) = _
    rw [setImage_rows, if_pos (by omega)]
    have h1 : ((y + yOff) * 8 + x) / 8 = y + yOff := by omega
    have h2 : ((y + yOff) * 8 + x) % 8 = x := by omega
    rw [h1, h2]
  · intro k hk
    show (List.range 8).foldl (fun st (j : Nat) =>
        memcpy st (((yOff : Int) + (j : Int)) * 8) (image.scanLine ((yOff : Int) + (j : Int)))
          (xOff : Int) 16) s.fbPtr_ k = _
    rw [setImage_rows, if_neg (by omega)]

/-- Witness of `setImage_valid`: the sample image at offset (2, 1). -/
theorem setImage_valid_witness :
    (setImage paintedEngine sampleImage 2 1).1 = true ∧
    (∀ x y : Nat, x < 8 → y < 8 →
      (setImage paintedEngine sampleImage 2 1).2.fbPtr_ ((y + 1) * 8 + x) =
        sampleImage.scanLine ((y + 1 : Nat) : Int) (x + 2)) ∧
    (∀ k : Nat, (k < 1 * 8 ∨ (1 + 8) * 8 ≤ k) →
      (setImage paintedEngine sampleImage 2 1).2.fbPtr_ k = paintedEngine.fbPtr_ k) :=
  setImage_valid paintedEngine sampleImage 2 1 rfl (by decide) (by decide) rfl

/-- C15, evaluated: the sample image (10 x 9, RGB565) is set with `xOff = 0`,
`yOff = 1` on the sample engine.  The call returns true, but framebuffer cell
0 keeps its old value 100 where the claim puts image pixel (column 0, row 1),
the value 1016; that pixel lands in cell 8; and cell 64, the first one after
the 64-cell framebuffer, is overwritten with the pixel of row 8. -/
theorem setImage_row_offset_failing :
    (setImage paintedEngine sampleImage 0 1).1 = true ∧
    (setImage paintedEngine sampleImage 0 1).2.fbPtr_ 0 = 100 ∧
    paintedEngine.fbPtr_ 0 = 100 ∧
    sampleImage.scanLine 1 0 = 1016 ∧
    (setImage paintedEngine sampleImage 0 1).2.fbPtr_ 8 = 1016 ∧
    paintedEngine.fbPtr_ 64 = 164 ∧
    (setImage paintedEngine sampleImage 0 1).2.fbPtr_ 64 = 1128 ∧
    sampleImage.scanLine 8 0 = 1128 := by
  decide


/-- C16: on a ready engine, `setImage(image, xOff, yOff)` returns false exactly
when the image width is below `8+xOff`, or its height is below `8+yOff`, or
its format is not `Format_RGB16`; it then leaves the state it found with
`lastError` set to "Invalid image", and in every other case it returns true. -/
theorem setImage_rejects_iff (s : SHLedMatrix) (image : QImage) (xOff yOff : Nat)
    (hready : s.ready_ = true) :
    ((setImage s image xOff yOff).1 = false ↔
      (image.width < 8 + (xOff : Int) ∨ image.height < 8 + (yOff : Int) ∨
        image.format ≠ QImageFormat.Format_RGB16)) ∧
    ((image.width < 8 + (xOff : Int) ∨ image.height < 8 + (yOff : Int) ∨
        image.format ≠ QImageFormat.Format_RGB16) →
      setImage s image xOff yOff = (false, { s with lastError_ := "Invalid image" }) ∧
      (setImage s image xOff yOff).2.fbPtr_ = s.fbPtr_) ∧
    (¬ (image.width < 8 + (xOff : Int) ∨ image.height < 8 + (yOff : Int) ∨
        image.format ≠ QImageFormat.Format_RGB16) →
      (setImage s image xOff yOff).1 = true) := by
  by_cases hbad : image.width < 8 + (xOff : Int) ∨ image.height < 8 + (yOff : Int) ∨
      image.format ≠ QImageFormat.Format_RGB16
  · have hst : setImage s image xOff yOff = (false, { s with lastError_ := "Invalid image" }) := by
      simp only [setImage, hready, Bool.not_true, Bool.false_eq_true, if_false,
        DisplayXSize, DisplayYSize]
      rw [if_pos hbad]
    rw [hst]
    exact ⟨⟨fun _ => hbad, fun _ => rfl⟩, fun _ => ⟨rfl, rfl⟩, fun h => absurd hbad h⟩
  · have hst : (setImage s image xOff yOff).1 = true := by
      simp only [setImage, hready, Bool.not_true, Bool.false_eq_true, if_false,
        DisplayXSize, DisplayYSize]
      rw [if_neg hbad]
    refine ⟨⟨fun h => ?_, fun h => absurd h hbad⟩, fun h => absurd h hbad, fun _ => hst⟩
    rw [hst] at h
    exact absurd h (by decide)

/-- Witness of C16: the sample image (10 x 9) is accepted at offset (2, 1). -/
theorem setImage_rejects_iff_witness :
    ((setImage paintedEngine sampleImage 2 1).1 = false ↔
      (sampleImage.width < 8 + ((2 : Nat) : Int) ∨ sampleImage.height < 8 + ((1 : Nat) : Int) ∨
        sampleImage.format ≠ QImageFormat.Format_RGB16)) ∧
    ((sampleImage.width < 8 + ((2 : Nat) : Int) ∨ sampleImage.height < 8 + ((1 : Nat) : Int) ∨
        sampleImage.format ≠ QImageFormat.Format_RGB16) →
      setImage paintedEngine sampleImage 2 1 =
        (false, { paintedEngine with lastError_ := "Invalid image" }) ∧
      (setImage paintedEngine sampleImage 2 1).2.fbPtr_ = paintedEngine.fbPtr_) ∧
    (¬ (sampleImage.width < 8 + ((2 : Nat) : Int) ∨ sampleImage.height < 8 + ((1 : Nat) : Int) ∨
        sampleImage.format ≠ QImageFormat.Format_RGB16) →
      (setImage paintedEngine sampleImage 2 1).1 = true) :=
  setImage_rejects_iff paintedEngine sampleImage 2 1 rfl

/-! ## Rotation -/

/-- A swap of two cells of the block is a `BlockPerm`. -/
theorem blockPerm_qSwap (N : Nat) (i j : Int) (hi0 : 0 ≤ i) (hi1 : i < (N : Int))
    (_hj0 : 0 ≤ j) (hj1 : j < (N : Int)) :
    BlockPerm N (fun m => qSwap m i j) := by
  refine ⟨?_, ?_, ?_⟩
  · intro m k
    simp only [qSwap, peek, indexMem]
    split_ifs <;> rfl
  · intro k hk
    simp only [qSwap, peek, indexMem]
    split_ifs <;> omega
  · intro k hk
    simp only [qSwap, peek, indexMem]
    split_ifs <;> omega

/-- Doing one `BlockPerm` after another is a `BlockPerm`. -/
theorem blockPerm_comp (N : Nat) (F G : Mem → Mem) (hF : BlockPerm N F) (hG : BlockPerm N G) :
    BlockPerm N (fun m => G (F m)) := by
  obtain ⟨hF1, hF2, hF3⟩ := hF
  obtain ⟨hG1, hG2, hG3⟩ := hG
  refine ⟨?_, ?_, ?_⟩
  · intro m k
    show G (F m) k = m (G (F indexMem) k)
    rw [hG1 (F m) k, hF1 m, hG1 (F indexMem) k]
  · intro k hk
    show G (F indexMem) k < N
    rw [hG1 (F indexMem) k]
    exact hF2 _ (hG2 k hk)
  · intro k hk
    show G (F indexMem) k = k
    rw [hG1 (F indexMem) k, hG3 k hk]
    exact hF3 k hk

/-- A loop over a list whose every turn is a `BlockPerm` is a `BlockPerm`. -/
theorem blockPerm_foldl (N : Nat) (body : Nat → Mem → Mem) (l : List Nat)
    (h : ∀ j : Nat, j ∈ l → BlockPerm N (body j)) :
    BlockPerm N (fun m => l.foldl (fun st (j : Nat) => body j st) m) := by
  induction l with
  | nil =>
    refine ⟨fun m k => rfl, fun k hk => hk, fun k _ => rfl⟩
  | cons a l ih =>
    have hl : BlockPerm N (fun m => l.foldl (fun st (j : Nat) => body j st) m) :=
      ih (fun j hj => h j (List.mem_cons_of_mem a hj))
    have ha : BlockPerm N (body a) := h a (List.mem_cons_self a l)
    exact blockPerm_comp N (body a) (fun m => l.foldl (fun st (j : Nat) => body j st) m) ha hl

/-- A counted loop whose every turn is a `BlockPerm` is a `BlockPerm`. -/
theorem blockPerm_forRange (N : Nat) (lo hi : Int) (body : Int → Mem → Mem)
    (h : ∀ i : Int, lo ≤ i → i < hi → BlockPerm N (body i)) :
    BlockPerm N (fun m => forRange lo hi body m) := by
  unfold forRange
  apply blockPerm_foldl N (fun (j : Nat) => body (lo + (j : Int)))
  intro j hj
  have hj2 : j < (hi - lo).toNat := List.mem_range.mp hj
  exact h (lo + (j : Int)) (by omega) (by omega)

/-- Cell `(a, b)` of an `n x n` row-major buffer lies inside the buffer. -/
theorem cell_bound (a b n : Int) (ha0 : 0 ≤ a) (ha1 : a < n) (hb0 : 0 ≤ b) (hb1 : b < n) :
    0 ≤ a * n + b ∧ a * n + b < (((n * n).toNat : Nat) : Int) := by
  have hn : 0 ≤ n := by omega
  have h1 : 0 ≤ a * n := mul_nonneg ha0 hn
  have h2 : a * n ≤ (n - 1) * n := mul_le_mul_of_nonneg_right (by omega) hn
  have h3 : (n - 1) * n = n * n - n := by ring
  have h4 : 0 ≤ n * n := mul_nonneg hn hn
  rw [Int.toNat_of_nonneg h4]
  constructor
  · omega
  · omega

/-- `transpose` permutes the cells of the `mSize x mSize` buffer and touches
nothing after it. -/
theorem blockPerm_transpose (mSize : Int) :
    BlockPerm (mSize * mSize).toNat (fun m => transpose m mSize) := by
  show BlockPerm (mSize * mSize).toNat (fun m =>
    forRange 0 (mSize - 1) (fun i m1 =>
      forRange 1 (mSize - i) (fun j m2 =>
        qSwap m2 ((i * mSize + i) + j) ((i * mSize + i) + j * mSize)) m1) m)
  apply blockPerm_forRange
  intro i hi0 hi1
  apply blockPerm_forRange
  intro j hj0 hj1
  have e1 : (i * mSize + i) + j = i * mSize + (i + j) := by ring
  have e2 : (i * mSize + i) + j * mSize = (i + j) * mSize + i := by ring
  have b1 := cell_bound i (i + j) mSize hi0 (by omega) (by omega) (by omega)
  have b2 := cell_bound (i + j) i mSize (by omega) (by omega) hi0 (by omega)
  rw [e1, e2]
  exact blockPerm_qSwap _ _ _ b1.1 b1.2 b2.1 b2.2

/-- `reverse` permutes the cells of the `mSize x mSize` buffer and touches
nothing after it. -/
theorem blockPerm_reverse (mSize : Int) (revDir : RevDir) :
    BlockPerm (mSize * mSize).toNat (fun m => reverse m mSize revDir) := by
  cases revDir with
  | REV_COL =>
    show BlockPerm (mSize * mSize).toNat (fun m =>
      forRange 0 (mSize / 2) (fun x m1 =>
        forRange 0 mSize (fun y m2 =>
          qSwap m2 (y * mSize + x) (y * mSize + (mSize - x - 1))) m1) m)
    apply blockPerm_forRange
    intro x hx0 hx1
    apply blockPerm_forRange
    intro y hy0 hy1
    have b1 := cell_bound y x mSize hy0 hy1 hx0 (by omega)
    have b2 := cell_bound y (mSize - x - 1) mSize hy0 hy1 (by omega) (by omega)
    exact blockPerm_qSwap _ _ _ b1.1 b1.2 b2.1 b2.2
  | REV_ROW =>
    show BlockPerm (mSize * mSize).toNat (fun m =>
      forRange 0 (mSize / 2) (fun y m1 =>
        forRange 0 mSize (fun x m2 =>
          qSwap m2 (y * mSize + x) ((mSize - y - 1) * mSize + x)) m1) m)
    apply blockPerm_forRange
    intro y hy0 hy1
    apply blockPerm_forRange
    intro x hx0 hx1
    have b1 := cell_bound y x mSize hy0 (by omega) hx0 hx1
    have b2 := cell_bound (mSize - y - 1) x mSize (by omega) (by omega) hx0 hx1
    exact blockPerm_qSwap _ _ _ b1.1 b1.2 b2.1 b2.2

/-- The in-place `rotateBuffer` permutes the cells of the
`blockSize x blockSize` buffer and touches nothing after it. -/
theorem blockPerm_rotateBuffer (blockSize : Int) (rot : BufRotate) :
    BlockPerm (blockSize * blockSize).toNat (fun m => rotateBuffer m blockSize rot) := by
  cases rot with
  | ROT_90 =>
    exact blockPerm_comp _ (fun m => transpose m blockSize)
      (fun m => reverse m blockSize RevDir.REV_COL)
      (blockPerm_transpose blockSize) (blockPerm_reverse blockSize RevDir.REV_COL)
  | ROT_180 =>
    exact blockPerm_comp _ (fun m => reverse m blockSize RevDir.REV_ROW)
      (fun m => reverse m blockSize RevDir.REV_COL)
      (blockPerm_reverse blockSize RevDir.REV_ROW) (blockPerm_reverse blockSize RevDir.REV_COL)
  | ROT_270 =>
    exact blockPerm_comp _ (fun m => transpose m blockSize)
      (fun m => reverse m blockSize RevDir.REV_ROW)
      (blockPerm_transpose blockSize) (blockPerm_reverse blockSize RevDir.REV_ROW)

/-- The index maps of the quarter turns on a 4x4 buffer undo each other: a
turn by 270 degrees after one by 90 degrees, and four turns by 90 degrees,
bring every one of the 16 cells back. -/
theorem rotate_index_round_trip_4x4 :
    (∀ k : Nat, k < 16 →
      rotateBuffer indexMem 4 BufRotate.ROT_90
        (rotateBuffer indexMem 4 BufRotate.ROT_270 k) = k) ∧
    (∀ k : Nat, k < 16 →
      rotateBuffer indexMem 4 BufRotate.ROT_90
        (rotateBuffer indexMem 4 BufRotate.ROT_90
          (rotateBuffer indexMem 4 BufRotate.ROT_90
            (rotateBuffer indexMem 4 BufRotate.ROT_90 k))) = k) := by
  decide

/-- C13: for every 4x4 buffer (and whatever memory follows it), the in-place
`rotateBuffer` with `ROT_90` followed by `rotateBuffer` with `ROT_270` gives
back the original memory, and so do four successive `rotateBuffer` with
`ROT_90`. -/
theorem rotateBuffer_round_trip_4x4 (m : Mem) :
    rotateBuffer (rotateBuffer m 4 BufRotate.ROT_90) 4 BufRotate.ROT_270 = m ∧
    rotateBuffer (rotateBuffer (rotateBuffer (rotateBuffer m 4 BufRotate.ROT_90)
      4 BufRotate.ROT_90) 4 BufRotate.ROT_90) 4 BufRotate.ROT_90 = m := by
  obtain ⟨h90, h90in, h90out⟩ := blockPerm_rotateBuffer 4 BufRotate.ROT_90
  obtain ⟨h270, h270in, h270out⟩ := blockPerm_rotateBuffer 4 BufRotate.ROT_270
  have hN : ((4 : Int) * 4).toNat = 16 := by decide
  rw [hN] at h90in h90out h270in h270out
  simp only at h90 h270 h90in h90out h270in h270out
  constructor
  · funext k
    rw [h270, h90]
    by_cases hk : k < 16
    · rw [rotate_index_round_trip_4x4.1 k hk]
    · rw [h270out k (by omega), h90out k (by omega)]
  · funext k
    rw [h90, h90, h90, h90]
    by_cases hk : k < 16
    · rw [rotate_index_round_trip_4x4.2 k hk]
    · rw [h90out k (by omega), h90out k (by omega), h90out k (by omega), h90out k (by omega)]

/-- What the out-of-place `rotateBuffer( src, dest, blockSize, rot )` leaves in
the memory at `dest`: its first `blockSize * blockSize` cells hold what the
in-place `rotateBuffer` gives on a copy of `src`, and the cells after them
are not written. -/
theorem rotateBufferDest_cells (src dest copy : Mem) (blockSize : Int)
    (rot : BufRotate) (hsize : blockSize * blockSize < 2147483648)
    (hcopy : ∀ k : Nat, k < (blockSize * blockSize).toNat → copy k = src k) :
    (∀ k : Nat, k < (blockSize * blockSize).toNat →
      rotateBufferDest src dest blockSize rot k = rotateBuffer copy blockSize rot k) ∧
    (∀ k : Nat, (blockSize * blockSize).toNat ≤ k →
      rotateBufferDest src dest blockSize rot k = dest k) := by
  obtain ⟨hnat, hin, hout⟩ := blockPerm_rotateBuffer blockSize rot
  simp only at hnat hin hout
  have hnn : 0 ≤ blockSize * blockSize := mul_self_nonneg blockSize
  have hlen : ((toSizeT (blockSize * blockSize * 2) / 2 : Nat) : Int) = blockSize * blockSize :=
    toSizeT_cells (blockSize * blockSize) hnn hsize
  have hcells : toSizeT (blockSize * blockSize * 2) / 2 = (blockSize * blockSize).toNat := by
    omega
  have hlow : ∀ k : Nat, k < (blockSize * blockSize).toNat →
      memcpy dest 0 src 0 (toSizeT (blockSize * blockSize * 2)) k = src k := by
    intro k hk
    unfold memcpy peek
    rw [hcells, if_pos (by omega)]
    congr 1
  have hhigh : ∀ k : Nat, (blockSize * blockSize).toNat ≤ k →
      memcpy dest 0 src 0 (toSizeT (blockSize * blockSize * 2)) k = dest k := by
    intro k hk
    unfold memcpy
    rw [hcells, if_neg (by omega)]
  unfold rotateBufferDest
  constructor
  · intro k hk
    rw [hnat, hnat copy k, hlow _ (hin k hk), hcopy _ (hin k hk)]
  · intro k hk
    rw [hnat, hout k hk, hhigh k hk]

/-- C14: `src` and `dest` are two non-overlapping buffers of
`blockSize * blockSize` cells in a memory `mem` (the cell count fitting an
`int`).  After the out-of-place `rotateBuffer( src, dest, blockSize, rot )`,
for every rotation, every cell of `src` is unchanged, `dest` holds what the
in-place `rotateBuffer` gives on a copy of `src`, whatever `dest` held before,
and no cell outside `dest` is written. -/
theorem rotateBuffer_out_of_place (mem copy : Mem) (srcOff destOff : Nat) (blockSize : Int)
    (rot : BufRotate) (hsize : blockSize * blockSize < 2147483648)
    (hsep : srcOff + (blockSize * blockSize).toNat ≤ destOff ∨
      destOff + (blockSize * blockSize).toNat ≤ srcOff)
    (hcopy : ∀ k : Nat, k < (blockSize * blockSize).toNat → copy k = mem (srcOff + k)) :
    (∀ k : Nat, k < (blockSize * blockSize).toNat →
      rotateBufferAt mem srcOff destOff blockSize rot (srcOff + k) = mem (srcOff + k)) ∧
    (∀ k : Nat, k < (blockSize * blockSize).toNat →
      rotateBufferAt mem srcOff destOff blockSize rot (destOff + k) =
        rotateBuffer copy blockSize rot k) ∧
    (∀ a : Nat, (a < destOff ∨ destOff + (blockSize * blockSize).toNat ≤ a) →
      rotateBufferAt mem srcOff destOff blockSize rot a = mem a) := by
  obtain ⟨hin, hout⟩ := rotateBufferDest_cells (fun k => mem (srcOff + k))
    (fun k => mem (destOff + k)) copy blockSize rot hsize hcopy
  have hframe : ∀ a : Nat, (a < destOff ∨ destOff + (blockSize * blockSize).toNat ≤ a) →
      rotateBufferAt mem srcOff destOff blockSize rot a = mem a := by
    intro a ha
    unfold rotateBufferAt
    by_cases hd : destOff ≤ a
    · simp only [if_pos hd]
      rw [hout (a - destOff) (by omega)]
      show mem (destOff + (a - destOff)) = mem a
      congr 1
      omega
    · simp only [if_neg hd]
  refine ⟨?_, ?_, hframe⟩
  · intro k hk
    exact hframe (srcOff + k) (by omega)
  · intro k hk
    unfold rotateBufferAt
    simp only [if_pos (Nat.le_add_right destOff k), Nat.add_sub_cancel_left]
    exact hin k hk

/-- Witness of C14: in the memory holding `k + 1` in cell `k`, the 4x4 block at
offset 0 is rotated by 90 degrees into the buffer at offset 40. -/
theorem rotateBuffer_out_of_place_witness :
    (∀ k : Nat, k < ((4 : Int) * 4).toNat →
      rotateBufferAt countingBuffer 0 40 4 BufRotate.ROT_90 (0 + k) = countingBuffer (0 + k)) ∧
    (∀ k : Nat, k < ((4 : Int) * 4).toNat →
      rotateBufferAt countingBuffer 0 40 4 BufRotate.ROT_90 (40 + k) =
        rotateBuffer countingBuffer 4 BufRotate.ROT_90 k) ∧
    (∀ a : Nat, (a < 40 ∨ 40 + ((4 : Int) * 4).toNat ≤ a) →
      rotateBufferAt countingBuffer 0 40 4 BufRotate.ROT_90 a = countingBuffer a) :=
  rotateBuffer_out_of_place countingBuffer countingBuffer 0 40 4 BufRotate.ROT_90
    (by decide) (Or.inl (by decide)) (fun k _ => by rw [Nat.zero_add])

/-! ## Colours -/

/-- Packing of in-range channel values: the masks keep them, the three fields
do not overlap, and the sum fits in 16 bits. -/
theorem getColorValue_in_range (red green blue : Nat)
    (hr : red ≤ 31) (hg : green ≤ 63) (hb : blue ≤ 31) :
    Color16b.getColorValue red green blue = red * 2048 + green * 32 + blue := by
  have hrm : red &&& (2 ^ 5 - 1) = red % 2 ^ 5 := Nat.and_pow_two_sub_one_eq_mod red 5
  have hgm : green &&& (2 ^ 6 - 1) = green % 2 ^ 6 := Nat.and_pow_two_sub_one_eq_mod green 6
  have hbm : blue &&& (2 ^ 5 - 1) = blue % 2 ^ 5 := Nat.and_pow_two_sub_one_eq_mod blue 5
  have hr2 : red &&& 31 = red := by
    have h : red % 2 ^ 5 = red := Nat.mod_eq_of_lt (by omega)
    exact hrm.trans h
  have hg2 : green &&& 63 = green := by
    have h : green % 2 ^ 6 = green := Nat.mod_eq_of_lt (by omega)
    exact hgm.trans h
  have hb2 : blue &&& 31 = blue := by
    have h : blue % 2 ^ 5 = blue := Nat.mod_eq_of_lt (by omega)
    exact hbm.trans h
  have hor1 : 2 ^ 11 * red + green * 32 = 2 ^ 11 * red ||| green * 32 :=
    Nat.mul_add_lt_is_or (by omega) red
  have hor2 : 2 ^ 5 * (red * 64 + green) + blue = 2 ^ 5 * (red * 64 + green) ||| blue :=
    Nat.mul_add_lt_is_or (by omega) (red * 64 + green)
  have hsum : 2 ^ 11 * red + green * 32 = 2 ^ 5 * (red * 64 + green) := by omega
  unfold Color16b.getColorValue Color16b.RedMask Color16b.GreenMask Color16b.BlueMask
    Color16b.RedShift Color16b.GreenShift
  show (((red &&& 31) <<< 11 ||| (green &&& 63) <<< 5) ||| (blue &&& 31)) % 65536 = _
  rw [hr2, hg2, hb2, Nat.shiftLeft_eq, Nat.shiftLeft_eq, Nat.mul_comm red (2 ^ 11)]
  rw [show green * 2 ^ 5 = green * 32 from rfl, ← hor1, hsum, ← hor2]
  omega

/-- For in-range channel values `redVal()` and `greenVal()` read the packed
value back; `redVal()` shifts by `RedShift` and masks with `RedMask`. -/
theorem red_green_of_packed (red green blue : Nat)
    (hr : red ≤ 31) (hg : green ≤ 63) (hb : blue ≤ 31) :
    Color16b.redVal (red * 2048 + green * 32 + blue) = red ∧
    Color16b.greenVal (red * 2048 + green * 32 + blue) = green := by
  have hrm : ∀ v : Nat, v &&& (2 ^ 5 - 1) = v % 2 ^ 5 := fun v =>
    Nat.and_pow_two_sub_one_eq_mod v 5
  have hgm : ∀ v : Nat, v &&& (2 ^ 6 - 1) = v % 2 ^ 6 := fun v =>
    Nat.and_pow_two_sub_one_eq_mod v 6
  constructor
  · unfold Color16b.redVal Color16b.RedMask Color16b.RedShift
    rw [Nat.shiftRight_eq_div_pow]
    show ((red * 2048 + green * 32 + blue) / 2 ^ 11 % 256 &&& (2 ^ 5 - 1)) % 256 = red
    rw [hrm]
    omega
  · unfold Color16b.greenVal Color16b.GreenMask Color16b.GreenShift
    rw [Nat.shiftRight_eq_div_pow]
    show ((red * 2048 + green * 32 + blue) / 2 ^ 5 % 256 &&& (2 ^ 6 - 1)) % 256 = green
    rw [hgm]
    omega

/-- C17: for `red <= 31`, `green <= 63`, `blue <= 31`,
`getColorValue(red, green, blue) = red*2048 + green*32 + blue`, a 16 bit
value, and `redVal()` and `greenVal()` of the colour built from them return
`red` and `green`. -/
theorem color_pack_red_green (red green blue : Nat)
    (hr : red ≤ 31) (hg : green ≤ 63) (hb : blue ≤ 31) :
    Color16b.getColorValue red green blue = red * 2048 + green * 32 + blue ∧
    Color16b.getColorValue red green blue < 65536 ∧
    Color16b.redVal (Color16b.getColorValue red green blue) = red ∧
    Color16b.greenVal (Color16b.getColorValue red green blue) = green := by
  rw [getColorValue_in_range red green blue hr hg hb]
  exact ⟨rfl, by omega, (red_green_of_packed red green blue hr hg hb).1,
    (red_green_of_packed red green blue hr hg hb).2⟩

/-- Witness of C17 at the colour gray (16, 32, 16). -/
theorem color_pack_red_green_witness :
    Color16b.getColorValue 16 32 16 = 16 * 2048 + 32 * 32 + 16 ∧
    Color16b.getColorValue 16 32 16 < 65536 ∧
    Color16b.redVal (Color16b.getColorValue 16 32 16) = 16 ∧
    Color16b.greenVal (Color16b.getColorValue 16 32 16) = 32 :=
  color_pack_red_green 16 32 16 (by decide) (by decide) (by decide)

/-- What `blueVal()` returns: it shifts by `RedShift`, so for in-range channel
values it gives back the red channel. -/
theorem blueVal_returns_red (red green blue : Nat)
    (hr : red ≤ 31) (hg : green ≤ 63) (hb : blue ≤ 31) :
    Color16b.blueVal (Color16b.getColorValue red green blue) = red := by
  rw [getColorValue_in_range red green blue hr hg hb]
  exact (red_green_of_packed red green blue hr hg hb).1

/-- C18, evaluated: for the colour blue, built from (0, 0, 31), `blueVal()`
returns 0 where the blue channel is 31, the bits 0-4 of the packed value 31;
for red, built from (31, 0, 0), it returns 31 where the blue channel is 0. -/
theorem blueVal_failing :
    Color16b.getColorValue 0 0 31 = 31 ∧
    Color16b.blueVal (Color16b.getColorValue 0 0 31) = 0 ∧
    Color16b.getColorValue 0 0 31 % 32 = 31 ∧
    Color16b.blueVal (Color16b.getColorValue 31 0 0) = 31 ∧
    Color16b.getColorValue 31 0 0 % 32 = 0 := by
  decide

/-- C19 as stated fails: the packed value of white is `0xFFFF`, not `0x7FFF`,
and after `fill( white )` on a ready engine cell 0 does not hold `0x7FFF`. -/
theorem white_is_not_7FFF :
    Color16b.white = 0xFFFF ∧ Color16b.white ≠ 0x7FFF ∧
    (fill readyEngine Color16b.white).2.fbPtr_ 0 ≠ 0x7FFF := by
  decide

/-- C19, amended: `Color16b::white()`, which is `getColorValue(31, 63, 31)`,
is `0xFFFF`, and after `fill( white )` on a ready engine the call has returned
true and each of the 64 framebuffer cells equals `0xFFFF`. -/
theorem white_is_FFFF (s : SHLedMatrix) (hready : s.ready_ = true) :
    Color16b.white = Color16b.getColorValue 31 63 31 ∧
    Color16b.white = 0xFFFF ∧
    (fill s Color16b.white).1 = true ∧
    ∀ k : Nat, k < 64 → (fill s Color16b.white).2.fbPtr_ k = 0xFFFF := by
  have hw : Color16b.white = 0xFFFF := by decide
  refine ⟨rfl, hw, (fill_cells s Color16b.white hready).1, ?_⟩
  intro k hk
  rw [(fill_cells s Color16b.white hready).2.1 k hk, hw]

/-- Witness of the amended C19 on the sample engine. -/
theorem white_is_FFFF_witness :
    Color16b.white = Color16b.getColorValue 31 63 31 ∧
    Color16b.white = 0xFFFF ∧
    (fill paintedEngine Color16b.white).1 = true ∧
    ∀ k : Nat, k < 64 → (fill paintedEngine Color16b.white).2.fbPtr_ k = 0xFFFF :=
  white_is_FFFF paintedEngine rfl

/-! ## Scrolling text -/

/-- C20: on a ready engine that is scrolling, `scrollText` returns false for
every text and speed (speed 0 included) and leaves the state it found with only
`lastError` overwritten: strip, width, offset, `isScrolling`, timer and
framebuffer are the same. -/
theorem scrollText_while_scrolling (s : SHLedMatrix) (txtWidth : Int) (strip : Int → Mem)
    (pixelsPerSec : Nat) (hready : s.ready_ = true) (hscroll : s.isScrollingText_ = true) :
    scrollText s txtWidth strip pixelsPerSec =
      some (false, { s with lastError_ := "Already scrolling text" }) := by
  simp [scrollText, hready, hscroll]

/-- Witness of C20 on the engine that is in the middle of a scroll. -/
theorem scrollText_while_scrolling_witness :
    scrollText scrollingEngine 30 (fun _ => countingBuffer) 0 =
      some (false, { scrollingEngine with lastError_ := "Already scrolling text" }) :=
  scrollText_while_scrolling scrollingEngine 30 (fun _ => countingBuffer) 0 rfl rfl


/-! ## What the drawing operations leave alone -/

/-- A state draws only on itself. -/
theorem drawsOnly_refl (s : SHLedMatrix) : DrawsOnly s s := rfl

/-- Drawing after drawing is drawing. -/
theorem drawsOnly_trans (s t u : SHLedMatrix) (h1 : DrawsOnly s t) (h2 : DrawsOnly t u) :
    DrawsOnly s u := by
  unfold DrawsOnly at *
  rw [h2, h1]

/-- The fields a drawing operation leaves alone. -/
theorem drawsOnly_fields (s t : SHLedMatrix) (h : DrawsOnly s t) :
    t.ready_ = s.ready_ ∧ t.errorSignals = s.errorSignals ∧
    t.isScrollingText_ = s.isScrollingText_ ∧ t.txtLen_ = s.txtLen_ ∧
    t.curTxtOffset_ = s.curTxtOffset_ ∧ t.txtImg_ = s.txtImg_ ∧
    t.txtTimerActive = s.txtTimerActive ∧ t.txtTimerInterval = s.txtTimerInterval ∧
    t.validFbPtr_ = s.validFbPtr_ ∧ t.fbFd_ = s.fbFd_ ∧
    t.txtImgFromNew = s.txtImgFromNew := by
  unfold DrawsOnly at h
  rw [h]
  exact ⟨rfl, rfl, rfl, rfl, rfl, rfl, rfl, rfl, rfl, rfl, rfl⟩

/-- `clear` changes at most the framebuffer memory and `lastError`. -/
theorem clear_drawsOnly (s : SHLedMatrix) : DrawsOnly s (clear s).2 := by
  unfold DrawsOnly clear
  split_ifs <;> rfl

/-- `setPixel` changes at most the framebuffer memory and `lastError`. -/
theorem setPixel_drawsOnly (s : SHLedMatrix) (x y : Int) (color : Nat) :
    DrawsOnly s (setPixel s x y color).2 := by
  unfold DrawsOnly
  simp only [setPixel]
  split_ifs <;> rfl

/-- `drawHLine` changes at most the framebuffer memory and `lastError`. -/
theorem drawHLine_drawsOnly (s : SHLedMatrix) (x1 x2 y : Int) (color : Nat) :
    DrawsOnly s (drawHLine s x1 x2 y color).2 := by
  unfold DrawsOnly
  simp only [drawHLine]
  split_ifs <;> rfl

/-- `drawVLine` changes at most the framebuffer memory and `lastError`. -/
theorem drawVLine_drawsOnly (s : SHLedMatrix) (x y1 y2 : Int) (color : Nat) :
    DrawsOnly s (drawVLine s x y1 y2 color).2 := by
  unfold DrawsOnly
  simp only [drawVLine]
  split_ifs <;> rfl

/-- `fill` changes at most the framebuffer memory and `lastError`. -/
theorem fill_drawsOnly (s : SHLedMatrix) (c : Nat) : DrawsOnly s (fill s c).2 := by
  unfold DrawsOnly
  simp only [fill]
  split_ifs <;> rfl

/-- `setMatrix` changes at most the framebuffer memory and `lastError`. -/
theorem setMatrix_drawsOnly (s : SHLedMatrix) (buffer : Mem) :
    DrawsOnly s (setMatrix s buffer).2 := by
  unfold DrawsOnly setMatrix
  split_ifs <;> rfl

/-- `setBlock` changes at most the framebuffer memory and `lastError`. -/
theorem setBlock_drawsOnly (s : SHLedMatrix) (src : Mem) (xSize ySize destX destY : Int) :
    DrawsOnly s (setBlock s src xSize ySize destX destY).2 := by
  unfold DrawsOnly
  simp only [setBlock]
  split_ifs <;> rfl

/-- `setImage` changes at most the framebuffer memory and `lastError`. -/
theorem setImage_drawsOnly (s : SHLedMatrix) (image : QImage) (xOff yOff : Nat) :
    DrawsOnly s (setImage s image xOff yOff).2 := by
  unfold DrawsOnly
  simp only [setImage]
  split_ifs <;> rfl

/-- `kaleidoscope` changes at most the framebuffer memory and `lastError`. -/
theorem kaleidoscope_drawsOnly (s : SHLedMatrix) (buf4x4 alt : Mem) :
    DrawsOnly s (kaleidoscope s buf4x4 alt).2 := by
  simp only [kaleidoscope]
  split_ifs
  · show _ = _
    rfl
  · exact drawsOnly_trans _ _ _
      (drawsOnly_trans _ _ _
        (drawsOnly_trans _ _ _ (setBlock_drawsOnly _ _ _ _ _ _) (setBlock_drawsOnly _ _ _ _ _ _))
        (setBlock_drawsOnly _ _ _ _ _ _))
      (setBlock_drawsOnly _ _ _ _ _ _)

/-- The message of a coordinate check is one of the failure messages. -/
theorem coordinateError_mem (xValid yValid : Bool) :
    coordinateError xValid yValid ∈ failureMessages := by
  cases xValid <;> cases yValid <;> decide

/-- `clear` emits nothing and records a message when it fails. -/
theorem clear_recordsOnly (s : SHLedMatrix) : RecordsOnly s (clear s) := by
  refine ⟨(drawsOnly_fields _ _ (clear_drawsOnly s)).2.1, ?_⟩
  unfold clear
  split_ifs
  · intro _; simp [failureMessages]
  · intro h; exact h.elim

/-- `setPixel` emits nothing and records a message when it fails. -/
theorem setPixel_recordsOnly (s : SHLedMatrix) (x y : Int) (color : Nat) :
    RecordsOnly s (setPixel s x y color) := by
  refine ⟨(drawsOnly_fields _ _ (setPixel_drawsOnly s x y color)).2.1, ?_⟩
  simp only [setPixel]
  split_ifs
  · intro _; simp [failureMessages]
  · intro _; exact coordinateError_mem _ _
  · intro h; exact h.elim

/-- `drawHLine` emits nothing and records a message when it fails. -/
theorem drawHLine_recordsOnly (s : SHLedMatrix) (x1 x2 y : Int) (color : Nat) :
    RecordsOnly s (drawHLine s x1 x2 y color) := by
  refine ⟨(drawsOnly_fields _ _ (drawHLine_drawsOnly s x1 x2 y color)).2.1, ?_⟩
  simp only [drawHLine]
  split_ifs
  · intro _; simp [failureMessages]
  · intro _; exact coordinateError_mem _ _
  · intro h; exact h.elim
  · intro h; exact h.elim

/-- `drawVLine` emits nothing and records a message when it fails. -/
theorem drawVLine_recordsOnly (s : SHLedMatrix) (x y1 y2 : Int) (color : Nat) :
    RecordsOnly s (drawVLine s x y1 y2 color) := by
  refine ⟨(drawsOnly_fields _ _ (drawVLine_drawsOnly s x y1 y2 color)).2.1, ?_⟩
  simp only [drawVLine]
  split_ifs
  · intro _; simp [failureMessages]
  · intro _; exact coordinateError_mem _ _
  · intro h; exact h.elim
  · intro h; exact h.elim

/-- `fill` emits nothing and records a message when it fails. -/
theorem fill_recordsOnly (s : SHLedMatrix) (c : Nat) : RecordsOnly s (fill s c) := by
  refine ⟨(drawsOnly_fields _ _ (fill_drawsOnly s c)).2.1, ?_⟩
  simp only [fill]
  split_ifs
  · intro _; simp [failureMessages]
  · intro h; exact h.elim

/-- `setMatrix` emits nothing and records a message when it fails. -/
theorem setMatrix_recordsOnly (s : SHLedMatrix) (buffer : Mem) :
    RecordsOnly s (setMatrix s buffer) := by
  refine ⟨(drawsOnly_fields _ _ (setMatrix_drawsOnly s buffer)).2.1, ?_⟩
  unfold setMatrix
  split_ifs
  · intro _; simp [failureMessages]
  · intro h; exact h.elim

/-- `kaleidoscope` emits nothing and records a message when it fails. -/
theorem kaleidoscope_recordsOnly (s : SHLedMatrix) (buf4x4 alt : Mem) :
    RecordsOnly s (kaleidoscope s buf4x4 alt) := by
  refine ⟨(drawsOnly_fields _ _ (kaleidoscope_drawsOnly s buf4x4 alt)).2.1, ?_⟩
  simp only [kaleidoscope]
  split_ifs
  · intro _; simp [failureMessages]
  · intro h; exact h.elim

/-- `setBlock` emits nothing and records "Invalid parameter" when it rejects
its arguments on a ready engine. -/
theorem setBlock_recordsOnly (s : SHLedMatrix) (src : Mem) (xSize ySize destX destY : Int) :
    RecordsOnly s (setBlock s src xSize ySize destX destY) ∧
    (s.ready_ = true → (setBlock s src xSize ySize destX destY).1 = false →
      (setBlock s src xSize ySize destX destY).2.lastError_ = "Invalid parameter") := by
  refine ⟨⟨(drawsOnly_fields _ _ (setBlock_drawsOnly s src xSize ySize destX destY)).2.1, ?_⟩, ?_⟩
  · simp only [setBlock]
    split_ifs
    · intro _; simp [failureMessages]
    · intro _; simp [failureMessages]
    · intro h; exact h.elim
  · intro hready
    simp only [setBlock, hready, Bool.not_true, Bool.false_eq_true, if_false]
    split_ifs
    · intro _; rfl
    · intro h; exact h.elim

/-- `setImage` emits nothing and records a message when it fails. -/
theorem setImage_recordsOnly (s : SHLedMatrix) (image : QImage) (xOff yOff : Nat) :
    RecordsOnly s (setImage s image xOff yOff) := by
  refine ⟨(drawsOnly_fields _ _ (setImage_drawsOnly s image xOff yOff)).2.1, ?_⟩
  simp only [setImage]
  split_ifs
  · intro _; simp [failureMessages]
  · intro _; simp [failureMessages]
  · intro h; exact h.elim

/-- What any returning call of `scrollText` leaves alone: `ready`, the emitted
signals; a failing one records a failure message. -/
theorem scrollText_fields (s : SHLedMatrix) (txtWidth : Int) (strip : Int → Mem)
    (pixelsPerSec : Nat) (r : Bool × SHLedMatrix)
    (h : scrollText s txtWidth strip pixelsPerSec = some r) :
    r.2.ready_ = s.ready_ ∧ RecordsOnly s r := by
  simp only [scrollText] at h
  split_ifs at h
  · obtain rfl := Option.some.inj h
    exact ⟨rfl, rfl, fun _ => by simp [failureMessages]⟩
  · obtain rfl := Option.some.inj h
    exact ⟨rfl, rfl, fun _ => by simp [failureMessages]⟩
  · obtain rfl := Option.some.inj h
    have hf := drawsOnly_fields _ _ (setImage_drawsOnly
      { s with txtLen_ := txtWidth,
               txtImg_ := some (newQImage (txtWidth + 1) DisplayYSize
                 QImageFormat.Format_RGB16 strip),
               txtImgFromNew := true,
               curTxtOffset_ := 0, isScrollingText_ := true }
      (newQImage (txtWidth + 1) DisplayYSize QImageFormat.Format_RGB16 strip)
      (toQuint16 0) 0)
    exact ⟨hf.1, hf.2.1, fun hr => Bool.noConfusion hr⟩

/-- What a timer tick that returns leaves alone. -/
theorem handleScrollText_fields (s t : SHLedMatrix) (h : handleScrollText s = some t) :
    t.ready_ = s.ready_ ∧ t.errorSignals = s.errorSignals ∧ t.txtLen_ = s.txtLen_ ∧
    t.txtImg_ = s.txtImg_ := by
  unfold handleScrollText at h
  split_ifs at h
  · obtain rfl := Option.some.inj h
    exact ⟨rfl, rfl, rfl, rfl⟩
  · cases himg : s.txtImg_ with
    | none =>
      simp only [himg] at h
      exact absurd h (by simp)
    | some img =>
      simp only [himg] at h
      have hf := drawsOnly_fields _ _ (setImage_drawsOnly
        { s with curTxtOffset_ := s.curTxtOffset_ + 1, txtImg_ := some img } img
        (toQuint16 (s.curTxtOffset_ + 1)) 0)
      split_ifs at h
      · obtain rfl := Option.some.inj h
        exact ⟨hf.1, hf.2.1, hf.2.2.2.1, hf.2.2.2.2.2.1⟩
      · obtain rfl := Option.some.inj h
        exact ⟨hf.1, hf.2.1, hf.2.2.2.1, hf.2.2.2.2.2.1⟩

/-! ## Failure reporting -/

/-- C25 as stated fails: `setPixel( 8, 0, c )` on the ready sample engine
fails and records "Invalid X coordinate" in `lastError`, but no `error` signal
is emitted: the sequence of emitted signals is still empty, so it does not end
with the recorded text. -/
theorem failing_setPixel_emits_no_signal :
    (setPixel paintedEngine 8 0 7).1 = false ∧
    (setPixel paintedEngine 8 0 7).2.lastError_ = "Invalid X coordinate" ∧
    paintedEngine.errorSignals = [] ∧
    (setPixel paintedEngine 8 0 7).2.errorSignals = [] ∧
    (setPixel paintedEngine 8 0 7).2.errorSignals ≠
      paintedEngine.errorSignals ++ [(setPixel paintedEngine 8 0 7).2.lastError_] := by
  decide

/-- C25, amended: a call of a drawing operation (`clear`, `setPixel`,
`drawHLine`, `drawVLine`, `fill`, `setMatrix`, `kaleidoscope`, `setBlock`,
`setImage`, `scrollText`) emits no `error` signal, whether it succeeds or
fails; a failing call only records its message, one of the failure messages,
in `lastError`. -/
theorem drawing_failures_only_recorded (s : SHLedMatrix)
    (x y x1 x2 y1 y2 xSize ySize destX destY txtWidth : Int)
    (color xOffset yOffset pixelsPerSec : Nat)
    (buffer buf4x4 alt srcBuf : Mem) (image : QImage) (strip : Int → Mem) :
    RecordsOnly s (clear s) ∧
    RecordsOnly s (setPixel s x y color) ∧
    RecordsOnly s (drawHLine s x1 x2 y color) ∧
    RecordsOnly s (drawVLine s x y1 y2 color) ∧
    RecordsOnly s (fill s color) ∧
    RecordsOnly s (setMatrix s buffer) ∧
    RecordsOnly s (kaleidoscope s buf4x4 alt) ∧
    RecordsOnly s (setBlock s srcBuf xSize ySize destX destY) ∧
    RecordsOnly s (setImage s image xOffset yOffset) ∧
    (∀ r : Bool × SHLedMatrix, scrollText s txtWidth strip pixelsPerSec = some r →
      RecordsOnly s r) :=
  ⟨clear_recordsOnly s, setPixel_recordsOnly s x y color, drawHLine_recordsOnly s x1 x2 y color,
   drawVLine_recordsOnly s x y1 y2 color, fill_recordsOnly s color, setMatrix_recordsOnly s buffer,
   kaleidoscope_recordsOnly s buf4x4 alt,
   (setBlock_recordsOnly s srcBuf xSize ySize destX destY).1,
   setImage_recordsOnly s image xOffset yOffset,
   fun r h => (scrollText_fields s txtWidth strip pixelsPerSec r h).2⟩

/-- Witness of the amended C25: failing calls on the sample engines, among
them `setPixel( 8, 0, c )`, a block at (5, 0) and a second `scrollText`. -/
theorem drawing_failures_only_recorded_witness :
    RecordsOnly scrollingEngine (clear scrollingEngine) ∧
    RecordsOnly scrollingEngine (setPixel scrollingEngine 8 0 7) ∧
    RecordsOnly scrollingEngine (drawHLine scrollingEngine 2 8 0 7) ∧
    RecordsOnly scrollingEngine (drawVLine scrollingEngine 8 1 9 7) ∧
    RecordsOnly scrollingEngine (fill scrollingEngine 7) ∧
    RecordsOnly scrollingEngine (setMatrix scrollingEngine countingBuffer) ∧
    RecordsOnly scrollingEngine (kaleidoscope scrollingEngine countingBuffer countingBuffer) ∧
    RecordsOnly scrollingEngine (setBlock scrollingEngine countingBuffer 4 4 5 0) ∧
    RecordsOnly scrollingEngine (setImage scrollingEngine sampleImage 3 0) ∧
    (∀ r : Bool × SHLedMatrix, scrollText scrollingEngine 20 sampleStrip 15 = some r →
      RecordsOnly scrollingEngine r) :=
  drawing_failures_only_recorded scrollingEngine 8 0 2 8 1 9 4 4 5 0 20 7 3 0 15
    countingBuffer countingBuffer countingBuffer countingBuffer sampleImage sampleStrip

/-! ## The ready flag -/

/-- C28: the value of `ready` is the same after every public operation
(`clear`, `setPixel`, `drawHLine`, `drawVLine`, `fill`, `setMatrix`,
`kaleidoscope`, `setBlock`, `setImage`, `scrollText`, `setTextFamily`,
`setTextPointSize`) and after every timer tick, whether the call succeeds or
fails; `rotateBuffer` works on the buffers it is given and has no access to the
flag. -/
theorem ready_preserved (s : SHLedMatrix)
    (x y x1 x2 y1 y2 xSize ySize destX destY txtWidth pSize : Int)
    (color xOffset yOffset pixelsPerSec : Nat)
    (buffer buf4x4 alt srcBuf : Mem) (image : QImage) (strip : Int → Mem) (family : String) :
    (clear s).2.ready_ = s.ready_ ∧
    (setPixel s x y color).2.ready_ = s.ready_ ∧
    (drawHLine s x1 x2 y color).2.ready_ = s.ready_ ∧
    (drawVLine s x y1 y2 color).2.ready_ = s.ready_ ∧
    (fill s color).2.ready_ = s.ready_ ∧
    (setMatrix s buffer).2.ready_ = s.ready_ ∧
    (kaleidoscope s buf4x4 alt).2.ready_ = s.ready_ ∧
    (setBlock s srcBuf xSize ySize destX destY).2.ready_ = s.ready_ ∧
    (setImage s image xOffset yOffset).2.ready_ = s.ready_ ∧
    (∀ r : Bool × SHLedMatrix, scrollText s txtWidth strip pixelsPerSec = some r →
      r.2.ready_ = s.ready_) ∧
    (∀ t : SHLedMatrix, handleScrollText s = some t → t.ready_ = s.ready_) ∧
    (setTextFamily s family).ready_ = s.ready_ ∧
    (setTextPointSize s pSize).ready_ = s.ready_ :=
  ⟨(drawsOnly_fields _ _ (clear_drawsOnly s)).1,
   (drawsOnly_fields _ _ (setPixel_drawsOnly s x y color)).1,
   (drawsOnly_fields _ _ (drawHLine_drawsOnly s x1 x2 y color)).1,
   (drawsOnly_fields _ _ (drawVLine_drawsOnly s x y1 y2 color)).1,
   (drawsOnly_fields _ _ (fill_drawsOnly s color)).1,
   (drawsOnly_fields _ _ (setMatrix_drawsOnly s buffer)).1,
   (drawsOnly_fields _ _ (kaleidoscope_drawsOnly s buf4x4 alt)).1,
   (drawsOnly_fields _ _ (setBlock_drawsOnly s srcBuf xSize ySize destX destY)).1,
   (drawsOnly_fields _ _ (setImage_drawsOnly s image xOffset yOffset)).1,
   fun r h => (scrollText_fields s txtWidth strip pixelsPerSec r h).1,
   fun t h => (handleScrollText_fields s t h).1,
   rfl, rfl⟩

/-- Witness of C28: calls with invalid arguments on the ready engine that is
scrolling. -/
theorem ready_preserved_witness :
    (clear scrollingEngine).2.ready_ = scrollingEngine.ready_ ∧
    (setPixel scrollingEngine 8 0 7).2.ready_ = scrollingEngine.ready_ ∧
    (drawHLine scrollingEngine 2 8 0 7).2.ready_ = scrollingEngine.ready_ ∧
    (drawVLine scrollingEngine 8 1 9 7).2.ready_ = scrollingEngine.ready_ ∧
    (fill scrollingEngine 7).2.ready_ = scrollingEngine.ready_ ∧
    (setMatrix scrollingEngine countingBuffer).2.ready_ = scrollingEngine.ready_ ∧
    (kaleidoscope scrollingEngine countingBuffer countingBuffer).2.ready_ =
      scrollingEngine.ready_ ∧
    (setBlock scrollingEngine countingBuffer 4 4 5 0).2.ready_ = scrollingEngine.ready_ ∧
    (setImage scrollingEngine sampleImage 3 0).2.ready_ = scrollingEngine.ready_ ∧
    (∀ r : Bool × SHLedMatrix, scrollText scrollingEngine 20 sampleStrip 15 = some r →
      r.2.ready_ = scrollingEngine.ready_) ∧
    (∀ t : SHLedMatrix, handleScrollText scrollingEngine = some t →
      t.ready_ = scrollingEngine.ready_) ∧
    (setTextFamily scrollingEngine "Courier").ready_ = scrollingEngine.ready_ ∧
    (setTextPointSize scrollingEngine 10).ready_ = scrollingEngine.ready_ :=
  ready_preserved scrollingEngine 8 0 2 8 1 9 4 4 5 0 20 10 7 3 0 15
    countingBuffer countingBuffer countingBuffer countingBuffer sampleImage sampleStrip "Courier"

/-! ## The messages of the coordinate checks -/

/-- The message chosen from the validity of the two axes. -/
theorem coordinateError_cases (p q : Prop) [Decidable p] [Decidable q] :
    (¬ p → q → coordinateError (decide p) (decide q) = "Invalid X coordinate") ∧
    (p → ¬ q → coordinateError (decide p) (decide q) = "Invalid Y coordinate") ∧
    (¬ p → ¬ q → coordinateError (decide p) (decide q) = "Invalid X and Y coordinates") := by
  by_cases hp : p <;> by_cases hq : q <;> simp [coordinateError, hp, hq]

/-- The message `setPixel` records when it rejects its coordinates. -/
theorem setPixel_rejected_message (s : SHLedMatrix) (x y : Int) (color : Nat)
    (hready : s.ready_ = true) (hbad : ¬ (x ≥ 0 ∧ x < 8) ∨ ¬ (y ≥ 0 ∧ y < 8)) :
    (setPixel s x y color).2.lastError_ =
      coordinateError (decide (x ≥ 0 ∧ x < 8)) (decide (y ≥ 0 ∧ y < 8)) := by
  have hb : (!decide (x ≥ 0 ∧ x < 8) || !decide (y ≥ 0 ∧ y < 8)) = true := by
    rcases hbad with h | h <;> simp [h]
  simp only [setPixel, hready, Bool.not_true, Bool.false_eq_true, if_false, DisplayXSize,
    DisplayYSize]
  rw [if_pos hb]

/-- The message `drawHLine` records when it rejects its coordinates. -/
theorem drawHLine_rejected_message (s : SHLedMatrix) (x1 x2 y : Int) (color : Nat)
    (hready : s.ready_ = true)
    (hbad : ¬ (x1 ≥ 0 ∧ x1 < 8 ∧ x2 ≥ 0 ∧ x2 < 8) ∨ ¬ (y ≥ 0 ∧ y < 8)) :
    (drawHLine s x1 x2 y color).2.lastError_ =
      coordinateError (decide (x1 ≥ 0 ∧ x1 < 8 ∧ x2 ≥ 0 ∧ x2 < 8)) (decide (y ≥ 0 ∧ y < 8)) := by
  have hb : (!decide (x1 ≥ 0 ∧ x1 < 8 ∧ x2 ≥ 0 ∧ x2 < 8) || !decide (y ≥ 0 ∧ y < 8)) = true := by
    rcases hbad with h | h <;> simp [h]
  simp only [drawHLine, hready, Bool.not_true, Bool.false_eq_true, if_false, DisplayXSize,
    DisplayYSize]
  rw [if_pos hb]

/-- The message `drawVLine` records when it rejects its coordinates. -/
theorem drawVLine_rejected_message (s : SHLedMatrix) (x y1 y2 : Int) (color : Nat)
    (hready : s.ready_ = true)
    (hbad : ¬ (x ≥ 0 ∧ x < 8) ∨ ¬ (y1 ≥ 0 ∧ y1 < 8 ∧ y2 ≥ 0 ∧ y2 < 8)) :
    (drawVLine s x y1 y2 color).2.lastError_ =
      coordinateError (decide (x ≥ 0 ∧ x < 8)) (decide (y1 ≥ 0 ∧ y1 < 8 ∧ y2 ≥ 0 ∧ y2 < 8)) := by
  have hb : (!decide (x ≥ 0 ∧ x < 8) || !decide (y1 ≥ 0 ∧ y1 < 8 ∧ y2 ≥ 0 ∧ y2 < 8)) = true := by
    rcases hbad with h | h <;> simp [h]
  simp only [drawVLine, hready, Bool.not_true, Bool.false_eq_true, if_false, DisplayXSize,
    DisplayYSize]
  rw [if_pos hb]

/-- C29 as stated fails for `setBlock`: a 4x4 block rejected because only its
X range leaves the display (at (5, 0)), one rejected because only its Y range
does (at (0, 5)) and one rejected for both (at (5, 5)) all leave the same
message "Invalid parameter" in `lastError`, which names no axis. -/
theorem setBlock_message_names_no_axis :
    (setBlock paintedEngine countingBuffer 4 4 5 0).1 = false ∧
    (setBlock paintedEngine countingBuffer 4 4 5 0).2.lastError_ = "Invalid parameter" ∧
    (setBlock paintedEngine countingBuffer 4 4 0 5).1 = false ∧
    (setBlock paintedEngine countingBuffer 4 4 0 5).2.lastError_ = "Invalid parameter" ∧
    (setBlock paintedEngine countingBuffer 4 4 5 5).1 = false ∧
    (setBlock paintedEngine countingBuffer 4 4 5 5).2.lastError_ = "Invalid parameter" := by
  decide

/-- C29, amended: on a ready engine, `setPixel( a, b )`, `drawHLine( a, b, c )`
and `drawVLine( a, b, c )` rejected for out-of-range coordinates set `lastError`
to "Invalid X coordinate" when only X coordinates are out of `[0,8)`, to
"Invalid Y coordinate" when only Y coordinates are, and to
"Invalid X and Y coordinates" when both are; a rejected `setBlock` sets it to
"Invalid parameter" whichever axis is out of range. -/
theorem coordinate_messages (s : SHLedMatrix) (a b c xSize ySize destX destY : Int)
    (color : Nat) (src : Mem) (hready : s.ready_ = true) :
    ((¬ (a ≥ 0 ∧ a < 8) → (b ≥ 0 ∧ b < 8) →
        (setPixel s a b color).2.lastError_ = "Invalid X coordinate") ∧
     ((a ≥ 0 ∧ a < 8) → ¬ (b ≥ 0 ∧ b < 8) →
        (setPixel s a b color).2.lastError_ = "Invalid Y coordinate") ∧
     (¬ (a ≥ 0 ∧ a < 8) → ¬ (b ≥ 0 ∧ b < 8) →
        (setPixel s a b color).2.lastError_ = "Invalid X and Y coordinates")) ∧
    ((¬ (a ≥ 0 ∧ a < 8 ∧ b ≥ 0 ∧ b < 8) → (c ≥ 0 ∧ c < 8) →
        (drawHLine s a b c color).2.lastError_ = "Invalid X coordinate") ∧
     ((a ≥ 0 ∧ a < 8 ∧ b ≥ 0 ∧ b < 8) → ¬ (c ≥ 0 ∧ c < 8) →
        (drawHLine s a b c color).2.lastError_ = "Invalid Y coordinate") ∧
     (¬ (a ≥ 0 ∧ a < 8 ∧ b ≥ 0 ∧ b < 8) → ¬ (c ≥ 0 ∧ c < 8) →
        (drawHLine s a b c color).2.lastError_ = "Invalid X and Y coordinates")) ∧
    ((¬ (a ≥ 0 ∧ a < 8) → (b ≥ 0 ∧ b < 8 ∧ c ≥ 0 ∧ c < 8) →
        (drawVLine s a b c color).2.lastError_ = "Invalid X coordinate") ∧
     ((a ≥ 0 ∧ a < 8) → ¬ (b ≥ 0 ∧ b < 8 ∧ c ≥ 0 ∧ c < 8) →
        (drawVLine s a b c color).2.lastError_ = "Invalid Y coordinate") ∧
     (¬ (a ≥ 0 ∧ a < 8) → ¬ (b ≥ 0 ∧ b < 8 ∧ c ≥ 0 ∧ c < 8) →
        (drawVLine s a b c color).2.lastError_ = "Invalid X and Y coordinates")) ∧
    ((setBlock s src xSize ySize destX destY).1 = false →
      (setBlock s src xSize ySize destX destY).2.lastError_ = "Invalid parameter") := by
  refine ⟨⟨?_, ?_, ?_⟩, ⟨?_, ?_, ?_⟩, ⟨?_, ?_, ?_⟩,
    (setBlock_recordsOnly s src xSize ySize destX destY).2 hready⟩
  · intro hx hy
    rw [setPixel_rejected_message s a b color hready (Or.inl hx)]
    exact (coordinateError_cases _ _).1 hx hy
  · intro hx hy
    rw [setPixel_rejected_message s a b color hready (Or.inr hy)]
    exact (coordinateError_cases _ _).2.1 hx hy
  · intro hx hy
    rw [setPixel_rejected_message s a b color hready (Or.inl hx)]
    exact (coordinateError_cases _ _).2.2 hx hy
  · intro hx hy
    rw [drawHLine_rejected_message s a b c color hready (Or.inl hx)]
    exact (coordinateError_cases _ _).1 hx hy
  · intro hx hy
    rw [drawHLine_rejected_message s a b c color hready (Or.inr hy)]
    exact (coordinateError_cases _ _).2.1 hx hy
  · intro hx hy
    rw [drawHLine_rejected_message s a b c color hready (Or.inl hx)]
    exact (coordinateError_cases _ _).2.2 hx hy
  · intro hx hy
    rw [drawVLine_rejected_message s a b c color hready (Or.inl hx)]
    exact (coordinateError_cases _ _).1 hx hy
  · intro hx hy
    rw [drawVLine_rejected_message s a b c color hready (Or.inr hy)]
    exact (coordinateError_cases _ _).2.1 hx hy
  · intro hx hy
    rw [drawVLine_rejected_message s a b c color hready (Or.inl hx)]
    exact (coordinateError_cases _ _).2.2 hx hy

/-- Witness of the amended C29: the coordinates (8, 3, 9) on the sample engine,
with a block at (5, 0). -/
theorem coordinate_messages_witness :
    ((¬ ((8 : Int) ≥ 0 ∧ (8 : Int) < 8) → ((3 : Int) ≥ 0 ∧ (3 : Int) < 8) →
        (setPixel paintedEngine 8 3 7).2.lastError_ = "Invalid X coordinate") ∧
     (((8 : Int) ≥ 0 ∧ (8 : Int) < 8) → ¬ ((3 : Int) ≥ 0 ∧ (3 : Int) < 8) →
        (setPixel paintedEngine 8 3 7).2.lastError_ = "Invalid Y coordinate") ∧
     (¬ ((8 : Int) ≥ 0 ∧ (8 : Int) < 8) → ¬ ((3 : Int) ≥ 0 ∧ (3 : Int) < 8) →
        (setPixel paintedEngine 8 3 7).2.lastError_ = "Invalid X and Y coordinates")) ∧
    ((¬ ((8 : Int) ≥ 0 ∧ (8 : Int) < 8 ∧ (3 : Int) ≥ 0 ∧ (3 : Int) < 8) →
        ((9 : Int) ≥ 0 ∧ (9 : Int) < 8) →
        (drawHLine paintedEngine 8 3 9 7).2.lastError_ = "Invalid X coordinate") ∧
     (((8 : Int) ≥ 0 ∧ (8 : Int) < 8 ∧ (3 : Int) ≥ 0 ∧ (3 : Int) < 8) →
        ¬ ((9 : Int) ≥ 0 ∧ (9 : Int) < 8) →
        (drawHLine paintedEngine 8 3 9 7).2.lastError_ = "Invalid Y coordinate") ∧
     (¬ ((8 : Int) ≥ 0 ∧ (8 : Int) < 8 ∧ (3 : Int) ≥ 0 ∧ (3 : Int) < 8) →
        ¬ ((9 : Int) ≥ 0 ∧ (9 : Int) < 8) →
        (drawHLine paintedEngine 8 3 9 7).2.lastError_ = "Invalid X and Y coordinates")) ∧
    ((¬ ((8 : Int) ≥ 0 ∧ (8 : Int) < 8) →
        ((3 : Int) ≥ 0 ∧ (3 : Int) < 8 ∧ (9 : Int) ≥ 0 ∧ (9 : Int) < 8) →
        (drawVLine paintedEngine 8 3 9 7).2.lastError_ = "Invalid X coordinate") ∧
     (((8 : Int) ≥ 0 ∧ (8 : Int) < 8) →
        ¬ ((3 : Int) ≥ 0 ∧ (3 : Int) < 8 ∧ (9 : Int) ≥ 0 ∧ (9 : Int) < 8) →
        (drawVLine paintedEngine 8 3 9 7).2.lastError_ = "Invalid Y coordinate") ∧
     (¬ ((8 : Int) ≥ 0 ∧ (8 : Int) < 8) →
        ¬ ((3 : Int) ≥ 0 ∧ (3 : Int) < 8 ∧ (9 : Int) ≥ 0 ∧ (9 : Int) < 8) →
        (drawVLine paintedEngine 8 3 9 7).2.lastError_ = "Invalid X and Y coordinates")) ∧
    ((setBlock paintedEngine countingBuffer 4 4 5 0).1 = false →
      (setBlock paintedEngine countingBuffer 4 4 5 0).2.lastError_ = "Invalid parameter") :=
  coordinate_messages paintedEngine 8 3 9 4 4 5 0 7 countingBuffer rfl

/-! ## Resolution -/

/-- What `xResolution()` and `yResolution()` return: the constants
`DisplayXSize` and `DisplayYSize`, whatever the state. -/
theorem resolution_is_constant (s : SHLedMatrix) :
    xResolution s = 8 ∧ yResolution s = 8 := ⟨rfl, rfl⟩

/-- C30, evaluated: on the engine for which no device was found, `ready()` is
false and `xResolution()` and `yResolution()` still return 8, where the claim
and the documentation of the two methods give 0. -/
theorem resolution_when_not_ready :
    ready freshEngine = false ∧ xResolution freshEngine = 8 ∧ yResolution freshEngine = 8 ∧
    xResolution freshEngine ≠ 0 ∧ yResolution freshEngine ≠ 0 := by
  decide

/-! ## Device discovery and setup -/

/-- When no entry of the scan opens with the expected name, `findFbDevice`
returns `INVALID_FB` and emits its signal. -/
theorem findFbDevice_not_listed (s : SHLedMatrix) (files : List FbCandidate)
    (h : ¬ DeviceListed files) :
    findFbDevice s files =
      (INVALID_FB, { s with errorSignals :=
                             s.errorSignals ++ ["Display: Could not find framebuffer device!!!"] }) := by
  induction files with
  | nil => rfl
  | cons f rest ih =>
    have hrest : ¬ DeviceListed rest := by
      rintro ⟨g, hg, hg2⟩
      exact h ⟨g, List.mem_cons_of_mem f hg, hg2⟩
    unfold findFbDevice
    by_cases hfd : f.fd < 0
    · rw [if_pos hfd]
      exact ih hrest
    · rw [if_neg hfd]
      by_cases hid : f.id = FB_NAME
      · exact absurd ⟨f, List.mem_cons_self f rest, by omega, hid⟩ h
      · rw [if_neg hid]
        exact ih hrest

/-- When an entry of the scan opens with the expected name, `findFbDevice`
returns a valid descriptor and emits nothing. -/
theorem findFbDevice_listed (s : SHLedMatrix) (files : List FbCandidate)
    (h : DeviceListed files) :
    (findFbDevice s files).1 ≠ INVALID_FB ∧ (findFbDevice s files).2 = s := by
  induction files with
  | nil =>
    obtain ⟨g, hg, _⟩ := h
    exact absurd hg (List.not_mem_nil g)
  | cons f rest ih =>
    unfold findFbDevice
    by_cases hfd : f.fd < 0
    · rw [if_pos hfd]
      apply ih
      obtain ⟨g, hg, hg2⟩ := h
      rcases List.mem_cons.mp hg with heq | hin
      · subst heq
        omega
      · exact ⟨g, hin, hg2⟩
    · rw [if_neg hfd]
      by_cases hid : f.id = FB_NAME
      · rw [if_pos hid]
        refine ⟨?_, rfl⟩
        show f.fd ≠ -1
        omega
      · rw [if_neg hid]
        apply ih
        obtain ⟨g, hg, hg2⟩ := h
        rcases List.mem_cons.mp hg with heq | hin
        · subst heq
          exact absurd hg2.2 hid
        · exact ⟨g, hin, hg2⟩

/-- The geometry test of `setupFbDevice`, once both queries have succeeded:
the three outcomes of the setup. -/
theorem setupFbDevice_outcomes (s : SHLedMatrix) (sys : FbSetup)
    (hfix : sys.fixResult ≠ -1) (hvar : sys.varResult ≠ -1) :
    (¬ GeometryExpected sys.vInfo →
      setupFbDevice s sys =
        { s with lastError_ := "Framebuffer parameters are different than expected",
                 errorSignals := s.errorSignals ++
                   ["Display: Framebuffer parameters are different than expected"] }) ∧
    (GeometryExpected sys.vInfo → sys.mapped = none →
      setupFbDevice s sys =
        { s with errorSignals :=
                  s.errorSignals ++ ["Display: Error getting framebuffer memory map"] }) ∧
    (GeometryExpected sys.vInfo → ∀ m : Mem, sys.mapped = some m →
      setupFbDevice s sys =
        { s with fbPtr_ := memset m 0 128, validFbPtr_ := true, ready_ := true }) := by
  refine ⟨?_, ?_, ?_⟩
  · intro hgeo
    have hgeo2 : ¬ ((sys.vInfo.xres : Int) = 8 ∧ (sys.vInfo.yres : Int) = 8 ∧
        (sys.vInfo.bits_per_pixel : Int) = 16 ∧ sys.vInfo.xoffset = 0 ∧
        sys.vInfo.yoffset = 0) := by
      rintro ⟨g1, g2, g3, g4, g5⟩
      exact hgeo ⟨by omega, by omega, by omega, g4, g5⟩
    simp only [setupFbDevice, if_neg hfix, if_neg hvar, DisplayXSize, DisplayYSize,
      DisplayBitsPerPixel]
    by_cases h1 : (sys.vInfo.xres : Int) = 8 <;> by_cases h2 : (sys.vInfo.yres : Int) = 8 <;>
      by_cases h3 : (sys.vInfo.bits_per_pixel : Int) = 16 <;>
      by_cases h4 : sys.vInfo.xoffset = 0 <;>
      by_cases h5 : sys.vInfo.yoffset = 0 <;> simp_all
  · intro hgeo hmap
    obtain ⟨h1, h2, h3, h4, h5⟩ := hgeo
    simp [setupFbDevice, hfix, hvar, h1, h2, h3, h4, h5, hmap]
  · intro hgeo m hmap
    obtain ⟨h1, h2, h3, h4, h5⟩ := hgeo
    simp [setupFbDevice, hfix, hvar, h1, h2, h3, h4, h5, hmap, clear]

/-- The two query failures of `setupFbDevice`. -/
theorem setupFbDevice_query_failed (s : SHLedMatrix) (sys : FbSetup) :
    (sys.fixResult = -1 →
      setupFbDevice s sys =
        { s with lastError_ := "Error reading fixed information from framebuffer",
                 errorSignals := s.errorSignals ++
                   ["Display: Error reading fixed information from framebuffer"] }) ∧
    (sys.fixResult ≠ -1 → sys.varResult = -1 →
      setupFbDevice s sys =
        { s with lastError_ := "Error reading variable information from framebuffer",
                 errorSignals := s.errorSignals ++
                   ["Display: Error reading variable information from framebuffer"] }) := by
  constructor
  · intro hfix
    unfold setupFbDevice
    rw [if_pos hfix]
  · intro hfix hvar
    unfold setupFbDevice
    rw [if_neg hfix, if_pos hvar]

/-- The constructor when no device is listed: the members keep their initial
values and the signal of `findFbDevice` is the only one emitted. -/
theorem newSHLedMatrix_not_listed (txtImg0 : Option QImage) (files : List FbCandidate)
    (sys : FbSetup) (h : ¬ DeviceListed files) :
    newSHLedMatrix txtImg0 files sys =
      { initialMembers txtImg0 with
          errorSignals := ["Display: Could not find framebuffer device!!!"] } := by
  unfold newSHLedMatrix
  rw [findFbDevice_not_listed _ files h]
  rfl

/-- The constructor when a device is listed: the setup runs on the initial
members, with the descriptor found. -/
theorem newSHLedMatrix_listed (txtImg0 : Option QImage) (files : List FbCandidate)
    (sys : FbSetup) (h : DeviceListed files) :
    ∃ fd : Int, newSHLedMatrix txtImg0 files sys =
      setupFbDevice { initialMembers txtImg0 with fbFd_ := fd } sys := by
  obtain ⟨hfd, hst⟩ := findFbDevice_listed (initialMembers txtImg0) files h
  refine ⟨(findFbDevice (initialMembers txtImg0) files).1, ?_⟩
  unfold newSHLedMatrix
  simp only [hst]
  rw [if_pos hfd]

/-- C26 as stated fails: with no device listed the signal
"Display: Could not find framebuffer device!!!" is emitted while `lastError`
still holds "LED Matrix not initialized yet...", and with a device reporting 32
bits per pixel the signal carries "Display: Framebuffer parameters are
different than expected" while `lastError` holds the text without "Display: ";
in neither case is `lastError` the text of an emitted signal. -/
theorem init_signal_differs_from_lastError :
    (newSHLedMatrix none [] senseHatSetup).errorSignals =
      ["Display: Could not find framebuffer device!!!"] ∧
    (newSHLedMatrix none [] senseHatSetup).lastError_ = "LED Matrix not initialized yet..." ∧
    (newSHLedMatrix none [] senseHatSetup).lastError_ ∉
      (newSHLedMatrix none [] senseHatSetup).errorSignals ∧
    (newSHLedMatrix none [senseHatFb] wrongDepthSetup).errorSignals =
      ["Display: Framebuffer parameters are different than expected"] ∧
    (newSHLedMatrix none [senseHatFb] wrongDepthSetup).lastError_ =
      "Framebuffer parameters are different than expected" ∧
    (newSHLedMatrix none [senseHatFb] wrongDepthSetup).lastError_ ∉
      (newSHLedMatrix none [senseHatFb] wrongDepthSetup).errorSignals := by
  decide

/-- C26, amended: on every initialisation failure path the constructed engine
is not ready and exactly one `error` signal has been emitted, its text starting
with "Display: " (no device listed; fixed-information query failed;
variable-information query failed; geometry not the expected one; mapping
failed).  On the two query paths and on the geometry path `lastError` holds the
text of that signal without the "Display: " prefix. -/
theorem init_failure_signals (txtImg0 : Option QImage) (files : List FbCandidate)
    (sys : FbSetup) :
    (¬ DeviceListed files →
      (newSHLedMatrix txtImg0 files sys).ready_ = false ∧
      (newSHLedMatrix txtImg0 files sys).errorSignals =
        ["Display: Could not find framebuffer device!!!"]) ∧
    (DeviceListed files → sys.fixResult = -1 →
      (newSHLedMatrix txtImg0 files sys).ready_ = false ∧
      (newSHLedMatrix txtImg0 files sys).lastError_ =
        "Error reading fixed information from framebuffer" ∧
      (newSHLedMatrix txtImg0 files sys).errorSignals =
        ["Display: " ++ (newSHLedMatrix txtImg0 files sys).lastError_]) ∧
    (DeviceListed files → sys.fixResult ≠ -1 → sys.varResult = -1 →
      (newSHLedMatrix txtImg0 files sys).ready_ = false ∧
      (newSHLedMatrix txtImg0 files sys).lastError_ =
        "Error reading variable information from framebuffer" ∧
      (newSHLedMatrix txtImg0 files sys).errorSignals =
        ["Display: " ++ (newSHLedMatrix txtImg0 files sys).lastError_]) ∧
    (DeviceListed files → sys.fixResult ≠ -1 → sys.varResult ≠ -1 →
      ¬ GeometryExpected sys.vInfo →
      (newSHLedMatrix txtImg0 files sys).ready_ = false ∧
      (newSHLedMatrix txtImg0 files sys).lastError_ =
        "Framebuffer parameters are different than expected" ∧
      (newSHLedMatrix txtImg0 files sys).errorSignals =
        ["Display: " ++ (newSHLedMatrix txtImg0 files sys).lastError_]) ∧
    (DeviceListed files → sys.fixResult ≠ -1 → sys.varResult ≠ -1 →
      GeometryExpected sys.vInfo → sys.mapped = none →
      (newSHLedMatrix txtImg0 files sys).ready_ = false ∧
      (newSHLedMatrix txtImg0 files sys).errorSignals =
        ["Display: Error getting framebuffer memory map"]) := by
  refine ⟨?_, ?_, ?_, ?_, ?_⟩
  · intro h
    rw [newSHLedMatrix_not_listed txtImg0 files sys h]
    exact ⟨rfl, rfl⟩
  · intro h hfix
    obtain ⟨fd, hfd⟩ := newSHLedMatrix_listed txtImg0 files sys h
    rw [hfd, (setupFbDevice_query_failed _ sys).1 hfix]
    exact ⟨rfl, rfl, rfl⟩
  · intro h hfix hvar
    obtain ⟨fd, hfd⟩ := newSHLedMatrix_listed txtImg0 files sys h
    rw [hfd, (setupFbDevice_query_failed _ sys).2 hfix hvar]
    exact ⟨rfl, rfl, rfl⟩
  · intro h hfix hvar hgeo
    obtain ⟨fd, hfd⟩ := newSHLedMatrix_listed txtImg0 files sys h
    rw [hfd, (setupFbDevice_outcomes _ sys hfix hvar).1 hgeo]
    exact ⟨rfl, rfl, rfl⟩
  · intro h hfix hvar hgeo hmap
    obtain ⟨fd, hfd⟩ := newSHLedMatrix_listed txtImg0 files sys h
    rw [hfd, (setupFbDevice_outcomes _ sys hfix hvar).2.1 hgeo hmap]
    exact ⟨rfl, rfl⟩

/-- Witness of the amended C26: the Sense HAT framebuffer is the third entry
of the scan and reports 32 bits per pixel. -/
theorem init_failure_signals_witness :
    (newSHLedMatrix none [⟨-1, "BCM2708 FB"⟩, ⟨4, "BCM2708 FB"⟩, senseHatFb]
        wrongDepthSetup).ready_ = false ∧
    (newSHLedMatrix none [⟨-1, "BCM2708 FB"⟩, ⟨4, "BCM2708 FB"⟩, senseHatFb]
        wrongDepthSetup).lastError_ = "Framebuffer parameters are different than expected" ∧
    (newSHLedMatrix none [⟨-1, "BCM2708 FB"⟩, ⟨4, "BCM2708 FB"⟩, senseHatFb]
        wrongDepthSetup).errorSignals =
      ["Display: " ++ (newSHLedMatrix none [⟨-1, "BCM2708 FB"⟩, ⟨4, "BCM2708 FB"⟩, senseHatFb]
        wrongDepthSetup).lastError_] :=
  (init_failure_signals none [⟨-1, "BCM2708 FB"⟩, ⟨4, "BCM2708 FB"⟩, senseHatFb]
    wrongDepthSetup).2.2.2.1
    ⟨senseHatFb, by simp, by decide, rfl⟩ (by decide) (by decide)
    (by unfold GeometryExpected; decide)

/-- C27: for a device that was found and whose two queries succeed, the
constructed engine is ready if and only if the reported geometry is 8 x 8 at
16 bits with both offsets 0 and the mapping succeeds; a ready engine has its
mapping recorded as valid and each of its 64 framebuffer cells is 0; otherwise
the engine is not ready and no mapping is recorded as valid. -/
theorem setup_ready_iff (txtImg0 : Option QImage) (files : List FbCandidate) (sys : FbSetup)
    (hlisted : DeviceListed files) (hfix : sys.fixResult ≠ -1) (hvar : sys.varResult ≠ -1) :
    ((newSHLedMatrix txtImg0 files sys).ready_ = true ↔
      (sys.vInfo.xres = 8 ∧ sys.vInfo.yres = 8 ∧ sys.vInfo.bits_per_pixel = 16 ∧
        sys.vInfo.xoffset = 0 ∧ sys.vInfo.yoffset = 0) ∧ sys.mapped ≠ none) ∧
    ((newSHLedMatrix txtImg0 files sys).ready_ = true →
      (newSHLedMatrix txtImg0 files sys).validFbPtr_ = true ∧
      ∀ k : Nat, k < 64 → (newSHLedMatrix txtImg0 files sys).fbPtr_ k = 0) ∧
    ((newSHLedMatrix txtImg0 files sys).ready_ ≠ true →
      (newSHLedMatrix txtImg0 files sys).ready_ = false ∧
      (newSHLedMatrix txtImg0 files sys).validFbPtr_ = false) := by
  obtain ⟨fd, hfd⟩ := newSHLedMatrix_listed txtImg0 files sys hlisted
  obtain ⟨hbad, hnone, hsome⟩ :=
    setupFbDevice_outcomes { initialMembers txtImg0 with fbFd_ := fd } sys hfix hvar
  rw [hfd]
  by_cases hgeo : GeometryExpected sys.vInfo
  · cases hmap : sys.mapped with
    | none =>
      rw [hnone hgeo hmap]
      refine ⟨⟨fun h => Bool.noConfusion h, fun h => absurd rfl h.2⟩,
        fun h => Bool.noConfusion h, fun _ => ⟨rfl, rfl⟩⟩
    | some m =>
      rw [hsome hgeo m hmap]
      refine ⟨⟨fun _ => ⟨hgeo, by simp⟩, fun _ => rfl⟩, fun _ => ⟨rfl, ?_⟩,
        fun h => absurd rfl h⟩
      intro k hk
      simp [memset, hk]
  · rw [hbad hgeo]
    refine ⟨⟨fun h => Bool.noConfusion h, fun h => absurd h.1 hgeo⟩,
      fun h => Bool.noConfusion h, fun _ => ⟨rfl, rfl⟩⟩

/-- Witness of C27: the Sense HAT framebuffer answering as expected. -/
theorem setup_ready_iff_witness :
    ((newSHLedMatrix none [senseHatFb] senseHatSetup).ready_ = true ↔
      (senseHatSetup.vInfo.xres = 8 ∧ senseHatSetup.vInfo.yres = 8 ∧
        senseHatSetup.vInfo.bits_per_pixel = 16 ∧
        senseHatSetup.vInfo.xoffset = 0 ∧ senseHatSetup.vInfo.yoffset = 0) ∧
        senseHatSetup.mapped ≠ none) ∧
    ((newSHLedMatrix none [senseHatFb] senseHatSetup).ready_ = true →
      (newSHLedMatrix none [senseHatFb] senseHatSetup).validFbPtr_ = true ∧
      ∀ k : Nat, k < 64 → (newSHLedMatrix none [senseHatFb] senseHatSetup).fbPtr_ k = 0) ∧
    ((newSHLedMatrix none [senseHatFb] senseHatSetup).ready_ ≠ true →
      (newSHLedMatrix none [senseHatFb] senseHatSetup).ready_ = false ∧
      (newSHLedMatrix none [senseHatFb] senseHatSetup).validFbPtr_ = false) :=
  setup_ready_iff none [senseHatFb] senseHatSetup ⟨senseHatFb, by simp, by decide, rfl⟩
    (by decide) (by decide)

/-! ## The scroll -/

/-- An image of positive size is the one asked for. -/
theorem newQImage_pos (w h : Int) (format : QImageFormat) (pixels : Int → Mem)
    (hw : 0 < w) (hh : 0 < h) :
    newQImage w h format pixels =
      { width := w, height := h, format := format, scanLine := pixels } := by
  unfold newQImage
  rw [if_neg (by omega)]

/-- The width of a strip image never exceeds the width asked for, when that
is not negative. -/
theorem newQImage_width_le (w h : Int) (format : QImageFormat) (pixels : Int → Mem)
    (hw : 0 ≤ w) : (newQImage w h format pixels).width ≤ w := by
  unfold newQImage
  split_ifs
  · exact hw
  · exact le_refl w

/-- Painting the window at column `f` of a strip that is wide enough. -/
theorem setImage_window (s : SHLedMatrix) (txtWidth : Int) (strip : Int → Mem) (f : Nat)
    (hready : s.ready_ = true) (hwide : 8 + (f : Int) ≤ txtWidth + 1) :
    ShowsWindow strip f
      (setImage s (newQImage (txtWidth + 1) DisplayYSize QImageFormat.Format_RGB16 strip)
        f 0).2.fbPtr_ := by
  have himg := newQImage_pos (txtWidth + 1) DisplayYSize QImageFormat.Format_RGB16 strip
    (by omega) (by decide)
  rw [himg]
  have hv := (setImage_valid s
    { width := txtWidth + 1, height := DisplayYSize, format := QImageFormat.Format_RGB16,
      scanLine := strip } f 0 hready hwide
      (by show (8 : Int) + ((0 : Nat) : Int) ≤ 8; omega) rfl).2.1
  intro x y hx hy
  have h := hv x y hx hy
  rw [Nat.add_zero] at h
  rw [h, Nat.add_comm x f]

/-- A strip too narrow for the window at column `f` leaves the framebuffer as
it was. -/
theorem setImage_too_narrow (s : SHLedMatrix) (txtWidth : Int) (strip : Int → Mem) (f : Nat)
    (hnarrow : txtWidth + 1 < 8 + (f : Int)) :
    (setImage s (newQImage (txtWidth + 1) DisplayYSize QImageFormat.Format_RGB16 strip)
      f 0).2.fbPtr_ = s.fbPtr_ := by
  have hw : (newQImage (txtWidth + 1) DisplayYSize QImageFormat.Format_RGB16 strip).width <
      8 + (f : Int) := by
    unfold newQImage
    split_ifs
    · show (0 : Int) < 8 + (f : Int)
      omega
    · exact hnarrow
  simp only [setImage]
  split_ifs with h1 h2
  · rfl
  · rfl
  · exact absurd (Or.inl hw) h2

/-- The argument conversion keeps an offset that fits 16 bits. -/
theorem toQuint16_of_lt (n : Nat) (h : n < 65536) : toQuint16 (n : Int) = n := by
  unfold toQuint16
  omega

/-- A call of `scrollText` that returns true was made on a ready, idle engine
with a speed that is not 0, and leaves the state described here. -/
theorem scrollText_true (s s0 : SHLedMatrix) (txtWidth : Int) (strip : Int → Mem)
    (pixelsPerSec : Nat) (h : scrollText s txtWidth strip pixelsPerSec = some (true, s0)) :
    s.ready_ = true ∧ s.isScrollingText_ = false ∧ pixelsPerSec ≠ 0 ∧
    s0 = { (setImage { s with txtLen_ := txtWidth,
                              txtImg_ := some (newQImage (txtWidth + 1) DisplayYSize
                                QImageFormat.Format_RGB16 strip),
                              txtImgFromNew := true,
                              curTxtOffset_ := 0, isScrollingText_ := true }
            (newQImage (txtWidth + 1) DisplayYSize QImageFormat.Format_RGB16 strip) 0 0).2 with
           txtTimerActive := true, txtTimerInterval := 1000 / (pixelsPerSec : Int) } := by
  simp only [scrollText] at h
  split_ifs at h with h1 h2 hptr h3
  · have hc : false = true := congrArg Prod.fst (Option.some.inj h)
    exact Bool.noConfusion hc
  · have hc : false = true := congrArg Prod.fst (Option.some.inj h)
    exact Bool.noConfusion hc
  · have hr : s.ready_ = true := by
      cases hs : s.ready_
      · rw [hs] at h1; exact absurd rfl h1
      · rfl
    have hi : s.isScrollingText_ = false := by
      cases hs : s.isScrollingText_
      · rfl
      · exact absurd hs h2
    refine ⟨hr, hi, h3, ?_⟩
    have h4 := congrArg Prod.snd (Option.some.inj h)
    exact h4.symm

/-- The `delete` at the head of `scrollText` is harmless exactly when
`txtImg_` is null or a pointer `new` returned. -/
theorem deletable_iff (s : SHLedMatrix) :
    (s.txtImg_.isSome && !s.txtImgFromNew) = false ↔
      (s.txtImg_ = none ∨ s.txtImgFromNew = true) := by
  cases himg : s.txtImg_ <;> cases hnew : s.txtImgFromNew <;> simp

/-- A call of `scrollText` that returns was made with a `txtImg_` that is null
or a pointer `new` returned, unless the engine was not ready or was scrolling. -/
theorem scrollText_pointer (s : SHLedMatrix) (txtWidth : Int) (strip : Int → Mem)
    (pixelsPerSec : Nat) (r : Bool × SHLedMatrix)
    (h : scrollText s txtWidth strip pixelsPerSec = some r) (hr : r.1 = true) :
    s.txtImg_ = none ∨ s.txtImgFromNew = true := by
  simp only [scrollText] at h
  split_ifs at h with h1 h2 hptr h3
  · obtain rfl := Option.some.inj h
    exact Bool.noConfusion hr
  · obtain rfl := Option.some.inj h
    exact Bool.noConfusion hr
  · exact (deletable_iff s).mp (by simpa using hptr)

/-- A call of `scrollText` on a ready, idle engine whose `txtImg_` is null or
a pointer `new` returned, with a speed that is not 0, returns true. -/
theorem scrollText_returns (s : SHLedMatrix) (txtWidth : Int) (strip : Int → Mem)
    (pixelsPerSec : Nat) (hready : s.ready_ = true) (hidle : s.isScrollingText_ = false)
    (hptr : s.txtImg_ = none ∨ s.txtImgFromNew = true) (hpps : pixelsPerSec ≠ 0) :
    ∃ s0 : SHLedMatrix, scrollText s txtWidth strip pixelsPerSec = some (true, s0) := by
  have hdel := (deletable_iff s).mpr hptr
  simp only [scrollText, hready, hidle, hdel, Bool.not_true, Bool.false_eq_true, if_false,
    if_neg hpps]
  exact ⟨_, rfl⟩

/-- The state right after a `scrollText` that returned true: the engine is
scrolling at offset 0, the timer runs, and the framebuffer shows the first
window when the text is at least 7 wide and is untouched when it is narrower. -/
theorem scroll_started (s s0 : SHLedMatrix) (txtWidth : Int) (strip : Int → Mem)
    (pixelsPerSec : Nat) (h : scrollText s txtWidth strip pixelsPerSec = some (true, s0)) :
    Scrolling txtWidth strip 0 s0 ∧ s0.txtTimerActive = true ∧
    s0.txtTimerInterval = 1000 / (pixelsPerSec : Int) ∧
    (7 ≤ txtWidth → ShowsWindow strip 0 s0.fbPtr_) ∧
    (txtWidth < 7 → s0.fbPtr_ = s.fbPtr_) := by
  obtain ⟨hr, hi, hp, hs0⟩ := scrollText_true s s0 txtWidth strip pixelsPerSec h
  have hf := drawsOnly_fields _ _ (setImage_drawsOnly
    { s with txtLen_ := txtWidth,
             txtImg_ := some (newQImage (txtWidth + 1) DisplayYSize
               QImageFormat.Format_RGB16 strip),
             txtImgFromNew := true,
             curTxtOffset_ := 0, isScrollingText_ := true }
    (newQImage (txtWidth + 1) DisplayYSize QImageFormat.Format_RGB16 strip) 0 0)
  rw [hs0]
  refine ⟨⟨?_, ?_, ?_, ?_, ?_, ?_⟩, rfl, rfl, ?_, ?_⟩
  · exact hf.1.trans hr
  · exact hf.2.2.1
  · exact hf.2.2.2.1
  · exact hf.2.2.2.2.1
  · exact hf.2.2.2.2.2.1
  · exact hf.2.2.2.2.2.2.2.2.2.2
  · intro h7
    exact setImage_window _ txtWidth strip 0 hr (by omega)
  · intro h7
    exact setImage_too_narrow _ txtWidth strip 0 (by omega)

/-- The framebuffer `setImage` leaves depends on the state only through
`ready` and the framebuffer memory. -/
theorem setImage_fb_congr (s t : SHLedMatrix) (image : QImage) (xOff yOff : Nat)
    (hr : t.ready_ = s.ready_) (hfb : t.fbPtr_ = s.fbPtr_) :
    (setImage t image xOff yOff).2.fbPtr_ = (setImage s image xOff yOff).2.fbPtr_ := by
  simp only [setImage, hr, hfb]
  split_ifs <;> rfl

/-- One timer tick on an engine that is scrolling the image `img`: the offset
grows by 1, the window at the new offset is handed to `setImage`, and the
scroll goes on exactly while the new offset is below `txtLen_ - 8`. -/
theorem tick_of_scrolling (s : SHLedMatrix) (img : QImage)
    (hsc : s.isScrollingText_ = true) (himg : s.txtImg_ = some img)
    (hnew : s.txtImgFromNew = true) :
    ∃ t : SHLedMatrix, handleScrollText s = some t ∧
      t.ready_ = s.ready_ ∧ t.txtLen_ = s.txtLen_ ∧ t.curTxtOffset_ = s.curTxtOffset_ + 1 ∧
      t.txtImg_ = some img ∧ t.txtImgFromNew = true ∧
      (s.curTxtOffset_ + 1 < s.txtLen_ - 8 → t.isScrollingText_ = true) ∧
      (s.txtLen_ - 8 ≤ s.curTxtOffset_ + 1 →
        t.isScrollingText_ = false ∧ t.txtTimerActive = false) ∧
      t.fbPtr_ = (setImage s img (toQuint16 (s.curTxtOffset_ + 1)) 0).2.fbPtr_ := by
  cases s with
  | mk fbFd rdy lastErr family psize txtImg txtLen off scr tact tint fb valid sigs fromNew =>
    simp only at hsc himg hnew
    subst hsc himg hnew
    simp only [handleScrollText, Bool.not_true, Bool.false_eq_true, if_false]
    generalize hs2 : (setImage _ _ _ _).2 = s2
    have hd : DrawsOnly _ s2 := hs2 ▸ setImage_drawsOnly _ _ _ _
    have hf := drawsOnly_fields _ _ hd
    have hfb : s2.fbPtr_ = _ := (congrArg SHLedMatrix.fbPtr_ hs2).symm.trans
      (setImage_fb_congr
        { fbFd_ := fbFd, ready_ := rdy, lastError_ := lastErr, txtFontFamily := family,
          txtFontPointSize := psize, txtImg_ := some img, txtLen_ := txtLen,
          curTxtOffset_ := off, isScrollingText_ := true, txtTimerActive := tact,
          txtTimerInterval := tint, fbPtr_ := fb, validFbPtr_ := valid, errorSignals := sigs,
          txtImgFromNew := true }
        _ img (toQuint16 (off + 1)) 0 rfl rfl)
    simp only at hf
    obtain ⟨f1, -, f3, f4, f5, f6, -, -, -, -, f11⟩ := hf
    split_ifs with hstop
    · rw [f5, f4] at hstop
      simp only [DisplayXSize] at hstop
      refine ⟨_, rfl, f1, f4, f5, f6, f11, ?_, fun _ => ⟨rfl, rfl⟩, hfb⟩
      intro hlt
      omega
    · rw [f5, f4] at hstop
      simp only [DisplayXSize] at hstop
      refine ⟨_, rfl, f1, f4, f5, f6, f11, fun _ => f3, ?_, hfb⟩
      intro hge
      omega

/-- The argument conversion keeps the next offset when it fits 16 bits. -/
theorem toQuint16_succ (n : Nat) (h : n + 1 < 65536) : toQuint16 ((n : Int) + 1) = n + 1 := by
  unfold toQuint16
  omega

/-- A scroll that has not reached the end of the text: after `n` ticks, `n`
below `txtWidth - 8`, the engine is still scrolling, at offset `n`, and from
the first tick on the framebuffer shows the window at that offset. -/
theorem runTicks_scrolling (s0 : SHLedMatrix) (txtWidth : Int) (strip : Int → Mem)
    (h0 : Scrolling txtWidth strip 0 s0) (n : Nat) (hn : n = 0 ∨ (n : Int) < txtWidth - 8) :
    ∃ sn : SHLedMatrix, runTicks n s0 = some sn ∧ Scrolling txtWidth strip (n : Int) sn ∧
      (n = 0 → sn = s0) ∧ (1 ≤ n → n < 65536 → ShowsWindow strip n sn.fbPtr_) := by
  induction n with
  | zero =>
    exact ⟨s0, rfl, h0, fun _ => rfl, fun h => absurd h (by omega)⟩
  | succ n ih =>
    have hlt : ((n : Int) + 1) < txtWidth - 8 := by omega
    obtain ⟨sn, hrun, hsc, -, -⟩ := ih (Or.inr (by omega))
    obtain ⟨hr, hs, hlen, hoff, himg, hnew⟩ := hsc
    obtain ⟨t, ht, t1, t2, t3, t4, tnew, t5, -, t7⟩ := tick_of_scrolling sn _ hs himg hnew
    rw [hlen, hoff] at t5
    rw [hoff] at t3 t7
    refine ⟨t, ?_, ⟨t1.trans hr, t5 hlt, t2.trans hlen, ?_, t4, tnew⟩,
      fun h => absurd h (by omega), ?_⟩
    · show (runTicks n s0).bind handleScrollText = some t
      rw [hrun]
      exact ht
    · rw [t3]
      push_cast
      rfl
    · intro _ h16
      rw [t7, toQuint16_succ n h16]
      exact setImage_window sn txtWidth strip (n + 1) hr (by push_cast; omega)

/-- The tick that ends the scroll: it is tick number `max 1 (txtWidth - 8)`.
After it the engine is idle with the timer stopped, at the offset of that
number; the framebuffer shows the window at that offset when the text is at
least 8 wide, and is as `scrollText` left it when the text is narrower. -/
theorem runTicks_final (s0 : SHLedMatrix) (txtWidth : Int) (strip : Int → Mem)
    (h0 : Scrolling txtWidth strip 0 s0) :
    ∃ sN : SHLedMatrix, runTicks (max 1 (txtWidth - 8)).toNat s0 = some sN ∧
      sN.isScrollingText_ = false ∧ sN.txtTimerActive = false ∧
      sN.curTxtOffset_ = max 1 (txtWidth - 8) ∧
      (8 ≤ txtWidth → txtWidth < 65536 →
        ShowsWindow strip (max 1 (txtWidth - 8)).toNat sN.fbPtr_) ∧
      (txtWidth < 8 → sN.fbPtr_ = s0.fbPtr_) := by
  obtain ⟨m, hm⟩ : ∃ m : Nat, (max 1 (txtWidth - 8)).toNat = m + 1 :=
    ⟨(max 1 (txtWidth - 8)).toNat - 1, by omega⟩
  have hmN : ((m : Int) + 1) = max 1 (txtWidth - 8) := by omega
  obtain ⟨sm, hrun, hsc, hzero, -⟩ :=
    runTicks_scrolling s0 txtWidth strip h0 m (by omega)
  obtain ⟨hr, hs, hlen, hoff, himg, hnew⟩ := hsc
  obtain ⟨t, ht, -, -, t3, -, -, -, t6, t7⟩ := tick_of_scrolling sm _ hs himg hnew
  rw [hlen, hoff] at t6
  rw [hoff] at t3 t7
  have hstop := t6 (by omega)
  rw [hm]
  refine ⟨t, ?_, hstop.1, hstop.2, ?_, ?_, ?_⟩
  · show (runTicks m s0).bind handleScrollText = some t
    rw [hrun]
    exact ht
  · rw [t3, hmN]
  · intro h8 h16
    rw [t7, toQuint16_succ m (by omega)]
    exact setImage_window sm txtWidth strip (m + 1) hr (by push_cast; omega)
  · intro h8
    have hm0 : m = 0 := by omega
    rw [t7, toQuint16_succ m (by omega), hzero hm0]
    exact setImage_too_narrow s0 txtWidth strip (m + 1) (by push_cast; omega)

/-- What `scrollText` does when the `delete` at its head is harmless: on a
ready, idle engine whose `txtImg_` is null or a pointer `new` returned,
`scrollText` for a text of measured pixel width `txtWidth` (not negative) and
a speed `pixelsPerSec >= 1` returns true and leaves `isScrolling = true`, the
offset 0, the strip an image of height 8 and width `txtWidth + 1`, and the
timer started with the period `floor(1000 / pixelsPerSec)` milliseconds. -/
theorem scrollText_starts (s : SHLedMatrix) (txtWidth : Int) (strip : Int → Mem)
    (pixelsPerSec : Nat) (hready : s.ready_ = true) (hidle : s.isScrollingText_ = false)
    (hptr : s.txtImg_ = none ∨ s.txtImgFromNew = true)
    (hpps : 1 ≤ pixelsPerSec) (hwidth : 0 ≤ txtWidth) :
    ∃ (s0 : SHLedMatrix) (img : QImage),
      scrollText s txtWidth strip pixelsPerSec = some (true, s0) ∧
      s0.isScrollingText_ = true ∧ s0.curTxtOffset_ = 0 ∧ s0.txtLen_ = txtWidth ∧
      s0.txtImg_ = some img ∧ img.height = 8 ∧ img.width = txtWidth + 1 ∧
      img.format = QImageFormat.Format_RGB16 ∧ img.scanLine = strip ∧
      s0.txtTimerActive = true ∧
      s0.txtTimerInterval = ((1000 / pixelsPerSec : Nat) : Int) := by
  obtain ⟨s0, hs0⟩ :=
    scrollText_returns s txtWidth strip pixelsPerSec hready hidle hptr (by omega)
  obtain ⟨⟨-, hsc, hlen, hoff, himg, -⟩, hact, hint, -, -⟩ :=
    scroll_started s s0 txtWidth strip pixelsPerSec hs0
  have hq := newQImage_pos (txtWidth + 1) DisplayYSize QImageFormat.Format_RGB16 strip
    (by omega) (by decide)
  refine ⟨s0, _, hs0, hsc, hoff, hlen, himg, ?_, ?_, ?_, ?_, hact, ?_⟩
  · rw [hq]; rfl
  · rw [hq]
  · rw [hq]
  · rw [hq]
  · rw [hint]
    norm_cast

/-- A text 12 pixels wide scrolled at 15 pixels per second on the sample
engine, whose `txtImg_` is null. -/
theorem scrollText_starts_witness :
    ∃ (s0 : SHLedMatrix) (img : QImage),
      scrollText paintedEngine 12 sampleStrip 15 = some (true, s0) ∧
      s0.isScrollingText_ = true ∧ s0.curTxtOffset_ = 0 ∧ s0.txtLen_ = 12 ∧
      s0.txtImg_ = some img ∧ img.height = 8 ∧ img.width = 12 + 1 ∧
      img.format = QImageFormat.Format_RGB16 ∧ img.scanLine = sampleStrip ∧
      s0.txtTimerActive = true ∧
      s0.txtTimerInterval = ((1000 / 15 : Nat) : Int) :=
  scrollText_starts paintedEngine 12 sampleStrip 15 rfl rfl (Or.inl rfl) (by decide) (by decide)

/-- C21, evaluated: the engine constructed on a Sense HAT is ready and idle,
and its member `txtImg_`, which the constructor does not initialise, holds
whatever its memory held.  When that is not null, the first `scrollText`
hands it to `delete` and the call traps, where the claim has it return true;
when it is null, the same call returns true and leaves the engine scrolling. -/
theorem scrollText_deletes_uninitialised_pointer :
    (newSHLedMatrix (some sampleImage) [senseHatFb] senseHatSetup).ready_ = true ∧
    (newSHLedMatrix (some sampleImage) [senseHatFb] senseHatSetup).isScrollingText_ = false ∧
    (newSHLedMatrix (some sampleImage) [senseHatFb] senseHatSetup).txtImgFromNew = false ∧
    scrollText (newSHLedMatrix (some sampleImage) [senseHatFb] senseHatSetup)
      12 sampleStrip 15 = none ∧
    (scrollText (newSHLedMatrix none [senseHatFb] senseHatSetup) 12 sampleStrip 15).map
      (fun r => (r.1, r.2.isScrollingText_)) = some (true, true) := by
  refine ⟨by decide, by decide, by decide, rfl, by decide⟩

/-- C22 as stated fails: for a text 5 pixels wide `scrollText` returns true on
the sample engine, but framebuffer cell 0 still holds its old value 100, not
the strip pixel (column 0, row 0), which is 1000; `lastError` holds
"Invalid image". -/
theorem scrollText_narrow_paints_nothing :
    (scrollText paintedEngine 5 sampleStrip 15).map
      (fun r => (r.1, r.2.fbPtr_ (0 * 8 + 0), r.2.lastError_)) =
        some (true, 100, "Invalid image") ∧
    paintedEngine.fbPtr_ (0 * 8 + 0) = 100 ∧ sampleStrip 0 0 = 1000 := by
  decide

/-- C22, amended: whenever `scrollText` returns true for a text whose measured
pixel width is at least 7 (a strip at least 8 wide), the framebuffer right
afterwards shows the first 8x8 window of the strip: cell `y*8+x` equals the
strip pixel (column `x`, row `y`) for all `x`, `y` in `[0,8)`. -/
theorem scrollText_paints_first_window (s s0 : SHLedMatrix) (txtWidth : Int)
    (strip : Int → Mem) (pixelsPerSec : Nat)
    (hstart : scrollText s txtWidth strip pixelsPerSec = some (true, s0))
    (hwide : 7 ≤ txtWidth) :
    ∀ x y : Nat, x < 8 → y < 8 → s0.fbPtr_ (y * 8 + x) = strip (y : Int) x := by
  intro x y hx hy
  have h := (scroll_started s s0 txtWidth strip pixelsPerSec hstart).2.2.2.1 hwide x y hx hy
  rw [h, Nat.zero_add]

/-- Witness of the amended C22: a text 7 pixels wide on the sample engine. -/
theorem scrollText_paints_first_window_witness :
    scrollText paintedEngine 7 sampleStrip 15 =
      some (true, afterScrollText paintedEngine 7 sampleStrip 15) ∧
    (7 : Int) ≤ 7 ∧
    ∀ x y : Nat, x < 8 → y < 8 →
      (afterScrollText paintedEngine 7 sampleStrip 15).fbPtr_ (y * 8 + x) =
        sampleStrip (y : Int) x :=
  ⟨rfl, by decide,
    scrollText_paints_first_window paintedEngine
      (afterScrollText paintedEngine 7 sampleStrip 15) 7 sampleStrip 15 rfl (by decide)⟩

/-- The ticks of a scroll started by `scrollText`: the engine is still
scrolling after every tick before tick number `max 1 (txtWidth - 8)`. -/
theorem scroll_goes_on (s s0 : SHLedMatrix) (txtWidth : Int) (strip : Int → Mem)
    (pixelsPerSec : Nat)
    (hstart : scrollText s txtWidth strip pixelsPerSec = some (true, s0))
    (n : Nat) (hn : (n : Int) < max 1 (txtWidth - 8)) :
    ∃ sn : SHLedMatrix, runTicks n s0 = some sn ∧ sn.isScrollingText_ = true := by
  have h0 := (scroll_started s s0 txtWidth strip pixelsPerSec hstart).1
  obtain ⟨sn, hrun, hsc, -, -⟩ := runTicks_scrolling s0 txtWidth strip h0 n (by omega)
  exact ⟨sn, hrun, hsc.2.1⟩

/-- C23 as stated fails: for the strip width `W = 10` (a text 9 pixels wide)
the scroll started on the sample engine is already over after tick number 1,
where the claim has it still running after tick `W-8-1 = 1` and ending at tick
`W-8 = 2`. -/
theorem scroll_ends_one_tick_early :
    (scrollText paintedEngine 9 sampleStrip 15).map (fun r => (r.1, r.2.isScrollingText_)) =
      some (true, true) ∧
    ((scrollText paintedEngine 9 sampleStrip 15).bind (fun r => runTicks 1 r.2)).map
      (fun s => s.isScrollingText_) = some false ∧
    ((9 : Int) + 1) - 8 - 1 = 1 := by
  decide

/-- C23, amended: for every strip width `W > 8` (`W = txtWidth + 1`), starting
from the state right after a successful `scrollText`, `isScrolling` is still
true after each of the first `max(1, W-9) - 1` timer ticks and is false after
tick number `max(1, W-9)`: the scroll ends after exactly `max(1, W-9)` ticks,
which is `W-9`, the text width minus 8, for `W >= 10`, and 1 for `W = 9`. -/
theorem scroll_terminates (s s0 : SHLedMatrix) (txtWidth : Int) (strip : Int → Mem)
    (pixelsPerSec : Nat)
    (hstart : scrollText s txtWidth strip pixelsPerSec = some (true, s0))
    (_hW : 8 < txtWidth + 1) :
    (∀ n : Nat, (n : Int) < max 1 (txtWidth + 1 - 9) →
      ∃ sn : SHLedMatrix, runTicks n s0 = some sn ∧ sn.isScrollingText_ = true) ∧
    (∃ sN : SHLedMatrix, runTicks (max 1 (txtWidth + 1 - 9)).toNat s0 = some sN ∧
      sN.isScrollingText_ = false) := by
  have he : txtWidth + 1 - 9 = txtWidth - 8 := by ring
  rw [he]
  have h0 := (scroll_started s s0 txtWidth strip pixelsPerSec hstart).1
  obtain ⟨sN, hrun, hidle, -, -, -, -⟩ := runTicks_final s0 txtWidth strip h0
  exact ⟨fun n hn => scroll_goes_on s s0 txtWidth strip pixelsPerSec hstart n hn,
    sN, hrun, hidle⟩

/-- Witness of the amended C23: a text 12 pixels wide (`W = 13`), 4 ticks. -/
theorem scroll_terminates_witness :
    (∀ n : Nat, (n : Int) < max 1 ((12 : Int) + 1 - 9) →
      ∃ sn : SHLedMatrix,
        runTicks n (afterScrollText paintedEngine 12 sampleStrip 15) = some sn ∧
        sn.isScrollingText_ = true) ∧
    (∃ sN : SHLedMatrix,
      runTicks (max 1 ((12 : Int) + 1 - 9)).toNat
        (afterScrollText paintedEngine 12 sampleStrip 15) = some sN ∧
      sN.isScrollingText_ = false) :=
  scroll_terminates paintedEngine (afterScrollText paintedEngine 12 sampleStrip 15)
    12 sampleStrip 15 rfl (by decide)

/-- C24 as stated fails: for the strip width `W = 10` (a text 9 pixels wide)
the scroll started on the sample engine is over after tick number 1, and
framebuffer cell 0 then holds 1001, the strip pixel of column `W-9 = 1`, where
the trailing window starts at column `W-8 = 2`, whose pixel is 1002. -/
theorem scroll_final_window_not_trailing :
    ((scrollText paintedEngine 9 sampleStrip 15).bind (fun r => runTicks 1 r.2)).map
      (fun s => (s.isScrollingText_, s.fbPtr_ (0 * 8 + 0))) = some (false, 1001) ∧
    sampleStrip 0 (10 - 9 + 0) = 1001 ∧ sampleStrip 0 (10 - 8 + 0) = 1002 := by
  decide

/-- C24, amended: for every strip width `W` with `8 <= W <= 65536`
(`W = txtWidth + 1`), a scroll started by `scrollText` reaches
`isScrolling = false` at tick number `max(1, W-9)`, not before, and the window
then shown by the framebuffer starts at strip column `W-9` when `W >= 10` (it
ends with the last column of the measured text; column `W-1` of the strip is
not shown) and at column `W-8` when `W` is 8 or 9: cell `y*8+x` equals the
strip pixel (column `F+x`, row `y`) for that first column `F`. -/
theorem scroll_final_window (s s0 : SHLedMatrix) (txtWidth : Int) (strip : Int → Mem)
    (pixelsPerSec : Nat)
    (hstart : scrollText s txtWidth strip pixelsPerSec = some (true, s0))
    (hW : 8 ≤ txtWidth + 1) (hmax : txtWidth + 1 ≤ 65536) :
    ∃ sN : SHLedMatrix, runTicks (max 1 (txtWidth + 1 - 9)).toNat s0 = some sN ∧
      sN.isScrollingText_ = false ∧
      (∀ n : Nat, (n : Int) < max 1 (txtWidth + 1 - 9) →
        ∃ sn : SHLedMatrix, runTicks n s0 = some sn ∧ sn.isScrollingText_ = true) ∧
      ∀ x y : Nat, x < 8 → y < 8 →
        sN.fbPtr_ (y * 8 + x) =
          strip (y : Int)
            ((if txtWidth + 1 ≤ 9 then txtWidth + 1 - 8 else txtWidth + 1 - 9).toNat + x) := by
  have he : txtWidth + 1 - 9 = txtWidth - 8 := by ring
  rw [he]
  obtain ⟨h0, -, -, hfirst, -⟩ := scroll_started s s0 txtWidth strip pixelsPerSec hstart
  obtain ⟨sN, hrun, hidle, -, -, hwin, hsame⟩ := runTicks_final s0 txtWidth strip h0
  refine ⟨sN, hrun, hidle,
    fun n hn => scroll_goes_on s s0 txtWidth strip pixelsPerSec hstart n hn, ?_⟩
  intro x y hx hy
  by_cases h8 : 8 ≤ txtWidth
  · have hcol : (if txtWidth + 1 ≤ 9 then txtWidth + 1 - 8 else txtWidth - 8).toNat =
        (max 1 (txtWidth - 8)).toNat := by
      split_ifs <;> omega
    rw [hcol]
    exact hwin h8 (by omega) x y hx hy
  · have hcol : (if txtWidth + 1 ≤ 9 then txtWidth + 1 - 8 else txtWidth - 8).toNat = 0 := by
      split_ifs <;> omega
    rw [hcol, hsame (by omega)]
    exact hfirst (by omega) x y hx hy

/-- Witness of the amended C24: a text 12 pixels wide (`W = 13`); the scroll
ends at tick 4 on the window that starts at column 4. -/
theorem scroll_final_window_witness :
    ∃ sN : SHLedMatrix,
      runTicks (max 1 ((12 : Int) + 1 - 9)).toNat
        (afterScrollText paintedEngine 12 sampleStrip 15) = some sN ∧
      sN.isScrollingText_ = false ∧
      (∀ n : Nat, (n : Int) < max 1 ((12 : Int) + 1 - 9) →
        ∃ sn : SHLedMatrix,
          runTicks n (afterScrollText paintedEngine 12 sampleStrip 15) = some sn ∧
          sn.isScrollingText_ = true) ∧
      ∀ x y : Nat, x < 8 → y < 8 →
        sN.fbPtr_ (y * 8 + x) =
          sampleStrip (y : Int)
            ((if (12 : Int) + 1 ≤ 9 then (12 : Int) + 1 - 8 else (12 : Int) + 1 - 9).toNat + x) :=
  scroll_final_window paintedEngine (afterScrollText paintedEngine 12 sampleStrip 15)
    12 sampleStrip 15 rfl (by decide) (by decide)

/-! ## Loops of swaps -/

/-- Two cells `(a, b)` and `(a2, b2)` of a row-major buffer of side `n` with
the same offset are the same cell. -/
theorem cell_inj (a b a2 b2 n : Int) (hb0 : 0 ≤ b) (hb1 : b < n) (hc0 : 0 ≤ b2) (hc1 : b2 < n)
    (h : a * n + b = a2 * n + b2) : a = a2 ∧ b = b2 := by
  have hn : 0 ≤ n := by omega
  have ha : a = a2 := by
    rcases lt_trichotomy a a2 with hlt | heq | hgt
    · exfalso
      have h1 : 1 * n ≤ (a2 - a) * n := mul_le_mul_of_nonneg_right (by omega) hn
      have e : (a2 - a) * n = a2 * n - a * n := by ring
      omega
    · exact heq
    · exfalso
      have h1 : 1 * n ≤ (a - a2) * n := mul_le_mul_of_nonneg_right (by omega) hn
      have e : (a - a2) * n = a * n - a2 * n := by ring
      omega
  subst ha
  exact ⟨rfl, by omega⟩

/-- A loop whose turns move cell contents around.  `T i z w` says that turn `i`
puts into cell `z` what cell `w` held.  When every turn does what `T` says and
leaves the other cells alone, when a cell a turn reads is one it also writes,
and when no cell is written by two turns, the whole loop does to each cell
what the one turn that writes it does. -/
theorem foldl_moves (body : Nat → Mem → Mem) (T : Nat → Nat → Nat → Prop) (N : Nat)
    (h1 : ∀ i, i < N → ∀ (m : Mem) (z w : Nat), T i z w → body i m z = m w)
    (h2 : ∀ i, i < N → ∀ (m : Mem) (z : Nat), (∀ w, ¬ T i z w) → body i m z = m z)
    (h3 : ∀ i, i < N → ∀ z w, T i z w → ∃ w2, T i w w2)
    (h4 : ∀ i i2, i < N → i2 < N → i ≠ i2 → ∀ z w w2, T i z w → ¬ T i2 z w2) (m : Mem) :
    (∀ i, i < N → ∀ z w, T i z w →
      (List.range N).foldl (fun st (k : Nat) => body k st) m z = m w) ∧
    (∀ z, (∀ i, i < N → ∀ w, ¬ T i z w) →
      (List.range N).foldl (fun st (k : Nat) => body k st) m z = m z) := by
  induction N with
  | zero => exact ⟨fun i hi => absurd hi (Nat.not_lt_zero i), fun z _ => rfl⟩
  | succ N ih =>
    obtain ⟨ihT, ihF⟩ := ih (fun i hi => h1 i (by omega)) (fun i hi => h2 i (by omega))
      (fun i hi => h3 i (by omega)) (fun i i2 hi hi2 => h4 i i2 (by omega) (by omega))
    rw [List.range_succ, List.foldl_append]
    simp only [List.foldl_cons, List.foldl_nil]
    constructor
    · intro i hi z w hT
      by_cases hiN : i = N
      · subst hiN
        rw [h1 i (by omega) _ z w hT]
        obtain ⟨w2, hw⟩ := h3 i (by omega) z w hT
        exact ihF w (fun i2 hi2 w3 hc =>
          h4 i i2 (by omega) (by omega) (by omega) w w2 w3 hw hc)
      · rw [h2 N (by omega) _ z (fun w3 hc =>
          h4 i N (by omega) (by omega) hiN z w w3 hT hc)]
        exact ihT i (by omega) z w hT
    · intro z hz
      rw [h2 N (by omega) _ z (hz N (by omega))]
      exact ihF z (fun i hi => hz i (by omega))

/-- The counted loop `forRange` whose turns move cell contents around, see
`foldl_moves`. -/
theorem forRange_moves (lo hi : Int) (body : Int → Mem → Mem) (T : Int → Nat → Nat → Prop)
    (h1 : ∀ i, lo ≤ i → i < hi → ∀ (m : Mem) (z w : Nat), T i z w → body i m z = m w)
    (h2 : ∀ i, lo ≤ i → i < hi → ∀ (m : Mem) (z : Nat), (∀ w, ¬ T i z w) → body i m z = m z)
    (h3 : ∀ i, lo ≤ i → i < hi → ∀ z w, T i z w → ∃ w2, T i w w2)
    (h4 : ∀ i i2, lo ≤ i → i < hi → lo ≤ i2 → i2 < hi → i ≠ i2 →
      ∀ z w w2, T i z w → ¬ T i2 z w2) (m : Mem) :
    (∀ i, lo ≤ i → i < hi → ∀ z w, T i z w → forRange lo hi body m z = m w) ∧
    (∀ z, (∀ i, lo ≤ i → i < hi → ∀ w, ¬ T i z w) → forRange lo hi body m z = m z) := by
  obtain ⟨hT, hF⟩ := foldl_moves (fun (k : Nat) => body (lo + (k : Int)))
    (fun (k : Nat) => T (lo + (k : Int))) (hi - lo).toNat
    (fun i hi => h1 _ (by omega) (by omega))
    (fun i hi => h2 _ (by omega) (by omega))
    (fun i hi => h3 _ (by omega) (by omega))
    (fun i i2 hi hi2 hne => h4 _ _ (by omega) (by omega) (by omega) (by omega) (by omega)) m
  constructor
  · intro i hi0 hi1 z w hTi
    have e : lo + (((i - lo).toNat : Nat) : Int) = i := by omega
    have := hT (i - lo).toNat (by omega) z w (by rw [e]; exact hTi)
    exact this
  · intro z hz
    exact hF z (fun i hi w => hz _ (by omega) (by omega) w)

/-- What one `qSwap` of two different cells does. -/
theorem qSwap_cells (m : Mem) (a b : Int) (ha : 0 ≤ a) (hb : 0 ≤ b) (hab : a ≠ b) :
    qSwap m a b a.toNat = m b.toNat ∧ qSwap m a b b.toNat = m a.toNat ∧
    ∀ z : Nat, (z : Int) ≠ a → (z : Int) ≠ b → qSwap m a b z = m z := by
  refine ⟨?_, ?_, ?_⟩
  · unfold qSwap peek
    rw [if_pos (by omega)]
  · unfold qSwap peek
    rw [if_neg (by omega), if_pos (by omega)]
  · intro z hza hzb
    unfold qSwap
    rw [if_neg hza, if_neg hzb]

/-- A loop of `qSwap` calls on pairs of cells that are all different: each
pair is exchanged, and every other cell keeps its content. -/
theorem forRange_swaps (lo hi : Int) (a b : Int → Int)
    (hnn : ∀ i, lo ≤ i → i < hi → 0 ≤ a i ∧ 0 ≤ b i)
    (hab : ∀ i i2, lo ≤ i → i < hi → lo ≤ i2 → i2 < hi → a i ≠ b i2)
    (haa : ∀ i i2, lo ≤ i → i < hi → lo ≤ i2 → i2 < hi → a i = a i2 → i = i2)
    (hbb : ∀ i i2, lo ≤ i → i < hi → lo ≤ i2 → i2 < hi → b i = b i2 → i = i2) (m : Mem) :
    (∀ i, lo ≤ i → i < hi →
      forRange lo hi (fun i m2 => qSwap m2 (a i) (b i)) m (a i).toNat = m (b i).toNat ∧
      forRange lo hi (fun i m2 => qSwap m2 (a i) (b i)) m (b i).toNat = m (a i).toNat) ∧
    (∀ z : Nat, (∀ i, lo ≤ i → i < hi → (z : Int) ≠ a i ∧ (z : Int) ≠ b i) →
      forRange lo hi (fun i m2 => qSwap m2 (a i) (b i)) m z = m z) := by
  obtain ⟨hT, hF⟩ := forRange_moves lo hi (fun i m2 => qSwap m2 (a i) (b i))
    (fun i z w => ((z : Int) = a i ∧ (w : Int) = b i) ∨ ((z : Int) = b i ∧ (w : Int) = a i))
    (by
      intro i hi0 hi1 m2 z w hT
      obtain ⟨h0a, h0b⟩ := hnn i hi0 hi1
      have hne := hab i i hi0 hi1 hi0 hi1
      obtain ⟨q1, q2, _⟩ := qSwap_cells m2 (a i) (b i) h0a h0b hne
      rcases hT with ⟨hz, hw⟩ | ⟨hz, hw⟩
      · have ez : z = (a i).toNat := by omega
        have ew : w = (b i).toNat := by omega
        rw [ez, ew]
        exact q1
      · have ez : z = (b i).toNat := by omega
        have ew : w = (a i).toNat := by omega
        rw [ez, ew]
        exact q2)
    (by
      intro i hi0 hi1 m2 z hz
      obtain ⟨h0a, h0b⟩ := hnn i hi0 hi1
      have hne := hab i i hi0 hi1 hi0 hi1
      obtain ⟨_, _, q3⟩ := qSwap_cells m2 (a i) (b i) h0a h0b hne
      apply q3
      · intro hc
        exact hz (b i).toNat (Or.inl ⟨hc, by omega⟩)
      · intro hc
        exact hz (a i).toNat (Or.inr ⟨hc, by omega⟩))
    (by
      intro i _ _ z w hT
      rcases hT with ⟨hz, hw⟩ | ⟨hz, hw⟩
      · exact ⟨z, Or.inr ⟨hw, hz⟩⟩
      · exact ⟨z, Or.inl ⟨hw, hz⟩⟩)
    (by
      intro i i2 hi0 hi1 hj0 hj1 hne z w w2 hT hT2
      rcases hT with ⟨hz, _⟩ | ⟨hz, _⟩ <;> rcases hT2 with ⟨hz2, _⟩ | ⟨hz2, _⟩
      · exact hne (haa i i2 hi0 hi1 hj0 hj1 (by omega))
      · exact hab i i2 hi0 hi1 hj0 hj1 (by omega)
      · exact hab i2 i hj0 hj1 hi0 hi1 (by omega)
      · exact hne (hbb i i2 hi0 hi1 hj0 hj1 (by omega))) m
  constructor
  · intro i hi0 hi1
    obtain ⟨h0a, h0b⟩ := hnn i hi0 hi1
    exact ⟨hT i hi0 hi1 _ _ (Or.inl ⟨by omega, by omega⟩),
      hT i hi0 hi1 _ _ (Or.inr ⟨by omega, by omega⟩)⟩
  · intro z hz
    apply hF z
    intro i hi0 hi1 w hT
    rcases hT with ⟨h, _⟩ | ⟨h, _⟩
    · exact (hz i hi0 hi1).1 h
    · exact (hz i hi0 hi1).2 h

/-- Two nested loops of `qSwap` calls on pairs of cells that are all
different: each pair is exchanged, and every other cell keeps its content. -/
theorem forRange2_swaps (lo hi : Int) (lo2 hi2 : Int → Int) (a b : Int → Int → Int)
    (hnn : ∀ i j, lo ≤ i → i < hi → lo2 i ≤ j → j < hi2 i → 0 ≤ a i j ∧ 0 ≤ b i j)
    (hab : ∀ i j i2 j2, lo ≤ i → i < hi → lo2 i ≤ j → j < hi2 i →
      lo ≤ i2 → i2 < hi → lo2 i2 ≤ j2 → j2 < hi2 i2 → a i j ≠ b i2 j2)
    (haa : ∀ i j i2 j2, lo ≤ i → i < hi → lo2 i ≤ j → j < hi2 i →
      lo ≤ i2 → i2 < hi → lo2 i2 ≤ j2 → j2 < hi2 i2 → a i j = a i2 j2 → i = i2 ∧ j = j2)
    (hbb : ∀ i j i2 j2, lo ≤ i → i < hi → lo2 i ≤ j → j < hi2 i →
      lo ≤ i2 → i2 < hi → lo2 i2 ≤ j2 → j2 < hi2 i2 → b i j = b i2 j2 → i = i2 ∧ j = j2)
    (m : Mem) :
    (∀ i j, lo ≤ i → i < hi → lo2 i ≤ j → j < hi2 i →
      forRange lo hi (fun i m1 =>
        forRange (lo2 i) (hi2 i) (fun j m2 => qSwap m2 (a i j) (b i j)) m1) m (a i j).toNat =
          m (b i j).toNat ∧
      forRange lo hi (fun i m1 =>
        forRange (lo2 i) (hi2 i) (fun j m2 => qSwap m2 (a i j) (b i j)) m1) m (b i j).toNat =
          m (a i j).toNat) ∧
    (∀ z : Nat, (∀ i j, lo ≤ i → i < hi → lo2 i ≤ j → j < hi2 i →
        (z : Int) ≠ a i j ∧ (z : Int) ≠ b i j) →
      forRange lo hi (fun i m1 =>
        forRange (lo2 i) (hi2 i) (fun j m2 => qSwap m2 (a i j) (b i j)) m1) m z = m z) := by
  have inner : ∀ i, lo ≤ i → i < hi → ∀ m1 : Mem,
      (∀ j, lo2 i ≤ j → j < hi2 i →
        forRange (lo2 i) (hi2 i) (fun j m2 => qSwap m2 (a i j) (b i j)) m1 (a i j).toNat =
          m1 (b i j).toNat ∧
        forRange (lo2 i) (hi2 i) (fun j m2 => qSwap m2 (a i j) (b i j)) m1 (b i j).toNat =
          m1 (a i j).toNat) ∧
      (∀ z : Nat, (∀ j, lo2 i ≤ j → j < hi2 i → (z : Int) ≠ a i j ∧ (z : Int) ≠ b i j) →
        forRange (lo2 i) (hi2 i) (fun j m2 => qSwap m2 (a i j) (b i j)) m1 z = m1 z) := by
    intro i hi0 hi1 m1
    exact forRange_swaps (lo2 i) (hi2 i) (a i) (b i)
      (fun j hj0 hj1 => hnn i j hi0 hi1 hj0 hj1)
      (fun j j2 hj0 hj1 hk0 hk1 => hab i j i j2 hi0 hi1 hj0 hj1 hi0 hi1 hk0 hk1)
      (fun j j2 hj0 hj1 hk0 hk1 h => (haa i j i j2 hi0 hi1 hj0 hj1 hi0 hi1 hk0 hk1 h).2)
      (fun j j2 hj0 hj1 hk0 hk1 h => (hbb i j i j2 hi0 hi1 hj0 hj1 hi0 hi1 hk0 hk1 h).2) m1
  obtain ⟨hT, hF⟩ := forRange_moves lo hi
    (fun i m1 => forRange (lo2 i) (hi2 i) (fun j m2 => qSwap m2 (a i j) (b i j)) m1)
    (fun i z w => ∃ j, lo2 i ≤ j ∧ j < hi2 i ∧
      (((z : Int) = a i j ∧ (w : Int) = b i j) ∨ ((z : Int) = b i j ∧ (w : Int) = a i j)))
    (by
      intro i hi0 hi1 m1 z w hT
      obtain ⟨j, hj0, hj1, hc⟩ := hT
      obtain ⟨h0a, h0b⟩ := hnn i j hi0 hi1 hj0 hj1
      obtain ⟨q1, q2⟩ := (inner i hi0 hi1 m1).1 j hj0 hj1
      rcases hc with ⟨hz, hw⟩ | ⟨hz, hw⟩
      · have ez : z = (a i j).toNat := by omega
        have ew : w = (b i j).toNat := by omega
        rw [ez, ew]
        exact q1
      · have ez : z = (b i j).toNat := by omega
        have ew : w = (a i j).toNat := by omega
        rw [ez, ew]
        exact q2)
    (by
      intro i hi0 hi1 m1 z hz
      apply (inner i hi0 hi1 m1).2 z
      intro j hj0 hj1
      obtain ⟨h0a, h0b⟩ := hnn i j hi0 hi1 hj0 hj1
      constructor
      · intro hc
        exact hz (b i j).toNat ⟨j, hj0, hj1, Or.inl ⟨hc, by omega⟩⟩
      · intro hc
        exact hz (a i j).toNat ⟨j, hj0, hj1, Or.inr ⟨hc, by omega⟩⟩)
    (by
      intro i _ _ z w hT
      obtain ⟨j, hj0, hj1, hc⟩ := hT
      rcases hc with ⟨hz, hw⟩ | ⟨hz, hw⟩
      · exact ⟨z, j, hj0, hj1, Or.inr ⟨hw, hz⟩⟩
      · exact ⟨z, j, hj0, hj1, Or.inl ⟨hw, hz⟩⟩)
    (by
      intro i i2 hi0 hi1 hk0 hk1 hne z w w2 hT hT2
      obtain ⟨j, hj0, hj1, hc⟩ := hT
      obtain ⟨j2, hl0, hl1, hc2⟩ := hT2
      rcases hc with ⟨hz, _⟩ | ⟨hz, _⟩ <;> rcases hc2 with ⟨hz2, _⟩ | ⟨hz2, _⟩
      · exact hne (haa i j i2 j2 hi0 hi1 hj0 hj1 hk0 hk1 hl0 hl1 (by omega)).1
      · exact hab i j i2 j2 hi0 hi1 hj0 hj1 hk0 hk1 hl0 hl1 (by omega)
      · exact hab i2 j2 i j hk0 hk1 hl0 hl1 hi0 hi1 hj0 hj1 (by omega)
      · exact hne (hbb i j i2 j2 hi0 hi1 hj0 hj1 hk0 hk1 hl0 hl1 (by omega)).1) m
  constructor
  · intro i j hi0 hi1 hj0 hj1
    obtain ⟨h0a, h0b⟩ := hnn i j hi0 hi1 hj0 hj1
    exact ⟨hT i hi0 hi1 _ _ ⟨j, hj0, hj1, Or.inl ⟨by omega, by omega⟩⟩,
      hT i hi0 hi1 _ _ ⟨j, hj0, hj1, Or.inr ⟨by omega, by omega⟩⟩⟩
  · intro z hz
    apply hF z
    intro i hi0 hi1 w hT
    obtain ⟨j, hj0, hj1, hc⟩ := hT
    rcases hc with ⟨h, _⟩ | ⟨h, _⟩
    · exact (hz i j hi0 hi1 hj0 hj1).1 h
    · exact (hz i j hi0 hi1 hj0 hj1).2 h

/-! ## Transposition -/

/-- What `transpose` leaves in every cell: cell `(r, c)` of the `n x n` buffer
holds what cell `(c, r)` held, and the memory after the buffer is as before. -/
theorem transpose_cells (m : Mem) (n : Int) :
    (∀ r c : Int, 0 ≤ r → r < n → 0 ≤ c → c < n →
      transpose m n (r * n + c).toNat = m (c * n + r).toNat) ∧
    (∀ z : Nat, (n * n).toNat ≤ z → transpose m n z = m z) := by
  constructor
  · have key := forRange2_swaps 0 (n - 1) (fun _ => 1) (fun i => n - i)
      (fun i j => (i * n + i) + j) (fun i j => (i * n + i) + j * n)
      (by
        intro i j hi0 hi1 hj0 hj1
        beta_reduce at hj0 hj1
        have b1 := cell_bound i (i + j) n hi0 (by omega) (by omega) (by omega)
        have b2 := cell_bound (i + j) i n (by omega) (by omega) hi0 (by omega)
        have e2 : (i * n + i) + j * n = (i + j) * n + i := by ring
        have e1 : (i * n + i) + j = i * n + (i + j) := by ring
        constructor
        · show 0 ≤ (i * n + i) + j
          rw [e1]; exact b1.1
        · show 0 ≤ (i * n + i) + j * n
          rw [e2]; exact b2.1)
      (by
        intro i j i2 j2 hi0 hi1 hj0 hj1 hk0 hk1 hl0 hl1 h
        beta_reduce at hj0 hj1 hl0 hl1 h
        have e1 : (i * n + i) + j = i * n + (i + j) := by ring
        have e2 : (i2 * n + i2) + j2 * n = (i2 + j2) * n + i2 := by ring
        rw [e1, e2] at h
        have := cell_inj i (i + j) (i2 + j2) i2 n (by omega) (by omega) (by omega) (by omega) h
        omega)
      (by
        intro i j i2 j2 hi0 hi1 hj0 hj1 hk0 hk1 hl0 hl1 h
        beta_reduce at hj0 hj1 hl0 hl1 h
        have e1 : (i * n + i) + j = i * n + (i + j) := by ring
        have e2 : (i2 * n + i2) + j2 = i2 * n + (i2 + j2) := by ring
        rw [e1, e2] at h
        have := cell_inj i (i + j) i2 (i2 + j2) n (by omega) (by omega) (by omega) (by omega) h
        omega)
      (by
        intro i j i2 j2 hi0 hi1 hj0 hj1 hk0 hk1 hl0 hl1 h
        beta_reduce at hj0 hj1 hl0 hl1 h
        have e1 : (i * n + i) + j * n = (i + j) * n + i := by ring
        have e2 : (i2 * n + i2) + j2 * n = (i2 + j2) * n + i2 := by ring
        rw [e1, e2] at h
        have := cell_inj (i + j) i (i2 + j2) i2 n (by omega) (by omega) (by omega) (by omega) h
        omega) m
    beta_reduce at key
    obtain ⟨hsw, hfix⟩ := key
    intro r c hr0 hr1 hc0 hc1
    show forRange 0 (n - 1) (fun i m1 =>
      forRange 1 (n - i) (fun j m2 =>
        qSwap m2 ((i * n + i) + j) ((i * n + i) + j * n)) m1) m (r * n + c).toNat =
          m (c * n + r).toNat
    rcases lt_trichotomy r c with hlt | heq | hgt
    · have h := (hsw r (c - r) hr0 (by omega) (by omega) (by omega)).1
      have e1 : r * n + r + (c - r) = r * n + c := by ring
      have e2 : r * n + r + (c - r) * n = c * n + r := by ring
      rw [e1, e2] at h
      exact h
    · subst heq
      apply hfix
      intro i j hi0 hi1 hj0 hj1
      have hz := (cell_bound r r n hr0 hr1 hr0 hr1).1
      rw [Int.toNat_of_nonneg hz]
      have e1 : (i * n + i) + j = i * n + (i + j) := by ring
      have e2 : (i * n + i) + j * n = (i + j) * n + i := by ring
      constructor
      · intro h
        rw [e1] at h
        have := cell_inj r r i (i + j) n hr0 hr1 (by omega) (by omega) h
        omega
      · intro h
        rw [e2] at h
        have := cell_inj r r (i + j) i n hr0 hr1 (by omega) (by omega) h
        omega
    · have h := (hsw c (r - c) hc0 (by omega) (by omega) (by omega)).2
      have e1 : c * n + c + (r - c) = c * n + r := by ring
      have e2 : c * n + c + (r - c) * n = r * n + c := by ring
      rw [e1, e2] at h
      exact h
  · intro z hz
    obtain ⟨hnat, _, hout⟩ := blockPerm_transpose n
    simp only at hnat hout
    rw [hnat m z, hout z hz]

/-! ## Mirroring -/

/-- What `reverse` with `REV_COL` leaves in every cell: cell `(y, x)` of the
`n x n` buffer holds what cell `(y, n-1-x)` held, and the memory after the
buffer is as before. -/
theorem reverse_col_cells (m : Mem) (n : Int) :
    (∀ y x : Int, 0 ≤ y → y < n → 0 ≤ x → x < n →
      reverse m n RevDir.REV_COL (y * n + x).toNat = m (y * n + (n - 1 - x)).toNat) ∧
    (∀ z : Nat, (n * n).toNat ≤ z → reverse m n RevDir.REV_COL z = m z) := by
  constructor
  · have key := forRange2_swaps 0 (n / 2) (fun _ => 0) (fun _ => n)
      (fun x y => y * n + x) (fun x y => y * n + (n - x - 1))
      (by
        intro x y hx0 hx1 hy0 hy1
        beta_reduce at hy0 hy1
        have b1 := cell_bound y x n hy0 hy1 hx0 (by omega)
        have b2 := cell_bound y (n - x - 1) n hy0 hy1 (by omega) (by omega)
        exact ⟨b1.1, b2.1⟩)
      (by
        intro x y x2 y2 hx0 hx1 hy0 hy1 hk0 hk1 hl0 hl1 h
        beta_reduce at hy0 hy1 hl0 hl1 h
        have := cell_inj y x y2 (n - x2 - 1) n (by omega) (by omega) (by omega) (by omega) h
        omega)
      (by
        intro x y x2 y2 hx0 hx1 hy0 hy1 hk0 hk1 hl0 hl1 h
        beta_reduce at hy0 hy1 hl0 hl1 h
        have := cell_inj y x y2 x2 n (by omega) (by omega) (by omega) (by omega) h
        omega)
      (by
        intro x y x2 y2 hx0 hx1 hy0 hy1 hk0 hk1 hl0 hl1 h
        beta_reduce at hy0 hy1 hl0 hl1 h
        have := cell_inj y (n - x - 1) y2 (n - x2 - 1) n (by omega) (by omega) (by omega)
          (by omega) h
        omega) m
    beta_reduce at key
    obtain ⟨hsw, hfix⟩ := key
    intro y x hy0 hy1 hx0 hx1
    show forRange 0 (n / 2) (fun x m1 =>
      forRange 0 n (fun y m2 =>
        qSwap m2 (y * n + x) (y * n + (n - x - 1))) m1) m (y * n + x).toNat =
          m (y * n + (n - 1 - x)).toNat
    by_cases hlow : x < n / 2
    · have h := (hsw x y hx0 hlow hy0 hy1).1
      have e : n - x - 1 = n - 1 - x := by ring
      rw [e] at h
      exact h
    · by_cases hhigh : n - 1 - x < n / 2
      · have h := (hsw (n - 1 - x) y (by omega) hhigh hy0 hy1).2
        have e : n - (n - 1 - x) - 1 = x := by ring
        rw [e] at h
        exact h
      · have e : n - 1 - x = x := by omega
        rw [e]
        apply hfix
        intro x2 y2 hk0 hk1 hl0 hl1
        have hz := (cell_bound y x n hy0 hy1 hx0 hx1).1
        rw [Int.toNat_of_nonneg hz]
        constructor
        · intro h
          have := cell_inj y x y2 x2 n hx0 hx1 (by omega) (by omega) h
          omega
        · intro h
          have := cell_inj y x y2 (n - x2 - 1) n hx0 hx1 (by omega) (by omega) h
          omega
  · intro z hz
    obtain ⟨hnat, _, hout⟩ := blockPerm_reverse n RevDir.REV_COL
    simp only at hnat hout
    rw [hnat m z, hout z hz]

/-- What `reverse` with `REV_ROW` leaves in every cell: cell `(y, x)` of the
`n x n` buffer holds what cell `(n-1-y, x)` held, and the memory after the
buffer is as before. -/
theorem reverse_row_cells (m : Mem) (n : Int) :
    (∀ y x : Int, 0 ≤ y → y < n → 0 ≤ x → x < n →
      reverse m n RevDir.REV_ROW (y * n + x).toNat = m ((n - 1 - y) * n + x).toNat) ∧
    (∀ z : Nat, (n * n).toNat ≤ z → reverse m n RevDir.REV_ROW z = m z) := by
  constructor
  · have key := forRange2_swaps 0 (n / 2) (fun _ => 0) (fun _ => n)
      (fun y x => y * n + x) (fun y x => (n - y - 1) * n + x)
      (by
        intro y x hy0 hy1 hx0 hx1
        beta_reduce at hx0 hx1
        have b1 := cell_bound y x n hy0 (by omega) hx0 hx1
        have b2 := cell_bound (n - y - 1) x n (by omega) (by omega) hx0 hx1
        exact ⟨b1.1, b2.1⟩)
      (by
        intro y x y2 x2 hy0 hy1 hx0 hx1 hk0 hk1 hl0 hl1 h
        beta_reduce at hx0 hx1 hl0 hl1 h
        have := cell_inj y x (n - y2 - 1) x2 n (by omega) (by omega) (by omega) (by omega) h
        omega)
      (by
        intro y x y2 x2 hy0 hy1 hx0 hx1 hk0 hk1 hl0 hl1 h
        beta_reduce at hx0 hx1 hl0 hl1 h
        have := cell_inj y x y2 x2 n (by omega) (by omega) (by omega) (by omega) h
        omega)
      (by
        intro y x y2 x2 hy0 hy1 hx0 hx1 hk0 hk1 hl0 hl1 h
        beta_reduce at hx0 hx1 hl0 hl1 h
        have := cell_inj (n - y - 1) x (n - y2 - 1) x2 n (by omega) (by omega) (by omega)
          (by omega) h
        omega) m
    beta_reduce at key
    obtain ⟨hsw, hfix⟩ := key
    intro y x hy0 hy1 hx0 hx1
    show forRange 0 (n / 2) (fun y m1 =>
      forRange 0 n (fun x m2 =>
        qSwap m2 (y * n + x) ((n - y - 1) * n + x)) m1) m (y * n + x).toNat =
          m ((n - 1 - y) * n + x).toNat
    by_cases hlow : y < n / 2
    · have h := (hsw y x hy0 hlow hx0 hx1).1
      have e : n - y - 1 = n - 1 - y := by ring
      rw [e] at h
      exact h
    · by_cases hhigh : n - 1 - y < n / 2
      · have h := (hsw (n - 1 - y) x (by omega) hhigh hx0 hx1).2
        have e : n - (n - 1 - y) - 1 = y := by ring
        rw [e] at h
        exact h
      · have e : n - 1 - y = y := by omega
        rw [e]
        apply hfix
        intro y2 x2 hk0 hk1 hl0 hl1
        have hz := (cell_bound y x n hy0 hy1 hx0 hx1).1
        rw [Int.toNat_of_nonneg hz]
        constructor
        · intro h
          have := cell_inj y x y2 x2 n hx0 hx1 (by omega) (by omega) h
          omega
        · intro h
          have := cell_inj y x (n - y2 - 1) x2 n hx0 hx1 (by omega) (by omega) h
          omega
  · intro z hz
    obtain ⟨hnat, _, hout⟩ := blockPerm_reverse n RevDir.REV_ROW
    simp only at hnat hout
    rw [hnat m z, hout z hz]

/-! ## The sequence of swaps -/

/-- Running two sequences of swaps one after the other. -/
theorem runSwaps_append (l1 l2 : List (Int × Int)) (m : Mem) :
    runSwaps (l1 ++ l2) m = runSwaps l2 (runSwaps l1 m) := by
  unfold runSwaps
  rw [List.foldl_append]

/-- A loop that appends to a list appends to whatever list it starts from. -/
theorem foldl_emits_append {α : Type} (g : Nat → List α) (L : List Nat) (l0 : List α) :
    L.foldl (fun l (k : Nat) => l ++ g k) l0 = l0 ++ L.foldl (fun l (k : Nat) => l ++ g k) [] := by
  induction L generalizing l0 with
  | nil => simp
  | cons a L ih =>
    simp only [List.foldl_cons, List.nil_append]
    rw [ih (l0 ++ g a), ih (g a), List.append_assoc]

/-- The entries of the list built by a loop that appends `g k` in turn `k`. -/
theorem foldl_emits_mem {α : Type} (g : Nat → List α) (N : Nat) (p : α) :
    p ∈ (List.range N).foldl (fun l (k : Nat) => l ++ g k) [] ↔ ∃ k, k < N ∧ p ∈ g k := by
  induction N with
  | zero => simp
  | succ N ih =>
    rw [List.range_succ, List.foldl_append]
    simp only [List.foldl_cons, List.foldl_nil, List.mem_append]
    rw [ih]
    constructor
    · rintro (⟨k, hk, hp⟩ | hp)
      · exact ⟨k, by omega, hp⟩
      · exact ⟨N, by omega, hp⟩
    · rintro ⟨k, hk, hp⟩
      by_cases hkN : k = N
      · subst hkN
        exact Or.inr hp
      · exact Or.inl ⟨k, by omega, hp⟩

/-- The list built by a loop that appends `g k` in turn `k` has no entry
twice when no `g k` has one twice and no two of them share an entry. -/
theorem foldl_emits_nodup {α : Type} (g : Nat → List α) (N : Nat)
    (hg : ∀ k, k < N → (g k).Nodup)
    (hd : ∀ k k2, k < N → k2 < N → k ≠ k2 → ∀ p, p ∈ g k → p ∉ g k2) :
    ((List.range N).foldl (fun l (k : Nat) => l ++ g k) []).Nodup := by
  induction N with
  | zero => simp
  | succ N ih =>
    rw [List.range_succ, List.foldl_append]
    simp only [List.foldl_cons, List.foldl_nil]
    rw [List.nodup_append]
    refine ⟨ih (fun k hk => hg k (by omega))
      (fun k k2 hk hk2 => hd k k2 (by omega) (by omega)), hg N (by omega), ?_⟩
    intro p hp1 hp2
    obtain ⟨k, hk, hpk⟩ := (foldl_emits_mem g N p).mp hp1
    exact hd k N (by omega) (by omega) (by omega) p hpk hp2

/-- A loop of runs of swaps is the run of the swaps the loop lists. -/
theorem foldl_run_emits (g : Nat → List (Int × Int)) (L : List Nat) (l0 : List (Int × Int))
    (m : Mem) :
    L.foldl (fun st (k : Nat) => runSwaps (g k) st) (runSwaps l0 m) =
      runSwaps (L.foldl (fun l (k : Nat) => l ++ g k) l0) m := by
  induction L generalizing l0 with
  | nil => rfl
  | cons a L ih =>
    simp only [List.foldl_cons]
    rw [← runSwaps_append, ih (l0 ++ g a)]

/-- The swaps `transpose` makes in row `i`, in order. -/
theorem transposeSwaps_row (mSize i : Int) (l : List (Int × Int)) :
    forRange 1 (mSize - i) (fun j l2 =>
      l2 ++ [((i * mSize + i) + j, (i * mSize + i) + j * mSize)]) l =
    l ++ forRange 1 (mSize - i) (fun j l2 =>
      l2 ++ [((i * mSize + i) + j, (i * mSize + i) + j * mSize)]) [] := by
  unfold forRange
  exact foldl_emits_append
    (fun (k : Nat) => [((i * mSize + i) + (1 + (k : Int)),
      (i * mSize + i) + (1 + (k : Int)) * mSize)]) _ l

/-- `transpose` does to the buffer what running its sequence of swaps does. -/
theorem transpose_eq_runSwaps (m : Mem) (mSize : Int) :
    transpose m mSize = runSwaps (transposeSwaps mSize) m := by
  show forRange 0 (mSize - 1) (fun i m1 =>
      forRange 1 (mSize - i) (fun j m2 =>
        qSwap m2 ((i * mSize + i) + j) ((i * mSize + i) + j * mSize)) m1) m =
    runSwaps (forRange 0 (mSize - 1) (fun i l =>
      forRange 1 (mSize - i) (fun j l2 =>
        l2 ++ [((i * mSize + i) + j, (i * mSize + i) + j * mSize)]) l) []) m
  have hrow : ∀ (i : Int) (m1 : Mem),
      forRange 1 (mSize - i) (fun j m2 =>
        qSwap m2 ((i * mSize + i) + j) ((i * mSize + i) + j * mSize)) m1 =
      runSwaps (forRange 1 (mSize - i) (fun j l2 =>
        l2 ++ [((i * mSize + i) + j, (i * mSize + i) + j * mSize)]) []) m1 := by
    intro i m1
    unfold forRange
    exact foldl_run_emits
      (fun (k : Nat) => [((i * mSize + i) + (1 + (k : Int)),
        (i * mSize + i) + (1 + (k : Int)) * mSize)]) _ [] m1
  have hbody : (fun (i : Int) (l : List (Int × Int)) =>
      forRange 1 (mSize - i) (fun j l2 =>
        l2 ++ [((i * mSize + i) + j, (i * mSize + i) + j * mSize)]) l) =
      (fun (i : Int) (l : List (Int × Int)) =>
        l ++ forRange 1 (mSize - i) (fun j l2 =>
          l2 ++ [((i * mSize + i) + j, (i * mSize + i) + j * mSize)]) []) := by
    funext i l
    exact transposeSwaps_row mSize i l
  rw [hbody]
  have hbody2 : (fun (i : Int) (m1 : Mem) =>
      forRange 1 (mSize - i) (fun j m2 =>
        qSwap m2 ((i * mSize + i) + j) ((i * mSize + i) + j * mSize)) m1) =
      (fun (i : Int) (m1 : Mem) =>
        runSwaps (forRange 1 (mSize - i) (fun j l2 =>
          l2 ++ [((i * mSize + i) + j, (i * mSize + i) + j * mSize)]) []) m1) := by
    funext i m1
    exact hrow i m1
  rw [hbody2]
  unfold forRange
  exact foldl_run_emits
    (fun (k : Nat) => (List.range (mSize - (0 + (k : Int)) - 1).toNat).foldl
      (fun l2 (k2 : Nat) => l2 ++ [(((0 + (k : Int)) * mSize + (0 + (k : Int))) + (1 + (k2 : Int)),
        ((0 + (k : Int)) * mSize + (0 + (k : Int))) + (1 + (k2 : Int)) * mSize)]) [])
    _ [] m

/-- The sequence of swaps of `transpose`, row after row. -/
theorem transposeSwaps_eq (n : Int) :
    transposeSwaps n =
      (List.range (n - 1 - 0).toNat).foldl (fun l (k : Nat) =>
        l ++ (List.range (n - (0 + (k : Int)) - 1).toNat).foldl (fun l2 (k2 : Nat) =>
          l2 ++ [(((0 + (k : Int)) * n + (0 + (k : Int))) + (1 + (k2 : Int)),
            ((0 + (k : Int)) * n + (0 + (k : Int))) + (1 + (k2 : Int)) * n)]) []) [] := by
  show forRange 0 (n - 1) (fun i l =>
      forRange 1 (n - i) (fun j l2 =>
        l2 ++ [((i * n + i) + j, (i * n + i) + j * n)]) l) [] = _
  have hbody : (fun (i : Int) (l : List (Int × Int)) =>
      forRange 1 (n - i) (fun j l2 =>
        l2 ++ [((i * n + i) + j, (i * n + i) + j * n)]) l) =
      (fun (i : Int) (l : List (Int × Int)) =>
        l ++ forRange 1 (n - i) (fun j l2 =>
          l2 ++ [((i * n + i) + j, (i * n + i) + j * n)]) []) := by
    funext i l
    exact transposeSwaps_row n i l
  rw [hbody]
  rfl

/-- The swaps of `transpose` are the pairs made of a cell `(i, c)` above the
diagonal (`i < c`) and its mirror image `(c, i)`. -/
theorem transposeSwaps_mem (n : Int) (p : Int × Int) :
    p ∈ transposeSwaps n ↔
      ∃ i c : Int, 0 ≤ i ∧ i < c ∧ c < n ∧ p = (i * n + c, c * n + i) := by
  rw [transposeSwaps_eq, foldl_emits_mem]
  constructor
  · rintro ⟨k, hk, hp⟩
    rw [foldl_emits_mem] at hp
    obtain ⟨k2, hk2, hp2⟩ := hp
    rw [List.mem_singleton] at hp2
    refine ⟨(k : Int), (k : Int) + 1 + (k2 : Int), by omega, by omega, by omega, ?_⟩
    rw [hp2]
    refine Prod.ext ?_ ?_
    · show (0 + (k : Int)) * n + (0 + (k : Int)) + (1 + (k2 : Int)) =
        (k : Int) * n + ((k : Int) + 1 + (k2 : Int))
      ring
    · show (0 + (k : Int)) * n + (0 + (k : Int)) + (1 + (k2 : Int)) * n =
        ((k : Int) + 1 + (k2 : Int)) * n + (k : Int)
      ring
  · rintro ⟨i, c, hi, hic, hc, hp⟩
    refine ⟨i.toNat, by omega, ?_⟩
    rw [foldl_emits_mem]
    refine ⟨(c - i - 1).toNat, by omega, ?_⟩
    rw [List.mem_singleton, hp]
    have ei : ((i.toNat : Nat) : Int) = i := by omega
    have ec : (((c - i - 1).toNat : Nat) : Int) = c - i - 1 := by omega
    rw [ei, ec]
    refine Prod.ext ?_ ?_
    · show i * n + c = (0 + i) * n + (0 + i) + (1 + (c - i - 1))
      ring
    · show c * n + i = (0 + i) * n + (0 + i) + (1 + (c - i - 1)) * n
      ring

/-- No swap of `transpose` is made twice. -/
theorem transposeSwaps_nodup (n : Int) : (transposeSwaps n).Nodup := by
  rw [transposeSwaps_eq]
  apply foldl_emits_nodup
  · intro k hk
    apply foldl_emits_nodup
    · intro k2 _
      exact List.nodup_singleton _
    · intro k2 k3 _ _ hne p hp hp3
      rw [List.mem_singleton] at hp hp3
      rw [hp] at hp3
      have h1 := congrArg Prod.fst hp3
      simp only at h1
      omega
  · intro k k3 hk hk3 hne p hp hp3
    rw [foldl_emits_mem] at hp hp3
    obtain ⟨k2, hk2, hq⟩ := hp
    obtain ⟨k4, hk4, hq3⟩ := hp3
    rw [List.mem_singleton] at hq hq3
    rw [hq] at hq3
    have h1 := congrArg Prod.fst hq3
    simp only at h1
    have e1 : (0 + (k : Int)) * n + (0 + (k : Int)) + (1 + (k2 : Int)) =
        (k : Int) * n + ((k : Int) + 1 + (k2 : Int)) := by ring
    have e3 : (0 + (k3 : Int)) * n + (0 + (k3 : Int)) + (1 + (k4 : Int)) =
        (k3 : Int) * n + ((k3 : Int) + 1 + (k4 : Int)) := by ring
    rw [e1, e3] at h1
    have := cell_inj (k : Int) ((k : Int) + 1 + (k2 : Int)) (k3 : Int)
      ((k3 : Int) + 1 + (k4 : Int)) n (by omega) (by omega) (by omega) (by omega) h1
    omega

/-! ## Quarter turns -/

/-- A counted loop with no turn to make. -/
theorem forRange_empty {σ : Type} (lo hi : Int) (body : Int → σ → σ) (init : σ)
    (h : hi ≤ lo) : forRange lo hi body init = init := by
  unfold forRange
  have e : (hi - lo).toNat = 0 := by omega
  rw [e]
  rfl

/-- A buffer of side 0 or less is left as it is by the three utilities. -/
theorem rotateBuffer_nonpos (m : Mem) (n : Int) (hn : n ≤ 0) :
    transpose m n = m ∧ (∀ d : RevDir, reverse m n d = m) ∧
    ∀ rot : BufRotate, rotateBuffer m n rot = m := by
  have ht : ∀ m2 : Mem, transpose m2 n = m2 := by
    intro m2
    unfold transpose
    exact forRange_empty _ _ _ _ (by omega)
  have hr : ∀ (m2 : Mem) (d : RevDir), reverse m2 n d = m2 := by
    intro m2 d
    unfold reverse
    simp only
    split_ifs
    · exact forRange_empty _ _ _ _ (by omega)
    · exact forRange_empty _ _ _ _ (by omega)
  refine ⟨ht m, hr m, ?_⟩
  intro rot
  cases rot with
  | ROT_90 => show reverse (transpose m n) n RevDir.REV_COL = m; rw [ht, hr]
  | ROT_180 =>
    show reverse (reverse m n RevDir.REV_ROW) n RevDir.REV_COL = m
    rw [hr, hr]
  | ROT_270 => show reverse (transpose m n) n RevDir.REV_ROW = m; rw [ht, hr]

/-- Every cell of an `n x n` row-major buffer is a cell `(y, x)`. -/
theorem cell_decode (n : Int) (z : Nat) (hn : 0 < n) (hz : z < (n * n).toNat) :
    ∃ y x : Int, 0 ≤ y ∧ y < n ∧ 0 ≤ x ∧ x < n ∧ z = (y * n + x).toNat := by
  have hnn : 0 ≤ n * n := mul_self_nonneg n
  have hz2 : (z : Int) < n * n := by omega
  refine ⟨(z : Int) / n, (z : Int) % n, Int.ediv_nonneg (by omega) (by omega),
    Int.ediv_lt_of_lt_mul hn hz2, Int.emod_nonneg _ (by omega), Int.emod_lt_of_pos _ hn, ?_⟩
  have e : (z : Int) / n * n + (z : Int) % n = (z : Int) := by
    rw [mul_comm]
    exact Int.ediv_add_emod (z : Int) n
  rw [e]
  omega

/-- What the in-place `rotateBuffer` leaves in every cell of the `n x n`
buffer, for each rotation, and that it leaves the memory after the buffer as
it was. -/
theorem rotateBuffer_cells (m : Mem) (n : Int) :
    (∀ r c : Int, 0 ≤ r → r < n → 0 ≤ c → c < n →
      rotateBuffer m n BufRotate.ROT_90 (r * n + c).toNat = m ((n - 1 - c) * n + r).toNat) ∧
    (∀ r c : Int, 0 ≤ r → r < n → 0 ≤ c → c < n →
      rotateBuffer m n BufRotate.ROT_180 (r * n + c).toNat =
        m ((n - 1 - r) * n + (n - 1 - c)).toNat) ∧
    (∀ r c : Int, 0 ≤ r → r < n → 0 ≤ c → c < n →
      rotateBuffer m n BufRotate.ROT_270 (r * n + c).toNat = m (c * n + (n - 1 - r)).toNat) ∧
    (∀ (rot : BufRotate) (z : Nat), (n * n).toNat ≤ z → rotateBuffer m n rot z = m z) := by
  refine ⟨?_, ?_, ?_, ?_⟩
  · intro r c hr0 hr1 hc0 hc1
    show reverse (transpose m n) n RevDir.REV_COL (r * n + c).toNat = _
    rw [(reverse_col_cells (transpose m n) n).1 r c hr0 hr1 hc0 hc1,
      (transpose_cells m n).1 r (n - 1 - c) hr0 hr1 (by omega) (by omega)]
  · intro r c hr0 hr1 hc0 hc1
    show reverse (reverse m n RevDir.REV_ROW) n RevDir.REV_COL (r * n + c).toNat = _
    rw [(reverse_col_cells (reverse m n RevDir.REV_ROW) n).1 r c hr0 hr1 hc0 hc1,
      (reverse_row_cells m n).1 r (n - 1 - c) hr0 hr1 (by omega) (by omega)]
  · intro r c hr0 hr1 hc0 hc1
    show reverse (transpose m n) n RevDir.REV_ROW (r * n + c).toNat = _
    rw [(reverse_row_cells (transpose m n) n).1 r c hr0 hr1 hc0 hc1,
      (transpose_cells m n).1 (n - 1 - r) c (by omega) (by omega) hc0 hc1]
  · intro rot z hz
    obtain ⟨hnat, _, hout⟩ := blockPerm_rotateBuffer n rot
    simp only at hnat hout
    rw [hnat m z, hout z hz]

/-! ## The buffer utilities on a buffer of any side -/

/-- C32: for every side `n` (`n >= 0` included) and every buffer,
`transpose( buf, n )` leaves in cell `i*n+j` what cell `j*n+i` held, for all
`i`, `j` below `n`, and leaves the memory after the `n*n` cells alone.  It does
so by the sequence of swaps `transposeSwaps n`, in which each pair made of a
cell `(i, c)` with `i < c` and its mirror image `(c, i)` occurs exactly once
and never the other way round, every swap is such a pair, no swap names a
diagonal cell, and every index is in `[0, n*n)`. -/
theorem transpose_correct (m : Mem) (n : Int) :
    (∀ i j : Int, 0 ≤ i → i < n → 0 ≤ j → j < n →
      transpose m n (i * n + j).toNat = m (j * n + i).toNat) ∧
    (∀ z : Nat, (n * n).toNat ≤ z → transpose m n z = m z) ∧
    transpose m n = runSwaps (transposeSwaps n) m ∧
    (∀ i c : Int, 0 ≤ i → i < c → c < n →
      (transposeSwaps n).countP (fun p => decide (p = (i * n + c, c * n + i))) = 1) ∧
    (∀ i c : Int, 0 ≤ i → i < c → c < n → (c * n + i, i * n + c) ∉ transposeSwaps n) ∧
    (∀ p : Int × Int, p ∈ transposeSwaps n →
      ∃ i c : Int, 0 ≤ i ∧ i < c ∧ c < n ∧ p = (i * n + c, c * n + i)) ∧
    (∀ p : Int × Int, p ∈ transposeSwaps n →
      ∀ d : Int, 0 ≤ d → d < n → p.1 ≠ d * n + d ∧ p.2 ≠ d * n + d) ∧
    (∀ p : Int × Int, p ∈ transposeSwaps n →
      0 ≤ p.1 ∧ p.1 < n * n ∧ 0 ≤ p.2 ∧ p.2 < n * n) := by
  refine ⟨(transpose_cells m n).1, (transpose_cells m n).2, transpose_eq_runSwaps m n,
    ?_, ?_, ?_, ?_, ?_⟩
  · intro i c hi hic hc
    have h := List.count_eq_one_of_mem (transposeSwaps_nodup n)
      ((transposeSwaps_mem n _).mpr ⟨i, c, hi, hic, hc, rfl⟩)
    exact h
  · intro i c hi hic hc hmem
    obtain ⟨i2, c2, hi2, hic2, hc2, hp⟩ := (transposeSwaps_mem n _).mp hmem
    have h1 := congrArg Prod.fst hp
    simp only at h1
    have := cell_inj c i i2 c2 n hi (by omega) (by omega) hc2 h1
    omega
  · intro p hp
    exact (transposeSwaps_mem n p).mp hp
  · intro p hp d hd0 hd1
    obtain ⟨i, c, hi, hic, hc, rfl⟩ := (transposeSwaps_mem n p).mp hp
    constructor
    · intro h
      have := cell_inj i c d d n (by omega) hc hd0 hd1 h
      omega
    · intro h
      have := cell_inj c i d d n hi (by omega) hd0 hd1 h
      omega
  · intro p hp
    obtain ⟨i, c, hi, hic, hc, rfl⟩ := (transposeSwaps_mem n p).mp hp
    have b1 := cell_bound i c n hi (by omega) (by omega) hc
    have b2 := cell_bound c i n (by omega) hc hi (by omega)
    have hnn : 0 ≤ n * n := mul_self_nonneg n
    rw [Int.toNat_of_nonneg hnn] at b1 b2
    exact ⟨b1.1, b1.2, b2.1, b2.2⟩

/-- C33: for every side `n`, even or odd, and every buffer, `reverse` with
`REV_COL` leaves in cell `y*n+x` what cell `y*n+(n-1-x)` held, and `reverse`
with `REV_ROW` what cell `(n-1-y)*n+x` held, for all `x`, `y` below `n`; both
leave the memory after the `n*n` cells alone, and each undoes itself. -/
theorem reverse_mirrors (m : Mem) (n : Int) :
    (∀ y x : Int, 0 ≤ y → y < n → 0 ≤ x → x < n →
      reverse m n RevDir.REV_COL (y * n + x).toNat = m (y * n + (n - 1 - x)).toNat) ∧
    (∀ y x : Int, 0 ≤ y → y < n → 0 ≤ x → x < n →
      reverse m n RevDir.REV_ROW (y * n + x).toNat = m ((n - 1 - y) * n + x).toNat) ∧
    (∀ (d : RevDir) (z : Nat), (n * n).toNat ≤ z → reverse m n d z = m z) ∧
    reverse (reverse m n RevDir.REV_COL) n RevDir.REV_COL = m ∧
    reverse (reverse m n RevDir.REV_ROW) n RevDir.REV_ROW = m := by
  have hframe : ∀ (m2 : Mem) (d : RevDir) (z : Nat), (n * n).toNat ≤ z →
      reverse m2 n d z = m2 z := by
    intro m2 d z hz
    cases d with
    | REV_ROW => exact (reverse_row_cells m2 n).2 z hz
    | REV_COL => exact (reverse_col_cells m2 n).2 z hz
  refine ⟨(reverse_col_cells m n).1, (reverse_row_cells m n).1, hframe m, ?_, ?_⟩
  · by_cases hn : n ≤ 0
    · rw [(rotateBuffer_nonpos m n hn).2.1, (rotateBuffer_nonpos m n hn).2.1]
    · funext z
      by_cases hz : z < (n * n).toNat
      · obtain ⟨y, x, hy0, hy1, hx0, hx1, rfl⟩ := cell_decode n z (by omega) hz
        rw [(reverse_col_cells (reverse m n RevDir.REV_COL) n).1 y x hy0 hy1 hx0 hx1,
          (reverse_col_cells m n).1 y (n - 1 - x) hy0 hy1 (by omega) (by omega)]
        have e : n - 1 - (n - 1 - x) = x := by ring
        rw [e]
      · rw [hframe _ _ z (by omega), hframe _ _ z (by omega)]
  · by_cases hn : n ≤ 0
    · rw [(rotateBuffer_nonpos m n hn).2.1, (rotateBuffer_nonpos m n hn).2.1]
    · funext z
      by_cases hz : z < (n * n).toNat
      · obtain ⟨y, x, hy0, hy1, hx0, hx1, rfl⟩ := cell_decode n z (by omega) hz
        rw [(reverse_row_cells (reverse m n RevDir.REV_ROW) n).1 y x hy0 hy1 hx0 hx1,
          (reverse_row_cells m n).1 (n - 1 - y) x (by omega) (by omega) hx0 hx1]
        have e : n - 1 - (n - 1 - y) = y := by ring
        rw [e]
      · rw [hframe _ _ z (by omega), hframe _ _ z (by omega)]

/-- C37: for every side `n` (`n >= 1` included) and every buffer, the in-place
`rotateBuffer` leaves in cell `r*n+c`, for all `r`, `c` below `n`: with
`ROT_90` what cell `(n-1-c)*n + r` held, a quarter turn clockwise; with
`ROT_180` what cell `(n-1-r)*n + (n-1-c)` held; with `ROT_270` what cell
`c*n + (n-1-r)` held.  The memory after the `n*n` cells is left alone. -/
theorem rotateBuffer_geometric (m : Mem) (n : Int) :
    (∀ r c : Int, 0 ≤ r → r < n → 0 ≤ c → c < n →
      rotateBuffer m n BufRotate.ROT_90 (r * n + c).toNat = m ((n - 1 - c) * n + r).toNat) ∧
    (∀ r c : Int, 0 ≤ r → r < n → 0 ≤ c → c < n →
      rotateBuffer m n BufRotate.ROT_180 (r * n + c).toNat =
        m ((n - 1 - r) * n + (n - 1 - c)).toNat) ∧
    (∀ r c : Int, 0 ≤ r → r < n → 0 ≤ c → c < n →
      rotateBuffer m n BufRotate.ROT_270 (r * n + c).toNat = m (c * n + (n - 1 - r)).toNat) ∧
    (∀ (rot : BufRotate) (z : Nat), (n * n).toNat ≤ z → rotateBuffer m n rot z = m z) :=
  rotateBuffer_cells m n

/-- C38: for every block size `n` and every buffer, the in-place
`rotateBuffer` with `ROT_90` applied twice leaves the memory that `ROT_180`
applied once leaves, and applied three times the memory that `ROT_270`
applied once leaves. -/
theorem rotateBuffer_quarter_turns (m : Mem) (n : Int) :
    rotateBuffer (rotateBuffer m n BufRotate.ROT_90) n BufRotate.ROT_90 =
      rotateBuffer m n BufRotate.ROT_180 ∧
    rotateBuffer (rotateBuffer (rotateBuffer m n BufRotate.ROT_90) n BufRotate.ROT_90) n
      BufRotate.ROT_90 = rotateBuffer m n BufRotate.ROT_270 := by
  by_cases hn : n ≤ 0
  · have h := fun (m2 : Mem) => (rotateBuffer_nonpos m2 n hn).2.2
    rw [h, h, h, h, h]
    exact ⟨rfl, rfl⟩
  · constructor
    · funext z
      by_cases hz : z < (n * n).toNat
      · obtain ⟨r, c, hr0, hr1, hc0, hc1, rfl⟩ := cell_decode n z (by omega) hz
        rw [(rotateBuffer_cells (rotateBuffer m n BufRotate.ROT_90) n).1 r c hr0 hr1 hc0 hc1,
          (rotateBuffer_cells m n).1 (n - 1 - c) r (by omega) (by omega) hr0 hr1,
          (rotateBuffer_cells m n).2.1 r c hr0 hr1 hc0 hc1]
      · rw [(rotateBuffer_cells _ n).2.2.2 _ z (by omega),
          (rotateBuffer_cells _ n).2.2.2 _ z (by omega),
          (rotateBuffer_cells _ n).2.2.2 _ z (by omega)]
    · funext z
      by_cases hz : z < (n * n).toNat
      · obtain ⟨r, c, hr0, hr1, hc0, hc1, rfl⟩ := cell_decode n z (by omega) hz
        rw [(rotateBuffer_cells _ n).1 r c hr0 hr1 hc0 hc1,
          (rotateBuffer_cells _ n).1 (n - 1 - c) r (by omega) (by omega) hr0 hr1,
          (rotateBuffer_cells m n).1 (n - 1 - r) (n - 1 - c) (by omega) (by omega) (by omega)
            (by omega),
          (rotateBuffer_cells m n).2.2.1 r c hr0 hr1 hc0 hc1]
        have e : n - 1 - (n - 1 - c) = c := by ring
        rw [e]
      · rw [(rotateBuffer_cells _ n).2.2.2 _ z (by omega),
          (rotateBuffer_cells _ n).2.2.2 _ z (by omega),
          (rotateBuffer_cells _ n).2.2.2 _ z (by omega),
          (rotateBuffer_cells _ n).2.2.2 _ z (by omega)]

/-! ## Ticks, idle and scrolling -/

/-- A timer tick on an idle engine stops the timer and does nothing else. -/
theorem handleScrollText_idle (s : SHLedMatrix) (hidle : s.isScrollingText_ = false) :
    handleScrollText s = some { s with txtTimerActive := false } := by
  simp only [handleScrollText, hidle, Bool.not_false, if_true]

/-- Any number of timer ticks on an idle engine, one at least, leave what the
first one leaves. -/
theorem runTicks_idle (s : SHLedMatrix) (hidle : s.isScrollingText_ = false) (n : Nat) :
    runTicks (n + 1) s = some { s with txtTimerActive := false } := by
  induction n with
  | zero =>
    show (some s).bind handleScrollText = _
    exact handleScrollText_idle s hidle
  | succ n ih =>
    show (runTicks (n + 1) s).bind handleScrollText = _
    rw [ih]
    exact handleScrollText_idle _ hidle

/-- Ticks made after `k` earlier ones. -/
theorem runTicks_add (s : SHLedMatrix) (k n : Nat) :
    runTicks (k + n) s = (runTicks k s).bind (runTicks n) := by
  induction n with
  | zero =>
    show runTicks k s = (runTicks k s).bind (fun t => some t)
    cases runTicks k s <;> rfl
  | succ n ih =>
    show (runTicks (k + n) s).bind handleScrollText = _
    rw [ih]
    cases runTicks k s with
    | none => rfl
    | some t => rfl

/-- From the tick that ends the scroll on, the engine is idle. -/
theorem runTicks_after_end (s0 : SHLedMatrix) (txtWidth : Int) (strip : Int → Mem)
    (h0 : Scrolling txtWidth strip 0 s0) (n : Nat)
    (hn : max 1 (txtWidth - 8) ≤ (n : Int)) :
    ∃ t : SHLedMatrix, runTicks n s0 = some t ∧ t.isScrollingText_ = false := by
  obtain ⟨sN, hrun, hidle, -, -, -, -⟩ := runTicks_final s0 txtWidth strip h0
  have e : n = (max 1 (txtWidth - 8)).toNat + (n - (max 1 (txtWidth - 8)).toNat) := by omega
  rw [e, runTicks_add, hrun]
  show ∃ t, runTicks (n - (max 1 (txtWidth - 8)).toNat) sN = some t ∧ _
  cases hk : n - (max 1 (txtWidth - 8)).toNat with
  | zero => exact ⟨sN, rfl, hidle⟩
  | succ k =>
    rw [runTicks_idle sN hidle k]
    exact ⟨_, rfl, hidle⟩

/-- The ticks of a scroll after which the engine is still scrolling are the
ticks before tick number `max 1 (txtWidth - 8)`; after tick `n` of them the
offset is `n`. -/
theorem runTicks_still_scrolling (s0 sn : SHLedMatrix) (txtWidth : Int) (strip : Int → Mem)
    (h0 : Scrolling txtWidth strip 0 s0) (n : Nat) (hrun : runTicks n s0 = some sn)
    (hsc : sn.isScrollingText_ = true) :
    (n : Int) < max 1 (txtWidth - 8) ∧ Scrolling txtWidth strip (n : Int) sn := by
  by_cases hn : (n : Int) < max 1 (txtWidth - 8)
  · obtain ⟨sn2, hrun2, hs2, -, -⟩ := runTicks_scrolling s0 txtWidth strip h0 n (by omega)
    rw [hrun] at hrun2
    have e : sn = sn2 := Option.some.inj hrun2
    rw [e]
    exact ⟨hn, hs2⟩
  · obtain ⟨t, ht, hidle⟩ := runTicks_after_end s0 txtWidth strip h0 n (by omega)
    rw [hrun] at ht
    have e : sn = t := Option.some.inj ht
    rw [e, hidle] at hsc
    exact Bool.noConfusion hsc

/-- What a call of `setImage` that returns true was given, and that a call
that returns false leaves the framebuffer memory as it was. -/
theorem setImage_guard (s : SHLedMatrix) (image : QImage) (xOff yOff : Nat) :
    ((setImage s image xOff yOff).1 = true →
      s.ready_ = true ∧ (8 : Int) + (xOff : Int) ≤ image.width ∧
      (8 : Int) + (yOff : Int) ≤ image.height ∧ image.format = QImageFormat.Format_RGB16) ∧
    ((setImage s image xOff yOff).1 = false → (setImage s image xOff yOff).2.fbPtr_ = s.fbPtr_) := by
  simp only [setImage]
  split_ifs with h1 h2
  · exact ⟨fun h => h.elim, fun _ => rfl⟩
  · exact ⟨fun h => h.elim, fun _ => rfl⟩
  · constructor
    · intro _
      have hr : s.ready_ = true := by
        cases hs : s.ready_
        · rw [hs] at h1; exact absurd rfl h1
        · rfl
      simp only [DisplayXSize, DisplayYSize] at h2
      have hf : image.format = QImageFormat.Format_RGB16 := by
        by_contra hne
        exact h2 (Or.inr (Or.inr hne))
      exact ⟨hr, by omega, by omega, hf⟩
    · intro h
      exact h.elim

/-- A call of `setImage` on a ready engine with a window inside an RGB565
image returns true. -/
theorem setImage_accepts (s : SHLedMatrix) (image : QImage) (xOff yOff : Nat)
    (hready : s.ready_ = true) (hx : (8 : Int) + (xOff : Int) ≤ image.width)
    (hy : (8 : Int) + (yOff : Int) ≤ image.height)
    (hf : image.format = QImageFormat.Format_RGB16) :
    (setImage s image xOff yOff).1 = true := by
  simp only [setImage, hready, Bool.not_true, Bool.false_eq_true, if_false]
  rw [if_neg]
  simp only [DisplayXSize, DisplayYSize]
  intro h
  rcases h with h | h | h
  · omega
  · omega
  · exact h hf

/-- The conversion to `quint16` never gives more than its argument, when that
is not negative. -/
theorem toQuint16_le (v : Int) (hv : 0 ≤ v) : ((toQuint16 v : Nat) : Int) ≤ v := by
  unfold toQuint16
  omega

/-- The width of a strip image is the width asked for, or 0 for the null
image. -/
theorem newQImage_width_cases (w h : Int) (format : QImageFormat) (pixels : Int → Mem) :
    (newQImage w h format pixels).width = 0 ∨ (newQImage w h format pixels).width = w := by
  unfold newQImage
  split_ifs
  · exact Or.inl rfl
  · exact Or.inr rfl

/-- C34: a scroll started by a `scrollText` that returned true, for a strip of
width `W = txtWidth + 1`.  The window `scrollText` hands to `setImage` is at
offset 0, and every tick made while the engine is scrolling adds exactly 1 to
the offset and hands the window at the new offset to `setImage`.  Whenever one
of these calls paints (returns true), its offset `o` has `o + 8 <= W`, so no
column past the right edge of the strip is read; when it does not paint, the
framebuffer is left as it was.  For `W >= 9` the call of every such tick
paints, and the new offset itself has `offset + 8 <= W`. -/
theorem scroll_stays_in_strip (s s0 : SHLedMatrix) (txtWidth : Int) (strip : Int → Mem)
    (pixelsPerSec : Nat)
    (hstart : scrollText s txtWidth strip pixelsPerSec = some (true, s0)) :
    (∃ (img : QImage) (r : Bool × SHLedMatrix),
      s0.txtImg_ = some img ∧ s0.curTxtOffset_ = 0 ∧
      r = setImage { s with txtLen_ := txtWidth, txtImg_ := some img, txtImgFromNew := true,
                            curTxtOffset_ := 0, isScrollingText_ := true } img 0 0 ∧
      s0.fbPtr_ = r.2.fbPtr_ ∧
      (r.1 = true → (0 : Int) + 8 ≤ txtWidth + 1) ∧
      (r.1 = false → s0.fbPtr_ = s.fbPtr_)) ∧
    (∀ (n : Nat) (sn : SHLedMatrix), runTicks n s0 = some sn → sn.isScrollingText_ = true →
      ∃ (t : SHLedMatrix) (img : QImage) (r : Bool × SHLedMatrix),
        sn.txtImg_ = some img ∧ handleScrollText sn = some t ∧
        t.curTxtOffset_ = sn.curTxtOffset_ + 1 ∧
        r = setImage { sn with curTxtOffset_ := sn.curTxtOffset_ + 1 } img
              (toQuint16 (sn.curTxtOffset_ + 1)) 0 ∧
        t.fbPtr_ = r.2.fbPtr_ ∧
        (r.1 = true →
          ((toQuint16 (sn.curTxtOffset_ + 1) : Nat) : Int) + 8 ≤ txtWidth + 1) ∧
        (r.1 = false → t.fbPtr_ = sn.fbPtr_) ∧
        (9 ≤ txtWidth + 1 → r.1 = true ∧ 0 ≤ t.curTxtOffset_ ∧
          t.curTxtOffset_ + 8 ≤ txtWidth + 1)) := by
  obtain ⟨h0, -, -, -, -⟩ := scroll_started s s0 txtWidth strip pixelsPerSec hstart
  obtain ⟨-, -, -, hs0⟩ := scrollText_true s s0 txtWidth strip pixelsPerSec hstart
  have hwidth : ∀ (q : Nat), (8 : Int) + (q : Int) ≤
      (newQImage (txtWidth + 1) DisplayYSize QImageFormat.Format_RGB16 strip).width →
      (q : Int) + 8 ≤ txtWidth + 1 := by
    intro q hq
    rcases newQImage_width_cases (txtWidth + 1) DisplayYSize QImageFormat.Format_RGB16 strip
      with hw | hw
    · rw [hw] at hq; omega
    · rw [hw] at hq; omega
  constructor
  · refine ⟨newQImage (txtWidth + 1) DisplayYSize QImageFormat.Format_RGB16 strip, _,
      h0.2.2.2.2.1, h0.2.2.2.1, rfl, ?_, ?_, ?_⟩
    · rw [hs0]
    · intro hr
      have hg := (setImage_guard _ _ 0 0).1 hr
      have := hwidth 0 hg.2.1
      omega
    · intro hr
      have hg := (setImage_guard _ _ 0 0).2 hr
      rw [hs0]
      exact hg
  · intro n sn hrun hsc
    obtain ⟨hn, hr, hs, hlen, hoff, himg, hnew⟩ :=
      runTicks_still_scrolling s0 sn txtWidth strip h0 n hrun hsc
    obtain ⟨t, ht, -, -, t3, -, -, -, -, t7⟩ := tick_of_scrolling sn _ hs himg hnew
    have hfb : t.fbPtr_ = (setImage { sn with curTxtOffset_ := sn.curTxtOffset_ + 1 }
        (newQImage (txtWidth + 1) DisplayYSize QImageFormat.Format_RGB16 strip)
        (toQuint16 (sn.curTxtOffset_ + 1)) 0).2.fbPtr_ := by
      rw [t7]
      exact (setImage_fb_congr sn { sn with curTxtOffset_ := sn.curTxtOffset_ + 1 } _ _ _
        rfl rfl).symm
    refine ⟨t, _, _, himg, ht, t3, rfl, hfb, ?_, ?_, ?_⟩
    · intro hpaint
      exact hwidth _ ((setImage_guard _ _ _ 0).1 hpaint).2.1
    · intro hpaint
      rw [hfb]
      exact (setImage_guard _ _ _ 0).2 hpaint
    · intro h9
      have hq := toQuint16_le (sn.curTxtOffset_ + 1) (by omega)
      have himg2 := newQImage_pos (txtWidth + 1) DisplayYSize QImageFormat.Format_RGB16 strip
        (by omega) (by decide)
      refine ⟨?_, by omega, by omega⟩
      apply setImage_accepts
      · exact hr
      · rw [himg2]
        show (8 : Int) + _ ≤ txtWidth + 1
        omega
      · rw [himg2]
        show (8 : Int) + ((0 : Nat) : Int) ≤ 8
        omega
      · rw [himg2]

/-- Witness of C34: a text 12 pixels wide (`W = 13`) on the sample engine. -/
theorem scroll_stays_in_strip_witness :
    scrollText paintedEngine 12 sampleStrip 15 =
      some (true, afterScrollText paintedEngine 12 sampleStrip 15) ∧
    ∀ (n : Nat) (sn : SHLedMatrix),
      runTicks n (afterScrollText paintedEngine 12 sampleStrip 15) = some sn →
      sn.isScrollingText_ = true →
      ∃ (t : SHLedMatrix) (img : QImage) (r : Bool × SHLedMatrix),
        sn.txtImg_ = some img ∧ handleScrollText sn = some t ∧
        t.curTxtOffset_ = sn.curTxtOffset_ + 1 ∧
        r = setImage { sn with curTxtOffset_ := sn.curTxtOffset_ + 1 } img
              (toQuint16 (sn.curTxtOffset_ + 1)) 0 ∧
        t.fbPtr_ = r.2.fbPtr_ ∧
        (r.1 = true →
          ((toQuint16 (sn.curTxtOffset_ + 1) : Nat) : Int) + 8 ≤ (12 : Int) + 1) ∧
        (r.1 = false → t.fbPtr_ = sn.fbPtr_) ∧
        (9 ≤ (12 : Int) + 1 → r.1 = true ∧ 0 ≤ t.curTxtOffset_ ∧
          t.curTxtOffset_ + 8 ≤ (12 : Int) + 1) :=
  ⟨rfl, (scroll_stays_in_strip paintedEngine (afterScrollText paintedEngine 12 sampleStrip 15)
    12 sampleStrip 15 rfl).2⟩

/-- C35: a timer tick on an engine that is not scrolling stops the timer and
changes nothing else, and so does any number of ticks: the offset, the strip,
`isScrolling`, `lastError` and every cell of the framebuffer memory are as
before. -/
theorem idle_tick_only_stops_timer (s : SHLedMatrix) (hidle : s.isScrollingText_ = false) :
    handleScrollText s = some { s with txtTimerActive := false } ∧
    (∀ n : Nat, 1 ≤ n → runTicks n s = some { s with txtTimerActive := false }) ∧
    (∀ (n : Nat) (t : SHLedMatrix), runTicks n s = some t →
      t.curTxtOffset_ = s.curTxtOffset_ ∧ t.txtImg_ = s.txtImg_ ∧ t.txtLen_ = s.txtLen_ ∧
      t.isScrollingText_ = false ∧ t.lastError_ = s.lastError_ ∧ t.ready_ = s.ready_ ∧
      t.errorSignals = s.errorSignals ∧ (1 ≤ n → t.txtTimerActive = false) ∧
      ∀ k : Nat, t.fbPtr_ k = s.fbPtr_ k) := by
  have hticks : ∀ n : Nat, 1 ≤ n → runTicks n s = some { s with txtTimerActive := false } := by
    intro n hn
    obtain ⟨k, rfl⟩ : ∃ k : Nat, n = k + 1 := ⟨n - 1, by omega⟩
    exact runTicks_idle s hidle k
  refine ⟨handleScrollText_idle s hidle, hticks, ?_⟩
  intro n t hrun
  by_cases hn : 1 ≤ n
  · rw [hticks n hn] at hrun
    have e := Option.some.inj hrun
    rw [← e]
    exact ⟨rfl, rfl, rfl, hidle, rfl, rfl, rfl, fun _ => rfl, fun _ => rfl⟩
  · have hz : n = 0 := by omega
    subst hz
    have e : s = t := Option.some.inj hrun
    rw [← e]
    exact ⟨rfl, rfl, rfl, hidle, rfl, rfl, rfl, fun h => absurd h hn, fun _ => rfl⟩

/-- Witness of C35: three extra ticks on the painted sample engine, which is
idle. -/
theorem idle_tick_only_stops_timer_witness :
    paintedEngine.isScrollingText_ = false ∧
    runTicks 3 paintedEngine = some { paintedEngine with txtTimerActive := false } ∧
    ((runTicks 3 paintedEngine).map (fun t => t.fbPtr_ 9)) = some 109 :=
  ⟨rfl, (idle_tick_only_stops_timer paintedEngine rfl).2.1 3 (by decide),
    by rw [(idle_tick_only_stops_timer paintedEngine rfl).2.1 3 (by decide)]; rfl⟩

/-! ## Arguments the checks let through -/

/-- C39, evaluated: on a ready, idle engine `scrollText` with
`pixelsPerSec = 0` is not rejected and the call traps: when `txtImg_` is null
or a pointer `new` returned, so that the `delete` at the head of the call is
harmless, it reaches `1000 / pixelsPerSec` with the divisor 0, where on the
same engine a speed from 1 to 255 makes the call return with a period between
3 and 1000 ms. -/
theorem scrollText_zero_speed_divides_by_zero (s : SHLedMatrix) (txtWidth : Int)
    (strip : Int → Mem) (hready : s.ready_ = true) (hidle : s.isScrollingText_ = false) :
    scrollText s txtWidth strip 0 = none ∧
    ((s.txtImg_ = none ∨ s.txtImgFromNew = true) →
      ∀ pixelsPerSec : Nat, 1 ≤ pixelsPerSec → pixelsPerSec ≤ 255 →
        ∃ s0 : SHLedMatrix, scrollText s txtWidth strip pixelsPerSec = some (true, s0) ∧
          3 ≤ s0.txtTimerInterval ∧ s0.txtTimerInterval ≤ 1000) := by
  constructor
  · simp only [scrollText, hready, hidle, Bool.not_true, Bool.false_eq_true, if_false, if_true]
    split_ifs <;> rfl
  · intro hptr pixelsPerSec h1 h255
    obtain ⟨s0, hs0⟩ :=
      scrollText_returns s txtWidth strip pixelsPerSec hready hidle hptr (by omega)
    obtain ⟨-, -, hint, -, -⟩ := scroll_started s s0 txtWidth strip pixelsPerSec hs0
    refine ⟨s0, hs0, ?_, ?_⟩
    · rw [hint]
      have hp : (0 : Int) < (pixelsPerSec : Int) := by omega
      rw [Int.le_ediv_iff_mul_le hp]
      omega
    · rw [hint]
      have hp : (0 : Int) < (pixelsPerSec : Int) := by omega
      have hlt : (1000 : Int) / (pixelsPerSec : Int) < 1001 := by
        rw [Int.ediv_lt_iff_lt_mul hp]
        nlinarith
      omega

/-- Witness of C39: the painted sample engine, whose `txtImg_` is null, and a
text 12 pixels wide. -/
theorem scrollText_zero_speed_divides_by_zero_witness :
    paintedEngine.ready_ = true ∧ paintedEngine.isScrollingText_ = false ∧
    paintedEngine.txtImg_.isNone = true ∧
    scrollText paintedEngine 12 sampleStrip 0 = none :=
  ⟨rfl, rfl, rfl,
    (scrollText_zero_speed_divides_by_zero paintedEngine 12 sampleStrip rfl rfl).1⟩

/-- C40, evaluated: on the ready sample engine `setBlock` returns true for a
block of size 0 x 0 at (1, 1), and for a block of size -1 x 1 at (2, 0); in the
second call `memcpy` is handed the byte count `(size_t)(-2)`, and the cell
after the 64 cells of the framebuffer, which held 164, now holds the source
cell 62. -/
theorem setBlock_accepts_degenerate_sizes :
    (setBlock paintedEngine countingBuffer 0 0 1 1).1 = true ∧
    (setBlock paintedEngine countingBuffer (-1) 1 2 0).1 = true ∧
    toSizeT ((-1) * 2) = 4294967294 ∧
    paintedEngine.fbPtr_ 64 = 164 ∧
    (setBlock paintedEngine countingBuffer (-1) 1 2 0).2.fbPtr_ 64 = countingBuffer 62 ∧
    countingBuffer 62 = 63 := by
  decide

/-! ## The joystick -/

/-- C31, evaluated: when the device was found and the worker is running, the
destructor makes its calls in this order: `close( jsFd_ )`,
`requestInterruption()`, `wait()`, `delete`.  The descriptor is closed while
the worker may still be running, before the worker was asked to stop and
before it was joined. -/
theorem teardown_closes_before_join (j : SHJoystick) (t : JsThread)
    (hfd : j.jsFd_ ≠ INVALID_DEV) (hthread : j.jsThread_ = some t)
    (hrun : t.isRunning = true) :
    destroySHJoystick j =
      [TeardownAction.close j.jsFd_, TeardownAction.requestInterruption,
        TeardownAction.wait, TeardownAction.deleteThread] ∧
    closesWhileRunning true (destroySHJoystick j) = true := by
  have h : destroySHJoystick j =
      [TeardownAction.close j.jsFd_, TeardownAction.requestInterruption,
        TeardownAction.wait, TeardownAction.deleteThread] := by
    simp only [destroySHJoystick, hthread, hrun, if_pos hfd, if_true]
    rfl
  rw [h]
  exact ⟨rfl, rfl⟩

/-- Witness of C31: the joystick constructed when the Sense HAT joystick is
the device found. -/
theorem teardown_closes_before_join_witness :
    (newSHJoystick [senseHatJs]).ready_ = true ∧
    destroySHJoystick (newSHJoystick [senseHatJs]) =
      [TeardownAction.close 5, TeardownAction.requestInterruption,
        TeardownAction.wait, TeardownAction.deleteThread] ∧
    closesWhileRunning true (destroySHJoystick (newSHJoystick [senseHatJs])) = true :=
  ⟨by decide,
    teardown_closes_before_join (newSHJoystick [senseHatJs]) { jsFd_ := 5, isRunning := true }
      (by decide) rfl rfl⟩

/-- A loop that appends at most one entry per turn lists the entries its
turns give, in order. -/
theorem foldl_emit_option {α : Type} (g : Nat → Option α) (L : List Nat) (l0 : List α) :
    L.foldl (fun l (k : Nat) => l ++ (g k).toList) l0 = l0 ++ L.filterMap g := by
  induction L generalizing l0 with
  | nil => simp
  | cons a L ih =>
    simp only [List.foldl_cons]
    rw [ih]
    cases h : g a <;> simp [List.filterMap_cons, h]

/-- C36: `handleEvents`, given a read of `bytesRead` bytes, goes through the
first `floor( bytesRead / EventSize )` records (none when `bytesRead` is below
`EventSize`) and emits, in record order, the event of each record that has
one: a record of type `EV_KEY` with value 1 and code `KEY_ENTER`, `KEY_UP`,
`KEY_DOWN`, `KEY_LEFT` or `KEY_RIGHT` gives `JS_ENTER`, `JS_UP`, `JS_DOWN`,
`JS_LEFT`, `JS_RIGHT`; any other record gives nothing. -/
theorem handleEvents_records (bytesRead : Int) (ev : Nat → input_event) :
    handleEvents bytesRead ev =
      (List.range (bytesRead / EventSize).toNat).filterMap (fun i => eventOfRecord (ev i)) ∧
    (bytesRead < EventSize → handleEvents bytesRead ev = []) ∧
    (∀ e : input_event, ∀ j : Joystick_Event, eventOfRecord e = some j ↔
      e.type = EV_KEY ∧ e.value = 1 ∧
      ((e.code = KEY_ENTER ∧ j = Joystick_Event.JS_ENTER) ∨
       (e.code = KEY_UP ∧ j = Joystick_Event.JS_UP) ∨
       (e.code = KEY_DOWN ∧ j = Joystick_Event.JS_DOWN) ∨
       (e.code = KEY_LEFT ∧ j = Joystick_Event.JS_LEFT) ∨
       (e.code = KEY_RIGHT ∧ j = Joystick_Event.JS_RIGHT))) := by
  refine ⟨?_, ?_, ?_⟩
  · unfold handleEvents
    split_ifs with hlt
    · have e : (bytesRead / EventSize).toNat = 0 := by
        unfold EventSize at hlt ⊢
        omega
      rw [e]
      rfl
    · simp only
      unfold forRange
      have hstep : (fun (emitted : List Joystick_Event) (k : Nat) =>
          if (ev (0 + (k : Int)).toNat).type ≠ EV_KEY then emitted
          else if (ev (0 + (k : Int)).toNat).value ≠ 1 then emitted
          else if (ev (0 + (k : Int)).toNat).code = KEY_ENTER then
            emitted ++ [Joystick_Event.JS_ENTER]
          else if (ev (0 + (k : Int)).toNat).code = KEY_UP then
            emitted ++ [Joystick_Event.JS_UP]
          else if (ev (0 + (k : Int)).toNat).code = KEY_DOWN then
            emitted ++ [Joystick_Event.JS_DOWN]
          else if (ev (0 + (k : Int)).toNat).code = KEY_LEFT then
            emitted ++ [Joystick_Event.JS_LEFT]
          else if (ev (0 + (k : Int)).toNat).code = KEY_RIGHT then
            emitted ++ [Joystick_Event.JS_RIGHT]
          else emitted) =
          (fun (emitted : List Joystick_Event) (k : Nat) =>
            emitted ++ (eventOfRecord (ev k)).toList) := by
        funext emitted k
        have ek : (0 + (k : Int)).toNat = k := by omega
        rw [ek]
        unfold eventOfRecord
        split_ifs <;> simp_all
      rw [hstep, foldl_emit_option, List.nil_append, sub_zero]
  · intro hlt
    unfold handleEvents
    rw [if_pos hlt]
  · intro e j
    unfold eventOfRecord
    unfold KEY_ENTER KEY_UP KEY_DOWN KEY_LEFT KEY_RIGHT
    split_ifs with h1 h2 h3 h4 h5 h6
    · constructor
      · intro h
        have hj := Option.some.inj h
        exact ⟨h1.1, h1.2, Or.inl ⟨h2, hj.symm⟩⟩
      · rintro ⟨-, -, ⟨-, hj⟩ | ⟨hc, -⟩ | ⟨hc, -⟩ | ⟨hc, -⟩ | ⟨hc, -⟩⟩
        · rw [hj]
        · omega
        · omega
        · omega
        · omega
    · constructor
      · intro h
        have hj := Option.some.inj h
        exact ⟨h1.1, h1.2, Or.inr (Or.inl ⟨h3, hj.symm⟩)⟩
      · rintro ⟨-, -, ⟨hc, -⟩ | ⟨-, hj⟩ | ⟨hc, -⟩ | ⟨hc, -⟩ | ⟨hc, -⟩⟩
        · omega
        · rw [hj]
        · omega
        · omega
        · omega
    · constructor
      · intro h
        have hj := Option.some.inj h
        exact ⟨h1.1, h1.2, Or.inr (Or.inr (Or.inl ⟨h4, hj.symm⟩))⟩
      · rintro ⟨-, -, ⟨hc, -⟩ | ⟨hc, -⟩ | ⟨-, hj⟩ | ⟨hc, -⟩ | ⟨hc, -⟩⟩
        · omega
        · omega
        · rw [hj]
        · omega
        · omega
    · constructor
      · intro h
        have hj := Option.some.inj h
        exact ⟨h1.1, h1.2, Or.inr (Or.inr (Or.inr (Or.inl ⟨h5, hj.symm⟩)))⟩
      · rintro ⟨-, -, ⟨hc, -⟩ | ⟨hc, -⟩ | ⟨hc, -⟩ | ⟨-, hj⟩ | ⟨hc, -⟩⟩
        · omega
        · omega
        · omega
        · rw [hj]
        · omega
    · constructor
      · intro h
        have hj := Option.some.inj h
        exact ⟨h1.1, h1.2, Or.inr (Or.inr (Or.inr (Or.inr ⟨h6, hj.symm⟩)))⟩
      · rintro ⟨-, -, ⟨hc, -⟩ | ⟨hc, -⟩ | ⟨hc, -⟩ | ⟨hc, -⟩ | ⟨-, hj⟩⟩
        · omega
        · omega
        · omega
        · omega
        · rw [hj]
    · constructor
      · intro h
        exact h.elim
      · rintro ⟨-, -, ⟨hc, -⟩ | ⟨hc, -⟩ | ⟨hc, -⟩ | ⟨hc, -⟩ | ⟨hc, -⟩⟩
        · exact absurd hc h2
        · exact absurd hc h3
        · exact absurd hc h4
        · exact absurd hc h5
        · exact absurd hc h6
    · constructor
      · intro h
        exact h.elim
      · rintro ⟨ht, hv, -⟩
        exact absurd ⟨ht, hv⟩ h1

/-! ## The utilities on sample buffers -/

/-- Witness of C32: the 3x3 buffer holding 1 to 9.  Three swaps are made, and
cell `(0, 1)` ends with the 4 that cell `(1, 0)` held. -/
theorem transpose_correct_witness :
    transposeSwaps 3 = [(1, 3), (2, 6), (5, 7)] ∧
    transpose countingBuffer 3 ((0 : Int) * 3 + 1).toNat =
      countingBuffer ((1 : Int) * 3 + 0).toNat ∧
    countingBuffer ((1 : Int) * 3 + 0).toNat = 4 :=
  ⟨by decide,
    (transpose_correct countingBuffer 3).1 0 1 (by decide) (by decide) (by decide) (by decide),
    by decide⟩

/-- Witness of C33: the 3x3 buffer holding 1 to 9, an odd side.  Cell `(0, 0)`
ends with the 3 of cell `(0, 2)` after `REV_COL` and with the 7 of cell
`(2, 0)` after `REV_ROW`, and the middle column keeps its 2. -/
theorem reverse_mirrors_witness :
    reverse countingBuffer 3 RevDir.REV_COL ((0 : Int) * 3 + 0).toNat =
      countingBuffer ((0 : Int) * 3 + (3 - 1 - 0)).toNat ∧
    reverse countingBuffer 3 RevDir.REV_ROW ((0 : Int) * 3 + 0).toNat =
      countingBuffer (((3 : Int) - 1 - 0) * 3 + 0).toNat ∧
    reverse countingBuffer 3 RevDir.REV_COL 0 = 3 ∧
    reverse countingBuffer 3 RevDir.REV_ROW 0 = 7 ∧
    reverse countingBuffer 3 RevDir.REV_COL 1 = 2 :=
  ⟨(reverse_mirrors countingBuffer 3).1 0 0 (by decide) (by decide) (by decide) (by decide),
    (reverse_mirrors countingBuffer 3).2.1 0 0 (by decide) (by decide) (by decide) (by decide),
    by decide, by decide, by decide⟩

/-- Witness of C37: the 4x4 buffer holding 1 to 16.  After `ROT_90` the first
row reads 13, 9, 5, 1: the first column, from the bottom up. -/
theorem rotateBuffer_geometric_witness :
    rotateBuffer countingBuffer 4 BufRotate.ROT_90 ((0 : Int) * 4 + 1).toNat =
      countingBuffer (((4 : Int) - 1 - 1) * 4 + 0).toNat ∧
    (List.range 4).map (rotateBuffer countingBuffer 4 BufRotate.ROT_90) = [13, 9, 5, 1] ∧
    (List.range 4).map (rotateBuffer countingBuffer 4 BufRotate.ROT_180) = [16, 15, 14, 13] ∧
    (List.range 4).map (rotateBuffer countingBuffer 4 BufRotate.ROT_270) = [4, 8, 12, 16] :=
  ⟨(rotateBuffer_geometric countingBuffer 4).1 0 1 (by decide) (by decide) (by decide)
    (by decide), by decide, by decide, by decide⟩

/-- Witness of C38: the 5x5 buffer holding 1 to 25. -/
theorem rotateBuffer_quarter_turns_witness :
    rotateBuffer (rotateBuffer countingBuffer 5 BufRotate.ROT_90) 5 BufRotate.ROT_90 =
      rotateBuffer countingBuffer 5 BufRotate.ROT_180 ∧
    rotateBuffer (rotateBuffer (rotateBuffer countingBuffer 5 BufRotate.ROT_90) 5
      BufRotate.ROT_90) 5 BufRotate.ROT_90 = rotateBuffer countingBuffer 5 BufRotate.ROT_270 ∧
    rotateBuffer countingBuffer 5 BufRotate.ROT_180 0 = 25 ∧
    rotateBuffer countingBuffer 5 BufRotate.ROT_270 0 = 5 :=
  ⟨(rotateBuffer_quarter_turns countingBuffer 5).1,
    (rotateBuffer_quarter_turns countingBuffer 5).2, by decide, by decide⟩

/-- Witness of C36: a read of 100 bytes, six whole records; the press of "up"
and the press of "enter" are the two events emitted. -/
theorem handleEvents_records_witness :
    ((100 : Int) / EventSize).toNat = 6 ∧
    handleEvents 100 sampleRecords = [Joystick_Event.JS_UP, Joystick_Event.JS_ENTER] :=
  ⟨by decide, (handleEvents_records 100 sampleRecords).1.trans (by decide)⟩
end QSenseHat
